import Mathlib

/-!
# LabsDistCompSys, LV4: replicated key-value store

A shallow embedding of the three leader / follower / store variants under
`src/LV4`, of the two RPC servers under `src/LV5`, and the properties stated
about them.

* `UMap`               : `std::unordered_map` / `std::map` as association lists
* `Plain`              : the store without timestamps, shared by two variants
* `Registry`           : the pruning of the follower registry
* `Assignment_1_CP`    : synchronous (strict) variant, `src/LV4/Assignment_1_CP`
* `Assignment_2_AP`    : asynchronous variant, `src/LV4/Assignment_2_AP`
* `Assignment_3_Bonus` : asynchronous variant with last-write-wins timestamps,
                         `src/LV4/Assignment_3_Bonus`
* `LV5`                : fixed-width and length-prefixed RPC servers

Modelling conventions.  Text fields (`char[N]` read through `std::string`) are
`String`s, one character per byte.  Socket input is an explicit argument: the
list of messages a `recv` loop reads.  Socket output is recorded in a trace of
`(socket, message)` pairs.  Console logging is not modelled.
-/

/-! ## Finite maps -/

namespace UMap

/-- The lookup `data.find(key)`: the value bound to `key`, if any. -/
def find {κ ν : Type} [DecidableEq κ] (key : κ) : List (κ × ν) → Option ν
  | [] => none
  | (k, v) :: rest => if k = key then some v else find key rest

/-- The assignment `data[key] = value`: overwrite the binding of `key`, or
add one when there is none. -/
def assign {κ ν : Type} [DecidableEq κ] (key : κ) (value : ν) : List (κ × ν) → List (κ × ν)
  | [] => [(key, value)]
  | (k, v) :: rest => if k = key then (key, value) :: rest else (k, v) :: assign key value rest

/-- The removal `data.erase(key)`. -/
def erase {κ ν : Type} [DecidableEq κ] (key : κ) : List (κ × ν) → List (κ × ν)
  | [] => []
  | (k, v) :: rest => if k = key then erase key rest else (k, v) :: erase key rest

end UMap

/-! ## Assignment_3_Bonus: the last-write-wins store -/

namespace Assignment_3_Bonus

/-- The enum `CommandType` of `kv_store.h`. -/
inductive CommandType where
  | CMD_SET
  | CMD_GET
  | CMD_DELETE
  | CMD_ACK
  | CMD_SYNC
  | CMD_LIST
deriving DecidableEq, Repr

/-- The struct `Message` of `Assignment_3_Bonus/kv_store.h`; `sequence` is an
`int`, `timestamp` a `uint64_t` that is only ever compared. -/
structure Message where
  cmd : CommandType := CommandType.CMD_SET
  key : String := ""
  value : String := ""
  response : String := ""
  status : Int := 0
  sequence : Int := 0
  timestamp : Nat := 0
deriving DecidableEq, Repr

/-- The struct `KeyValueStore::ValueEntry`. -/
structure ValueEntry where
  value : String
  timestamp : Nat
deriving DecidableEq, Repr

/-- The class `KeyValueStore` of `Assignment_3_Bonus/kv_store.h`. -/
structure KeyValueStore where
  data : List (String × ValueEntry) := []
deriving DecidableEq, Repr

namespace KeyValueStore

/-- The method `bool set(key, value, ts)`: the returned flag and the store
afterwards. -/
def set (s : KeyValueStore) (key value : String) (ts : Nat) : Bool × KeyValueStore :=
  match UMap.find key s.data with
  | some it =>
    if ts < it.timestamp then (false, s)
    else (true, { data := UMap.assign key { value := value, timestamp := ts } s.data })
  | none => (true, { data := UMap.assign key { value := value, timestamp := ts } s.data })

/-- The method `bool get(key, value&)`: `some value` stands for `true` with the
out-parameter written, `none` for `false`. -/
def get (s : KeyValueStore) (key : String) : Option String :=
  match UMap.find key s.data with
  | some it => some it.value
  | none => none

/-- The method `bool deleteKey(key, ts)`. -/
def deleteKey (s : KeyValueStore) (key : String) (ts : Nat) : Bool × KeyValueStore :=
  match UMap.find key s.data with
  | some it =>
    if ts < it.timestamp then (false, s)
    else (true, { data := UMap.erase key s.data })
  | none => (false, s)

end KeyValueStore

/-- The entry bound to a key after `set(key, value, ts)`, given the entry bound
to it before: the body of `set` seen from one key. -/
def lwwMerge (cur : Option ValueEntry) (value : String) (ts : Nat) : Option ValueEntry :=
  match cur with
  | some it => if ts < it.timestamp then some it else some { value := value, timestamp := ts }
  | none => some { value := value, timestamp := ts }

/-- A timestamped write `(key, value, timestamp)`. -/
structure Write where
  key : String
  value : String
  timestamp : Nat
deriving DecidableEq, Repr

/-- Apply a list of writes, first to last, with the timestamped `set`. -/
def applyWrites (s : KeyValueStore) (ws : List Write) : KeyValueStore :=
  ws.foldl (fun st w => (st.set w.key w.value w.timestamp).2) s

/-- The globals of `Assignment_3_Bonus/follower.cpp`. -/
structure Follower where
  store : KeyValueStore := {}
  lastSequence : Int := 0
deriving DecidableEq, Repr

/-- One round of the loop of `listenForUpdates` on a received message. -/
def listenForUpdatesStep (f : Follower) (msg : Message) : Follower :=
  if msg.cmd = CommandType.CMD_SET then
    { store := (f.store.set msg.key msg.value msg.timestamp).2, lastSequence := msg.sequence }
  else f

/-- The function `listenForUpdates`: the loop runs over the messages received
until the connection is lost. -/
def listenForUpdates (f : Follower) (msgs : List Message) : Follower :=
  msgs.foldl listenForUpdatesStep f

end Assignment_3_Bonus

/-! ## The plain store

`Assignment_1_CP/kv_store.h` and `Assignment_2_AP/kv_store.h` declare the same
class `KeyValueStore`, word for word. -/

namespace Plain

/-- The class `KeyValueStore` of the plain variants: an `unordered_map` from
key to value. -/
structure KeyValueStore where
  data : List (String × String) := []
deriving DecidableEq, Repr

namespace KeyValueStore

/-- The method `void set(key, value)`. -/
def set (s : KeyValueStore) (key value : String) : KeyValueStore :=
  { data := UMap.assign key value s.data }

/-- The method `bool get(key, value&)`: `some value` stands for `true` with the
out-parameter written, `none` for `false`. -/
def get (s : KeyValueStore) (key : String) : Option String :=
  UMap.find key s.data

/-- The method `bool deleteKey(key)`: `data.erase(key) > 0`, and the store
afterwards. -/
def deleteKey (s : KeyValueStore) (key : String) : Bool × KeyValueStore :=
  ((UMap.find key s.data).isSome, { data := UMap.erase key s.data })

/-- The method `getAllData`. -/
def getAllData (s : KeyValueStore) : List (String × String) := s.data

end KeyValueStore

/-- The macro `MAX_KEY_SIZE`. -/
def MAX_KEY_SIZE : Nat := 256

/-- The macro `MAX_VALUE_SIZE`. -/
def MAX_VALUE_SIZE : Nat := 4096

/-- The call `snprintf(buf, size, ...)` on the formatted text: at most
`size - 1` characters are stored. -/
def snprintf (size : Nat) (text : String) : String :=
  String.mk (text.data.take (size - 1))

end Plain

/-! ## Assignment_1_CP: the synchronous leader and its follower -/

namespace Assignment_1_CP

open Plain

/-- The macro `ACK_TIMEOUT_MS`: the length of the bounded wait. -/
def ACK_TIMEOUT_MS : Nat := 5000

/-- The macro `REQUIRE_ALL_ACKS` as `kv_store.h` sets it.  The functions below
take the flag as an argument, so that both configurations are covered. -/
def REQUIRE_ALL_ACKS : Bool := true

/-- The enum `CommandType` of `kv_store.h`. -/
inductive CommandType where
  | CMD_SET
  | CMD_GET
  | CMD_DELETE
  | CMD_ACK
  | CMD_SYNC
  | CMD_LIST
deriving DecidableEq, Repr

/-- The struct `Message` of `Assignment_1_CP/kv_store.h`; `sequence` is a
`uint64_t`. -/
structure Message where
  cmd : CommandType := CommandType.CMD_SET
  key : String := ""
  value : String := ""
  response : String := ""
  status : Int := 0
  sequence : Nat := 0
  followerId : Int := -1
deriving DecidableEq, Repr

/-- The struct `PendingOperation` without its mutex and condition variable.
The two `int` counters only count followers and acknowledgements up from 0. -/
structure PendingOperation where
  expectedAcks : Nat
  receivedAcks : Nat
  completed : Bool
  success : Bool
deriving DecidableEq, Repr

/-- The globals of `leader.cpp`: `store`, `followerSockets`, `sequenceCounter`
(a `uint64_t`) and `pendingOps`. -/
structure Leader where
  store : KeyValueStore := {}
  followerSockets : List Int := []
  sequenceCounter : Nat := 0
  pendingOps : List (Nat × PendingOperation) := []
deriving DecidableEq, Repr

/-- One message read by a thread `receiveAcks(followerSocket, followerId)`. -/
structure AckEvent where
  followerSocket : Int
  followerId : Int
  ackMsg : Message
deriving DecidableEq, Repr

/-- One round of the loop of `receiveAcks` on a message that `recv` delivered. -/
def receiveAcks (requireAllAcks : Bool) (l : Leader) (ev : AckEvent) : Leader :=
  if ev.ackMsg.cmd = CommandType.CMD_ACK then
    match UMap.find ev.ackMsg.sequence l.pendingOps with
    | some op =>
      let op1 : PendingOperation := { op with receivedAcks := op.receivedAcks + 1 }
      let op2 : PendingOperation :=
        if requireAllAcks then
          if op1.receivedAcks ≥ op1.expectedAcks then
            { op1 with completed := true, success := true }
          else op1
        else
          let majority := op1.expectedAcks / 2 + 1
          if op1.receivedAcks ≥ majority then
            { op1 with completed := true, success := true }
          else op1
      { l with pendingOps := UMap.assign ev.ackMsg.sequence op2 l.pendingOps }
    | none => l
  else l

/-- The predicate `op->completed` of the wait, read through the pending table. -/
def completed (l : Leader) (sequence : Nat) : Bool :=
  match UMap.find sequence l.pendingOps with
  | some op => op.completed
  | none => false

/-- The rounds of `receiveAcks` that decide a pending operation.  The list holds
the messages the `receiveAcks` threads handle, in order, from the registration
of the pending entry to its removal; once the operation is completed no later
message changes `op->success`, so the run stops there.  The split of the list
at the timeout of the wait is made in `wait_for` and
`broadcastAndWaitForAcksSteps` below. -/
def waitForAcks (requireAllAcks : Bool) (l : Leader) (sequence : Nat) : List AckEvent → Leader
  | [] => l
  | ev :: rest =>
    if completed l sequence then l
    else waitForAcks requireAllAcks (receiveAcks requireAllAcks l ev) sequence rest

/-- The number of acknowledgements for `sequence` among the messages handled:
the messages with command `CMD_ACK` that carry this sequence number. -/
def ackCount (sequence : Nat) (acks : List AckEvent) : Nat :=
  acks.countP (fun ev => ev.ackMsg.cmd = CommandType.CMD_ACK ∧ ev.ackMsg.sequence = sequence)

/-- The required count in the words of the specification: all `n` followers under
the strict configuration, `n / 2 + 1` under the quorum configuration. -/
def requiredAcks (requireAllAcks : Bool) (n : Nat) : Nat :=
  if requireAllAcks then n else n / 2 + 1

/-- What `broadcastAndWaitForAcks` returns and does. -/
structure Broadcast where
  result : Bool
  leader : Leader
  sent : List (Int × Message)
deriving DecidableEq, Repr

/-- The function `broadcastAndWaitForAcks`; `acks` is what the `receiveAcks`
threads handle while the pending entry of the write exists: from
`pendingOps[msg.sequence] = op` to `pendingOps.erase(msg.sequence)`, which
covers the wait and the time between the end of the wait and the cleanup.  The
function returns `op->success` as it stands at the cleanup, not the value of
the wait.  `broadcastAndWaitForAcksSteps` below splits `acks` at the timeout
and has the same result. -/
def broadcastAndWaitForAcks (requireAllAcks : Bool) (l : Leader) (msg : Message)
    (acks : List AckEvent) : Broadcast :=
  let currentFollowers := l.followerSockets
  let numFollowers := currentFollowers.length
  if numFollowers = 0 then
    { result := true, leader := l, sent := [] }
  else
    let op : PendingOperation :=
      { expectedAcks := numFollowers, receivedAcks := 0, completed := false, success := false }
    let l1 : Leader := { l with pendingOps := UMap.assign msg.sequence op l.pendingOps }
    let sent := currentFollowers.map (fun followerSocket => (followerSocket, msg))
    let l2 := waitForAcks requireAllAcks l1 msg.sequence acks
    let result :=
      match UMap.find msg.sequence l2.pendingOps with
      | some op2 => op2.success
      | none => false
    { result := result,
      leader := { l2 with pendingOps := UMap.erase msg.sequence l2.pendingOps },
      sent := sent }

/-- What one round of the loop of `handleClient` does: the leader afterwards,
the message sent back to the client, and the messages sent to followers. -/
structure ClientStep where
  leader : Leader
  response : Message
  sent : List (Int × Message)
deriving DecidableEq, Repr

/-- The increment `++sequenceCounter` on the `uint64_t` counter: the new value. -/
def nextSequence (sequenceCounter : Nat) : Nat :=
  (sequenceCounter + 1) % 2 ^ 64

/-- The text of the `CMD_LIST` answer for the entries in the order given.  The
loop of the source iterates a `std::unordered_map`, whose order the language
leaves to the hash table; the model passes the entries in the order of the
association list, so the text is that of the source up to the order of its
`key=value; ` items. -/
def listStr (data : List (String × String)) : String :=
  data.foldl (fun acc kv => acc ++ kv.1 ++ "=" ++ kv.2 ++ "; ") "Keys: "

/-- One round of the loop of `handleClient` on a received message; `acks` is
what the `receiveAcks` threads handle while the pending entry of the request
exists (see `broadcastAndWaitForAcks`). -/
def handleClientStep (requireAllAcks : Bool) (l : Leader) (msg : Message)
    (acks : List AckEvent) : ClientStep :=
  let key := msg.key
  let value := msg.value
  if msg.cmd = CommandType.CMD_SET then
    let sequence := nextSequence l.sequenceCounter
    let l1 : Leader := { l with sequenceCounter := sequence }
    let msg1 : Message := { msg with sequence := sequence }
    let b := broadcastAndWaitForAcks requireAllAcks l1 msg1 acks
    if b.result then
      { leader := { b.leader with store := b.leader.store.set key value },
        response := { msg1 with
          status := 0,
          response := snprintf MAX_VALUE_SIZE
            ("SET " ++ key ++ " = " ++ value ++ " (replicated to all nodes)") },
        sent := b.sent }
    else
      { leader := b.leader,
        response := { msg1 with
          status := -1,
          response := snprintf MAX_VALUE_SIZE
            "FAILED: Could not replicate to all followers (CP violation prevented)" },
        sent := b.sent }
  else if msg.cmd = CommandType.CMD_GET then
    match l.store.get key with
    | some result =>
      { leader := l,
        response := { msg with status := 0, response := snprintf MAX_VALUE_SIZE result },
        sent := [] }
    | none =>
      { leader := l,
        response := { msg with status := -1, response := snprintf MAX_VALUE_SIZE "Key not found" },
        sent := [] }
  else if msg.cmd = CommandType.CMD_DELETE then
    let sequence := nextSequence l.sequenceCounter
    let l1 : Leader := { l with sequenceCounter := sequence }
    let msg1 : Message := { msg with sequence := sequence }
    let b := broadcastAndWaitForAcks requireAllAcks l1 msg1 acks
    if b.result then
      let d := b.leader.store.deleteKey key
      { leader := { b.leader with store := d.2 },
        response := { msg1 with
          status := if d.1 then 0 else -1,
          response := snprintf MAX_VALUE_SIZE
            (if d.1 then "Key deleted (replicated to all nodes)" else "Key not found") },
        sent := b.sent }
    else
      { leader := b.leader,
        response := { msg1 with
          status := -1,
          response := snprintf MAX_VALUE_SIZE
            "FAILED: Could not replicate to all followers (CP violation prevented)" },
        sent := b.sent }
  else if msg.cmd = CommandType.CMD_LIST then
    { leader := l,
      response := { msg with
        status := 0,
        response := snprintf MAX_VALUE_SIZE (listStr l.store.getAllData) },
      sent := [] }
  else
    { leader := l, response := msg, sent := [] }

/-- The function `handleClient`: the loop over the requests one client sends,
each with the acknowledgements handled while its pending entry exists. -/
def handleClient (requireAllAcks : Bool) (l : Leader) :
    List (Message × List AckEvent) → List ClientStep
  | [] => []
  | (msg, acks) :: rest =>
    let r := handleClientStep requireAllAcks l msg acks
    r :: handleClient requireAllAcks r.leader rest

/-- One round of the loop of `acceptFollowers` on an accepted connection. -/
def acceptFollowers (l : Leader) (followerSocket : Int) : Leader :=
  { l with followerSockets := l.followerSockets ++ [followerSocket] }

/-- The globals of `follower.cpp`. -/
structure Follower where
  store : KeyValueStore := {}
  followerId : Int := 0
deriving DecidableEq, Repr

/-- The function `sendAck`: the message it sends to the leader. -/
def sendAck (f : Follower) (sequence : Nat) : Message :=
  { cmd := CommandType.CMD_ACK, sequence := sequence, followerId := f.followerId, status := 0 }

/-- One round of the loop of the follower function `listenForUpdates`: the
follower afterwards and the messages it sends to the leader. -/
def listenForUpdatesStep (f : Follower) (msg : Message) : Follower × List Message :=
  if msg.cmd = CommandType.CMD_SET then
    ({ f with store := f.store.set msg.key msg.value }, [sendAck f msg.sequence])
  else if msg.cmd = CommandType.CMD_DELETE then
    ({ f with store := (f.store.deleteKey msg.key).2 }, [sendAck f msg.sequence])
  else
    (f, [])

/-- The acknowledgements a follower connected on `followerSocket` returns for a
message the leader sent it, as the leader thread of that socket reads them. -/
def followerReplies (followerSocket : Int) (f : Follower) (msg : Message) : List AckEvent :=
  (listenForUpdatesStep f msg).2.map (fun ack =>
    { followerSocket := followerSocket, followerId := f.followerId, ackMsg := ack })

end Assignment_1_CP

/-! ## Assignment_2_AP: the asynchronous leader -/

namespace Assignment_2_AP

open Plain

/-- The enum `CommandType` of `kv_store.h`. -/
inductive CommandType where
  | CMD_SET
  | CMD_GET
  | CMD_DELETE
  | CMD_ACK
  | CMD_SYNC
  | CMD_LIST
deriving DecidableEq, Repr

/-- The struct `Message` of `Assignment_2_AP/kv_store.h`; `sequence` is an `int`. -/
structure Message where
  cmd : CommandType := CommandType.CMD_SET
  key : String := ""
  value : String := ""
  response : String := ""
  status : Int := 0
  sequence : Int := 0
deriving DecidableEq, Repr

/-- The globals of `leader.cpp`: `store`, `followerSockets`, `operationLog` and
`logSequence` (a `std::atomic<int>`). -/
structure Leader where
  store : KeyValueStore := {}
  followerSockets : List Int := []
  operationLog : List Message := []
  logSequence : Int := 0
deriving DecidableEq, Repr

/-- The value of a 32-bit `int` after arithmetic on `std::atomic<int>`, which
wraps around in two's complement. -/
def wrapInt32 (x : Int) : Int :=
  (x + 2 ^ 31) % 2 ^ 32 - 2 ^ 31

/-- The increment `++logSequence`: the new value. -/
def nextLogSequence (logSequence : Int) : Int :=
  wrapInt32 (logSequence + 1)

/-- What one round of the loop of `handleClient` does: the leader afterwards,
the log entries sent on the client socket before the answer (SYNC), the answer,
and the message handed to a detached `broadcastToFollowersAsync` thread. -/
structure ClientStep where
  leader : Leader
  replay : List Message
  response : Message
  broadcast : Option Message
deriving DecidableEq, Repr

/-- One round of the loop of `handleClient` on a received message. -/
def handleClientStep (l : Leader) (msg : Message) : ClientStep :=
  let key := msg.key
  let value := msg.value
  if msg.cmd = CommandType.CMD_SET then
    let store := l.store.set key value
    let sequence := nextLogSequence l.logSequence
    let msg1 : Message := { msg with
      status := 0,
      sequence := sequence,
      response := snprintf MAX_VALUE_SIZE
        ("SET " ++ key ++ " = " ++ value ++ " (seq: " ++ toString sequence ++ ")") }
    { leader := { l with
        store := store, logSequence := sequence, operationLog := l.operationLog ++ [msg1] },
      replay := [],
      response := msg1,
      broadcast := some msg1 }
  else if msg.cmd = CommandType.CMD_GET then
    match l.store.get key with
    | some result =>
      { leader := l, replay := [],
        response := { msg with status := 0, response := snprintf MAX_VALUE_SIZE result },
        broadcast := none }
    | none =>
      { leader := l, replay := [],
        response := { msg with status := -1, response := snprintf MAX_VALUE_SIZE "Key not found" },
        broadcast := none }
  else if msg.cmd = CommandType.CMD_DELETE then
    let d := l.store.deleteKey key
    let sequence := nextLogSequence l.logSequence
    let msg1 : Message := { msg with
      status := if d.1 then 0 else -1,
      sequence := sequence,
      response := snprintf MAX_VALUE_SIZE
        ((if d.1 then "Key deleted" else "Key not found") ++
          " (seq: " ++ toString sequence ++ ")") }
    { leader := { l with
        store := d.2, logSequence := sequence, operationLog := l.operationLog ++ [msg1] },
      replay := [],
      response := msg1,
      broadcast := some msg1 }
  else if msg.cmd = CommandType.CMD_LIST then
    let msg1 : Message := { msg with
      status := 0,
      response := snprintf MAX_VALUE_SIZE
        ("Listed " ++ toString l.store.getAllData.length ++ " keys") }
    { leader := l, replay := [], response := msg1, broadcast := some msg1 }
  else if msg.cmd = CommandType.CMD_SYNC then
    let fromSeq := msg.sequence
    let replay := l.operationLog.filter (fun op => op.sequence > fromSeq)
    let syncDone : Message := {
      cmd := CommandType.CMD_ACK,
      sequence := l.logSequence,
      response := snprintf MAX_VALUE_SIZE
        ("Synced " ++ toString replay.length ++ " operations") }
    { leader := l, replay := replay, response := syncDone, broadcast := none }
  else
    { leader := l, replay := [], response := msg, broadcast := none }

/-- The function `handleClient`: the loop over the requests one client sends. -/
def handleClient (l : Leader) : List Message → List ClientStep
  | [] => []
  | msg :: rest =>
    let r := handleClientStep l msg
    r :: handleClient r.leader rest

end Assignment_2_AP

/-! ## The follower registry of the asynchronous leaders

`Assignment_2_AP/leader.cpp` and `Assignment_3_Bonus/leader.cpp` prune the
registry with the same two loops. -/

namespace Registry

/-- The first loop of `broadcastToFollowersAsync`: the sockets pushed to
`deadFollowers`.  The `i`-th `send` of the loop returns -1 when `sendFails i`. -/
def deadFollowers (sendFails : Nat → Bool) : List Int → List Int
  | [] => []
  | followerSocket :: rest =>
    if sendFails 0 then followerSocket :: deadFollowers (fun i => sendFails (i + 1)) rest
    else deadFollowers (fun i => sendFails (i + 1)) rest

/-- The second loop of `broadcastToFollowersAsync`: for each dead socket,
`erase(remove(begin, end, dead), end)` drops every entry equal to it. -/
def removeDead (followerSockets : List Int) (dead : List Int) : List Int :=
  dead.foldl (fun socks d => socks.filter (fun s => s ≠ d)) followerSockets

/-- The registered endpoints whose `send` succeeded, in their registered
order: the words of the specification. -/
def survivors (sendFails : Nat → Bool) : List Int → List Int
  | [] => []
  | followerSocket :: rest =>
    if sendFails 0 then survivors (fun i => sendFails (i + 1)) rest
    else followerSocket :: survivors (fun i => sendFails (i + 1)) rest

end Registry

/-! ## Assignment_2_AP: broadcast, registration and the follower -/

namespace Assignment_2_AP

open Plain

/-- What `broadcastToFollowersAsync` does: the leader afterwards and the `send`
calls made, one per registered socket. -/
structure BroadcastStep where
  leader : Leader
  sent : List (Int × Message)
deriving DecidableEq, Repr

/-- The function `broadcastToFollowersAsync`; the `i`-th `send` returns -1 when
`sendFails i`. -/
def broadcastToFollowersAsync (l : Leader) (msg : Message) (sendFails : Nat → Bool) :
    BroadcastStep :=
  let deadFollowers := Registry.deadFollowers sendFails l.followerSockets
  { leader := { l with followerSockets := Registry.removeDead l.followerSockets deadFollowers },
    sent := l.followerSockets.map (fun followerSocket => (followerSocket, msg)) }

/-- What `handleFollower` does: the leader afterwards and the messages sent on
the follower socket, in order. -/
structure FollowerStep where
  leader : Leader
  sent : List Message
deriving DecidableEq, Repr

/-- The function `handleFollower`; `received` is the message the first `recv`
delivers, `none` when it returns 0 or -1. -/
def handleFollower (l : Leader) (followerSocket : Int) (received : Option Message) :
    FollowerStep :=
  let sent : List Message :=
    match received with
    | some syncMsg =>
      if syncMsg.cmd = CommandType.CMD_SYNC then
        let fromSeq := syncMsg.sequence
        let ack : Message := { cmd := CommandType.CMD_ACK, sequence := l.logSequence }
        l.operationLog.filter (fun op => op.sequence > fromSeq) ++ [ack]
      else []
    | none => []
  { leader := { l with followerSockets := l.followerSockets ++ [followerSocket] },
    sent := sent }

/-- The leader after `handleClient` has handled the requests, one at a time. -/
def afterClient (l : Leader) (msgs : List Message) : Leader :=
  msgs.foldl (fun st msg => (handleClientStep st msg).leader) l

/-- The globals of `follower.cpp`, and the number held by the file
`follower_<id>_seq.txt` (`none` while the file has not been written). -/
structure Follower where
  store : KeyValueStore := {}
  followerId : Int := 0
  lastSequence : Int := 0
  seqFile : Option Int := none
deriving DecidableEq, Repr

/-- The function `saveSequence`. -/
def saveSequence (f : Follower) : Follower :=
  { f with seqFile := some f.lastSequence }

/-- The function `loadSequence`. -/
def loadSequence (f : Follower) : Follower :=
  match f.seqFile with
  | some seq => { f with lastSequence := seq }
  | none => f

/-- The message `syncReq` that `requestSync` sends. -/
def syncReq (f : Follower) : Message :=
  { cmd := CommandType.CMD_SYNC, sequence := f.lastSequence }

/-- The receive loop of `requestSync` over the messages `recv` delivers; the end
of the list is a `recv` that returns 0 or -1. -/
def requestSyncLoop (f : Follower) : List Message → Follower
  | [] => f
  | msg :: rest =>
    if msg.cmd = CommandType.CMD_ACK then
      saveSequence { f with lastSequence := msg.sequence }
    else
      let store :=
        if msg.cmd = CommandType.CMD_SET then f.store.set msg.key msg.value
        else if msg.cmd = CommandType.CMD_DELETE then (f.store.deleteKey msg.key).2
        else f.store
      let lastSequence := if msg.sequence > f.lastSequence then msg.sequence else f.lastSequence
      requestSyncLoop { f with store := store, lastSequence := lastSequence } rest

/-- The function `requestSync`; `sendOk` tells whether the `send` of the request
succeeded. -/
def requestSync (f : Follower) (sendOk : Bool) (received : List Message) : Follower :=
  if sendOk then requestSyncLoop f received else f

/-- One round of the loop of the follower function `listenForUpdates`. -/
def listenForUpdatesStep (f : Follower) (msg : Message) : Follower :=
  if msg.cmd = CommandType.CMD_SET then
    saveSequence { f with store := f.store.set msg.key msg.value, lastSequence := msg.sequence }
  else if msg.cmd = CommandType.CMD_DELETE then
    saveSequence { f with
      store := (f.store.deleteKey msg.key).2, lastSequence := msg.sequence }
  else f

/-- The follower function `listenForUpdates` over the messages received until
the connection is lost. -/
def listenForUpdates (f : Follower) (msgs : List Message) : Follower :=
  msgs.foldl listenForUpdatesStep f

end Assignment_2_AP

/-! ## Assignment_2_AP: logged operations -/

namespace Assignment_2_AP

open Plain

/-- Whether a request is a mutating one, SET or DELETE. -/
def mutating (msg : Message) : Bool :=
  msg.cmd = CommandType.CMD_SET ∨ msg.cmd = CommandType.CMD_DELETE

/-- The effect of one operation on a plain store: `set` for SET, `deleteKey` for
DELETE, nothing otherwise. -/
def applyOp (store : KeyValueStore) (msg : Message) : KeyValueStore :=
  if msg.cmd = CommandType.CMD_SET then store.set msg.key msg.value
  else if msg.cmd = CommandType.CMD_DELETE then (store.deleteKey msg.key).2
  else store

end Assignment_2_AP

/-! ## Assignment_3_Bonus: the leader and the catch-up of the follower -/

namespace Assignment_3_Bonus

/-- The globals of `Assignment_3_Bonus/leader.cpp`. -/
structure Leader where
  store : KeyValueStore := {}
  followerSockets : List Int := []
  operationLog : List Message := []
  logSequence : Int := 0
deriving DecidableEq, Repr

/-- The increment `++logSequence` on the `std::atomic<int>`: the new value. -/
def nextLogSequence (logSequence : Int) : Int :=
  Assignment_2_AP.wrapInt32 (logSequence + 1)

/-- What one round of the loop of `handleClient` does: the leader afterwards,
the log entries sent on the client socket before the answer (SYNC), the answer,
and the message handed to a detached `broadcastToFollowersAsync` thread. -/
structure ClientStep where
  leader : Leader
  replay : List Message
  response : Message
  broadcast : Option Message
deriving DecidableEq, Repr

/-- One round of the loop of `handleClient` on a received message; `now` is the
clock reading in milliseconds, used when the message carries timestamp 0. -/
def handleClientStep (l : Leader) (msg : Message) (now : Nat) : ClientStep :=
  let key := msg.key
  let value := msg.value
  let msg0 : Message := if msg.timestamp = 0 then { msg with timestamp := now } else msg
  if msg0.cmd = CommandType.CMD_SET then
    let store := (l.store.set key value msg0.timestamp).2
    let sequence := nextLogSequence l.logSequence
    let msg1 : Message := { msg0 with
      status := 0,
      sequence := sequence,
      response := Plain.snprintf Plain.MAX_VALUE_SIZE
        ("SET " ++ key ++ " = " ++ value ++ " (seq: " ++ toString sequence ++
          ", ts: " ++ toString msg0.timestamp ++ ")") }
    { leader := { l with
        store := store, logSequence := sequence, operationLog := l.operationLog ++ [msg1] },
      replay := [],
      response := msg1,
      broadcast := some msg1 }
  else if msg0.cmd = CommandType.CMD_GET then
    match l.store.get key with
    | some result =>
      { leader := l, replay := [],
        response := { msg0 with
          status := 0, response := Plain.snprintf Plain.MAX_VALUE_SIZE result },
        broadcast := none }
    | none =>
      { leader := l, replay := [],
        response := { msg0 with
          status := -1, response := Plain.snprintf Plain.MAX_VALUE_SIZE "Key not found" },
        broadcast := none }
  else if msg0.cmd = CommandType.CMD_DELETE then
    let store := (l.store.deleteKey key msg0.timestamp).2
    let sequence := nextLogSequence l.logSequence
    let msg1 : Message := { msg0 with
      status := 0,
      sequence := sequence,
      response := Plain.snprintf Plain.MAX_VALUE_SIZE
        ("Deleted " ++ key ++ " (seq: " ++ toString sequence ++
          ", ts: " ++ toString msg0.timestamp ++ ")") }
    { leader := { l with
        store := store, logSequence := sequence, operationLog := l.operationLog ++ [msg1] },
      replay := [],
      response := msg1,
      broadcast := some msg1 }
  else if msg0.cmd = CommandType.CMD_SYNC then
    let fromSeq := msg0.sequence
    let replay := l.operationLog.filter (fun op => op.sequence > fromSeq)
    let syncDone : Message := { cmd := CommandType.CMD_ACK, sequence := l.logSequence }
    { leader := l, replay := replay, response := syncDone, broadcast := none }
  else
    { leader := l, replay := [], response := msg0, broadcast := none }

/-- The function `handleClient`: the loop over the requests one client sends,
each with the clock reading at its arrival. -/
def handleClient (l : Leader) : List (Message × Nat) → List ClientStep
  | [] => []
  | (msg, now) :: rest =>
    let r := handleClientStep l msg now
    r :: handleClient r.leader rest

/-- The leader after `handleClient` has handled the requests, one at a time. -/
def afterClient (l : Leader) (msgs : List (Message × Nat)) : Leader :=
  msgs.foldl (fun st r => (handleClientStep st r.1 r.2).leader) l

/-- What `broadcastToFollowersAsync` does: the leader afterwards and the `send`
calls made, one per registered socket. -/
structure BroadcastStep where
  leader : Leader
  sent : List (Int × Message)
deriving DecidableEq, Repr

/-- The function `broadcastToFollowersAsync`; the `i`-th `send` returns -1 when
`sendFails i`. -/
def broadcastToFollowersAsync (l : Leader) (msg : Message) (sendFails : Nat → Bool) :
    BroadcastStep :=
  let deadFollowers := Registry.deadFollowers sendFails l.followerSockets
  { leader := { l with followerSockets := Registry.removeDead l.followerSockets deadFollowers },
    sent := l.followerSockets.map (fun followerSocket => (followerSocket, msg)) }

/-- What `handleFollower` does: the leader afterwards and the messages sent on
the follower socket, in order. -/
structure FollowerStep where
  leader : Leader
  sent : List Message
deriving DecidableEq, Repr

/-- The function `handleFollower`; `received` is the message the first `recv`
delivers, `none` when it returns 0 or -1. -/
def handleFollower (l : Leader) (followerSocket : Int) (received : Option Message) :
    FollowerStep :=
  let sent : List Message :=
    match received with
    | some syncMsg =>
      if syncMsg.cmd = CommandType.CMD_SYNC then
        let fromSeq := syncMsg.sequence
        let ack : Message := { cmd := CommandType.CMD_ACK, sequence := l.logSequence }
        l.operationLog.filter (fun op => op.sequence > fromSeq) ++ [ack]
      else []
    | none => []
  { leader := { l with followerSockets := l.followerSockets ++ [followerSocket] },
    sent := sent }

/-- The message `syncReq` that the follower function `requestSync` sends. -/
def syncReq (f : Follower) : Message :=
  { cmd := CommandType.CMD_SYNC, sequence := f.lastSequence }

/-- The follower function `requestSync`: the receive loop over the messages
`recv` delivers; the end of the list is a `recv` that returns 0 or -1. -/
def requestSync (f : Follower) : List Message → Follower
  | [] => f
  | msg :: rest =>
    if msg.cmd = CommandType.CMD_ACK then
      { f with lastSequence := msg.sequence }
    else
      let store :=
        if msg.cmd = CommandType.CMD_SET then (f.store.set msg.key msg.value msg.timestamp).2
        else f.store
      let lastSequence := if msg.sequence > f.lastSequence then msg.sequence else f.lastSequence
      requestSync { store := store, lastSequence := lastSequence } rest

end Assignment_3_Bonus

namespace Assignment_3_Bonus

/-- Whether a request is a mutating one, SET or DELETE. -/
def mutating (msg : Message) : Bool :=
  msg.cmd = CommandType.CMD_SET ∨ msg.cmd = CommandType.CMD_DELETE

end Assignment_3_Bonus

/-! ## Assignment_1_CP: the threads of the leader -/

namespace Assignment_1_CP

/-- The function `receiveAcks` as one thread runs it: the loop over the results
of `recv` on `followerSocket`, where `none` is a result of 0 or -1.  On `none`
the loop ends and the socket is closed; the removal from `followerSockets` is
commented out in the source. -/
def receiveAcksThread (requireAllAcks : Bool) (l : Leader) (followerSocket followerId : Int) :
    List (Option Message) → Leader
  | [] => l
  | none :: _ => l
  | some ackMsg :: rest =>
    receiveAcksThread requireAllAcks
      (receiveAcks requireAllAcks l
        { followerSocket := followerSocket, followerId := followerId, ackMsg := ackMsg })
      followerSocket followerId rest

/-- What happens at the leader: `accept` returns on the registration socket
(`none` for -1), a `receiveAcks` thread reads from its follower until the
connection is lost, or `handleClient` handles a request. -/
inductive Event where
  | accepted (followerSocket : Option Int)
  | received (followerSocket followerId : Int) (results : List (Option Message))
  | request (msg : Message) (acks : List AckEvent)

/-- The leader after one event. -/
def step (requireAllAcks : Bool) (l : Leader) : Event → Leader
  | Event.accepted (some followerSocket) => acceptFollowers l followerSocket
  | Event.accepted none => l
  | Event.received followerSocket followerId results =>
    receiveAcksThread requireAllAcks l followerSocket followerId results
  | Event.request msg acks => (handleClientStep requireAllAcks l msg acks).leader

/-- The leader after a list of events, first to last. -/
def run (requireAllAcks : Bool) (l : Leader) (events : List Event) : Leader :=
  events.foldl (step requireAllAcks) l

/-- The sockets that `accept` returned during a list of events, in order. -/
def acceptedSockets : List Event → List Int
  | [] => []
  | Event.accepted (some followerSocket) :: rest => followerSocket :: acceptedSockets rest
  | _ :: rest => acceptedSockets rest

end Assignment_1_CP

/-! ## The plain store as a finite map -/

namespace Plain

/-- An operation on the plain store: `set(key, value)` or `deleteKey(key)`. -/
inductive StoreOp where
  | set (key value : String)
  | deleteKey (key : String)
deriving DecidableEq, Repr

/-- The key an operation works on. -/
def StoreOp.key : StoreOp → String
  | StoreOp.set key _ => key
  | StoreOp.deleteKey key => key

/-- The store after one operation. -/
def applyStoreOp (s : KeyValueStore) : StoreOp → KeyValueStore
  | StoreOp.set key value => s.set key value
  | StoreOp.deleteKey key => (s.deleteKey key).2

/-- The store after a list of operations, first to last. -/
def applyStoreOps (s : KeyValueStore) (ops : List StoreOp) : KeyValueStore :=
  ops.foldl applyStoreOp s

/-- The words of the specification for `get(k)` after a list of operations on an
empty store: the value of the most recent `set(k, .)` when no `deleteKey(k)`
follows it, and not found otherwise. -/
def mostRecent (k : String) (ops : List StoreOp) : Option String :=
  match ops.reverse.find? (fun op => op.key = k) with
  | some (StoreOp.set _ value) => some value
  | some (StoreOp.deleteKey _) => none
  | none => none

end Plain

/-! ## Assignment_1_CP: the loop of the follower -/

namespace Assignment_1_CP

/-- The follower function `listenForUpdates` over the messages received until
the connection is lost: the follower afterwards and the messages it sent. -/
def listenForUpdates (f : Follower) : List Message → Follower × List Message
  | [] => (f, [])
  | msg :: rest =>
    let r := listenForUpdatesStep f msg
    let r2 := listenForUpdates r.1 rest
    (r2.1, r.2 ++ r2.2)

end Assignment_1_CP

/-! ## Assignment_2_AP: reconnection and concurrent client handlers -/

namespace Assignment_2_AP

/-- The loops of `main` of `follower.cpp`, reduced to the arguments of the calls
of `sleep`, in seconds.  The list holds the results of the successive calls of
`connectToLeader` (`true`: connected); `i` and `retryDelay` are the variables of
the `for` loop.  A failed attempt sleeps `retryDelay` and doubles it up to 30;
after the tenth failed attempt of a round the `while` loop starts over with
`retryDelay = 1`; a connection ends with `sleep(2)` and a new round. -/
def mainSleeps (i : Nat) (retryDelay : Nat) : List Bool → List Nat
  | [] => []
  | true :: rest => 2 :: mainSleeps 0 1 rest
  | false :: rest =>
    retryDelay ::
      (if i + 1 < 10 then mainSleeps (i + 1) (min (retryDelay * 2) 30) rest
       else mainSleeps 0 1 rest)

/-- The function `main` of `follower.cpp` from its first connection attempt. -/
def main (connects : List Bool) : List Nat :=
  mainSleeps 0 1 connects

/-- One thread running `handleClient`: the requests it has still to read, and the
message it has built and not yet appended to the log. -/
structure ClientThread where
  pending : List Message := []
  inflight : Option Message := none
deriving DecidableEq, Repr

/-- The leader together with its client threads. -/
structure Concurrent where
  leader : Leader := {}
  threads : List ClientThread := []
deriving DecidableEq, Repr

/-- One atomic step of thread `tid`.  A thread that holds a built message appends
it to the log (the block under `logMutex`).  Otherwise it reads its next
request and handles it up to the log append: for a SET or DELETE the store is
updated and the counter incremented, the log append is left for the next step. -/
def threadStep (c : Concurrent) (tid : Nat) : Concurrent :=
  match c.threads[tid]? with
  | none => c
  | some t =>
    match t.inflight with
    | some msg =>
      { leader := { c.leader with operationLog := c.leader.operationLog ++ [msg] },
        threads := c.threads.set tid { t with inflight := none } }
    | none =>
      match t.pending with
      | [] => c
      | msg :: rest =>
        let r := handleClientStep c.leader msg
        if mutating msg then
          { leader := { r.leader with operationLog := c.leader.operationLog },
            threads := c.threads.set tid { pending := rest, inflight := some r.response } }
        else
          { leader := r.leader,
            threads := c.threads.set tid { pending := rest, inflight := none } }

/-- The leader and its threads after a schedule: the list of the threads that
take the successive atomic steps. -/
def runSchedule (c : Concurrent) (schedule : List Nat) : Concurrent :=
  schedule.foldl threadStep c

end Assignment_2_AP

/-! ## LV5: the two RPC servers

`src/LV5/Assignment1/server.cpp` reads one fixed-width `RPC_message`;
`src/LV5/Assignment3/server.cpp` reads length-prefixed fields.  Buffers are
lists of characters, one per byte; each `recv` delivers what it asked for. -/

namespace LV5

/-- The byte 0 that ends a C string. -/
def NUL : Char := Char.ofNat 0

/-- The enumerator `PROCEDURE_SET`. -/
def PROCEDURE_SET : Nat := 2

/-- The enumerator `PROCEDURE_GET`. -/
def PROCEDURE_GET : Nat := 3

/-- The conversion `std::string(const char *)`: the bytes before the first NUL. -/
def cstr (buf : List Char) : String :=
  String.mk (buf.takeWhile (fun c => c ≠ NUL))

/-- The first `n` bytes that `strncpy(dst, src, n)` writes: the bytes of `src`,
at most `n`, padded with NUL. -/
def strncpy (src : String) (n : Nat) : List Char :=
  src.data.take n ++ List.replicate (n - src.data.length) NUL

/-- The lookup of the servers: `kvStore[key]` when `kvStore.count(key)`, the
empty string otherwise. -/
def lookup (kvStore : List (String × String)) (key : String) : String :=
  match UMap.find key kvStore with
  | some value => value
  | none => ""

end LV5

namespace LV5.Assignment1

/-- The struct `RPC_message` of `rpc.h` in its `set_args` view: two arrays of 64
bytes, the second right after the first; `get_args.key` is the first array. -/
structure RPC_message where
  procedure : Nat
  key : List Char
  value : List Char
deriving DecidableEq, Repr

/-- The function `handleClient` of the fixed-width server: the store afterwards
and the message sent back, if any.  `request` is `none` when `recv` returns 0
or -1.  A key array without NUL is read on into the value array. -/
def handleClient (kvStore : List (String × String)) (request : Option RPC_message) :
    List (String × String) × Option RPC_message :=
  match request with
  | none => (kvStore, none)
  | some request =>
    if request.procedure = PROCEDURE_SET then
      let key := cstr (request.key ++ request.value)
      let value := cstr request.value
      (UMap.assign key value kvStore, some request)
    else if request.procedure = PROCEDURE_GET then
      let key := cstr (request.key ++ request.value)
      let value := lookup kvStore key
      (kvStore, some { request with value := strncpy value 63 ++ [NUL] })
    else (kvStore, none)

/-- The content of an array `char[64]` that holds a C string: the bytes of the
string, the NUL that ends it and whatever follows, cut at 64 bytes. -/
def fixedField (text : String) (pad : List Char) : List Char :=
  (text.data ++ NUL :: pad).take 64

/-- The value the client stub `kv_get` returns for a response. -/
def kv_get_result (response : RPC_message) : String :=
  cstr response.value

end LV5.Assignment1

namespace LV5.Assignment3

/-- Modelled from the spec: the header `rpc.h` of Assignment3 is not among the
sources; the enumerator `PROCEDURE_SET` is that of the headers of Assignment1
and Assignment2. -/
def PROCEDURE_SET : Nat := 2

/-- Modelled from the spec: the header `rpc.h` of Assignment3 is not among the
sources; the enumerator `PROCEDURE_GET` is that of the headers of Assignment1
and Assignment2. -/
def PROCEDURE_GET : Nat := 3

/-- What the successive calls of `recv` deliver to `handleClient` of the
length-prefixed server: the procedure (`none` when the first `recv` returns 0
or -1), then a length and that many bytes for the key and, for SET, for the
value. -/
structure Request where
  procedure : Option Nat
  keyLen : Nat := 0
  keyBytes : List Char := []
  valLen : Nat := 0
  valBytes : List Char := []
deriving DecidableEq, Repr

/-- What `handleClient` sends back: the acknowledgement byte 1 for SET, the
length and the bytes of the value for GET. -/
inductive Response where
  | ack
  | value (valLen : Nat) (bytes : List Char)
deriving DecidableEq, Repr

/-- The buffer `std::vector<char> buf(len + 1)` after `recv(buf.data(), len)`
and `buf[len] = 0`. -/
def readBuf (len : Nat) (bytes : List Char) : List Char :=
  bytes.take len ++ List.replicate (len - bytes.length) NUL ++ [NUL]

/-- The function `handleClient` of the length-prefixed server: the store
afterwards and what is sent back, if anything. -/
def handleClient (kvStore : List (String × String)) (request : Request) :
    List (String × String) × Option Response :=
  match request.procedure with
  | none => (kvStore, none)
  | some procedure =>
    if procedure = PROCEDURE_SET then
      let key := cstr (readBuf request.keyLen request.keyBytes)
      let value := cstr (readBuf request.valLen request.valBytes)
      (UMap.assign key value kvStore, some Response.ack)
    else if procedure = PROCEDURE_GET then
      let key := cstr (readBuf request.keyLen request.keyBytes)
      let resultValue := lookup kvStore key
      let valLen := resultValue.length
      (kvStore, some (Response.value valLen (if valLen > 0 then resultValue.data else [])))
    else (kvStore, none)

/-- Modelled from the spec: the client of the length-prefixed server is not among
the sources; it reads the length and then that many bytes, the value. -/
def getResult : Response → String
  | Response.ack => ""
  | Response.value _ bytes => String.mk bytes

end LV5.Assignment3

/-! ## Assignment_1_CP: the wait and the cleanup as separate steps -/

namespace Assignment_1_CP

/-- The call `op->cv.wait_for(lock, ACK_TIMEOUT_MS, [op] { return op->completed; })`
together with the rounds of `receiveAcks` that run before the timeout, in
order.  It gives the leader when the wait ends, the value the call returns
(whether `op->completed` held when it ended) and the messages not handled by
then.  The wait ends as soon as the operation is completed, and at the timeout,
which is the end of the list, otherwise. -/
def wait_for (requireAllAcks : Bool) (l : Leader) (sequence : Nat) :
    List AckEvent → Leader × Bool × List AckEvent
  | [] => (l, completed l sequence, [])
  | ev :: rest =>
    if completed l sequence then (l, true, ev :: rest)
    else wait_for requireAllAcks (receiveAcks requireAllAcks l ev) sequence rest

/-- What `broadcastAndWaitForAcks` returns and does, with the branch of the wait:
`timedOut` holds when the local `success` is false and the TIMEOUT line is
printed. -/
structure TimedBroadcast where
  result : Bool
  timedOut : Bool
  leader : Leader
  sent : List (Int × Message)
deriving DecidableEq, Repr

/-- The function `broadcastAndWaitForAcks` block by block.  `acks` is what the
`receiveAcks` threads handle before the timeout of the wait, `late` what they
handle after the wait has timed out and released `op->mtx` and before the
cleanup block takes `pendingOpsMutex` and erases the pending entry.  Messages
of `acks` left over when the wait ends early are handled before the cleanup as
well.  The value returned is `op->success`, read after the cleanup. -/
def broadcastAndWaitForAcksSteps (requireAllAcks : Bool) (l : Leader) (msg : Message)
    (acks late : List AckEvent) : TimedBroadcast :=
  let currentFollowers := l.followerSockets
  let numFollowers := currentFollowers.length
  if numFollowers = 0 then
    { result := true, timedOut := false, leader := l, sent := [] }
  else
    let op : PendingOperation :=
      { expectedAcks := numFollowers, receivedAcks := 0, completed := false, success := false }
    let l1 : Leader := { l with pendingOps := UMap.assign msg.sequence op l.pendingOps }
    let sent := currentFollowers.map (fun followerSocket => (followerSocket, msg))
    let w := wait_for requireAllAcks l1 msg.sequence acks
    let success := w.2.1
    let l2 := (w.2.2 ++ late).foldl (receiveAcks requireAllAcks) w.1
    let l3 : Leader := { l2 with pendingOps := UMap.erase msg.sequence l2.pendingOps }
    let result :=
      match UMap.find msg.sequence l2.pendingOps with
      | some op2 => op2.success
      | none => false
    { result := result, timedOut := !success, leader := l3, sent := sent }

end Assignment_1_CP

/-! ## Lemmas on finite maps -/

namespace UMap

theorem find_assign {κ ν : Type} [DecidableEq κ] (key k : κ) (value : ν) (l : List (κ × ν)) :
    find k (assign key value l) = if k = key then some value else find k l := by
  induction l with
  | nil =>
    by_cases h : k = key
    · simp [assign, find, h]
    · have h2 : ¬ key = k := fun e => h e.symm
      simp [assign, find, h, h2]
  | cons p rest ih =>
    obtain ⟨k0, v0⟩ := p
    by_cases h0 : k0 = key
    · by_cases h : k = key
      · simp [assign, find, h0, h]
      · have h2 : ¬ key = k := fun e => h e.symm
        simp [assign, find, h0, h, h2]
    · by_cases h : k = key
      · subst h
        simp [assign, find, h0, ih]
      · by_cases h3 : k0 = k
        · simp [assign, find, h0, h, h3]
        · simp [assign, find, h0, h, h3, ih]

theorem find_erase {κ ν : Type} [DecidableEq κ] (key k : κ) (l : List (κ × ν)) :
    find k (erase key l) = if k = key then none else find k l := by
  induction l with
  | nil => simp [erase, find]
  | cons p rest ih =>
    obtain ⟨k0, v0⟩ := p
    by_cases h0 : k0 = key
    · by_cases h : k = key
      · subst h
        simpa [erase, find, h0] using ih
      · have h2 : ¬ key = k := fun e => h e.symm
        simp [erase, find, h0, h, h2, ih]
    · by_cases h : k = key
      · subst h
        simp [erase, find, h0, ih]
      · by_cases h3 : k0 = k
        · simp [erase, find, h0, h, h3]
        · simp [erase, find, h0, h, h3, ih]

end UMap

/-! ## The last-write-wins store -/

namespace Assignment_3_Bonus

open KeyValueStore

theorem find_set (s : KeyValueStore) (k v : String) (ts : Nat) (k' : String) :
    UMap.find k' (s.set k v ts).2.data =
      if k' = k then lwwMerge (UMap.find k s.data) v ts else UMap.find k' s.data := by
  unfold KeyValueStore.set lwwMerge
  cases hf : UMap.find k s.data with
  | none =>
    simp only [UMap.find_assign]
  | some it =>
    by_cases hlt : ts < it.timestamp
    · by_cases hk : k' = k
      · subst hk
        simp [hlt, hf]
      · simp [hlt, hk]
    · simp only [hlt, if_false, UMap.find_assign]

theorem set_stale (s : KeyValueStore) (k v : String) (ts : Nat) (e : ValueEntry)
    (hk : UMap.find k s.data = some e) (hts : ts < e.timestamp) :
    s.set k v ts = (false, s) := by
  simp [KeyValueStore.set, hk, hts]

theorem set_true_find (s : KeyValueStore) (k v : String) (ts : Nat)
    (h : (s.set k v ts).1 = true) :
    UMap.find k (s.set k v ts).2.data = some { value := v, timestamp := ts } := by
  rw [find_set]
  unfold KeyValueStore.set at h
  cases hf : UMap.find k s.data with
  | none => simp [lwwMerge]
  | some it =>
    rw [hf] at h
    by_cases hlt : ts < it.timestamp
    · simp [hlt] at h
    · simp [lwwMerge, hlt]

theorem set_fresh (s : KeyValueStore) (k v : String) (ts : Nat)
    (h : ∀ e, UMap.find k s.data = some e → e.timestamp ≤ ts) :
    s.set k v ts = (true, { data := UMap.assign k { value := v, timestamp := ts } s.data }) := by
  unfold KeyValueStore.set
  cases hf : UMap.find k s.data with
  | none => rfl
  | some it =>
    have := h it hf
    have hn : ¬ ts < it.timestamp := by omega
    simp [hn]

theorem applyWrites_cons (s : KeyValueStore) (w : Write) (ws : List Write) :
    applyWrites s (w :: ws) = applyWrites (s.set w.key w.value w.timestamp).2 ws := rfl

theorem lwwMerge_comm (c : Option ValueEntry) (a b : Write)
    (hab : a.timestamp = b.timestamp → a.value = b.value) :
    lwwMerge (lwwMerge c a.value a.timestamp) b.value b.timestamp =
      lwwMerge (lwwMerge c b.value b.timestamp) a.value a.timestamp := by
  rcases lt_trichotomy a.timestamp b.timestamp with h | h | h
  · cases c with
    | none =>
      have h1 : ¬ b.timestamp < a.timestamp := by omega
      simp [lwwMerge, h, h1]
    | some it =>
      have h1 : ¬ b.timestamp < a.timestamp := by omega
      by_cases ha : a.timestamp < it.timestamp <;> by_cases hb : b.timestamp < it.timestamp
      all_goals simp [lwwMerge, ha, hb, h, h1]
      all_goals omega
  · have hv := hab h
    cases c with
    | none => simp [lwwMerge, h, hv]
    | some it =>
      by_cases hb : b.timestamp < it.timestamp <;> simp [lwwMerge, h, hb, hv]
  · cases c with
    | none =>
      have h1 : ¬ a.timestamp < b.timestamp := by omega
      simp [lwwMerge, h, h1]
    | some it =>
      have h1 : ¬ a.timestamp < b.timestamp := by omega
      by_cases ha : a.timestamp < it.timestamp <;> by_cases hb : b.timestamp < it.timestamp
      all_goals simp [lwwMerge, ha, hb, h, h1]
      all_goals omega

theorem set_set_comm (s : KeyValueStore) (a b : Write)
    (hab : a.key = b.key → a.timestamp = b.timestamp → a.value = b.value) (k : String) :
    UMap.find k ((s.set a.key a.value a.timestamp).2.set b.key b.value b.timestamp).2.data =
      UMap.find k ((s.set b.key b.value b.timestamp).2.set a.key a.value a.timestamp).2.data := by
  simp only [find_set]
  by_cases hkeys : a.key = b.key
  · by_cases hk : k = b.key
    · have hk2 : k = a.key := by rw [hk, hkeys]
      subst hk
      simp only [hkeys, if_true]
      exact lwwMerge_comm _ a b (hab hkeys)
    · have hk2 : ¬ k = a.key := by rw [hkeys]; exact hk
      simp [hk, hk2]
  · have hkeys2 : ¬ b.key = a.key := fun e => hkeys e.symm
    by_cases hka : k = a.key
    · have hkb : ¬ k = b.key := by rw [hka]; exact hkeys
      subst hka
      simp [hkeys, hkeys2]
    · by_cases hkb : k = b.key
      · subst hkb
        simp [hkeys, hkeys2]
      · simp [hka, hkb]

theorem set_find_congr (s t : KeyValueStore) (w : Write)
    (h : ∀ k, UMap.find k s.data = UMap.find k t.data) (k : String) :
    UMap.find k (s.set w.key w.value w.timestamp).2.data =
      UMap.find k (t.set w.key w.value w.timestamp).2.data := by
  simp only [find_set, h]

theorem applyWrites_find_congr (ws : List Write) :
    ∀ s t : KeyValueStore, (∀ k, UMap.find k s.data = UMap.find k t.data) →
      ∀ k, UMap.find k (applyWrites s ws).data = UMap.find k (applyWrites t ws).data := by
  induction ws with
  | nil => intro s t h k; exact h k
  | cons w rest ih =>
    intro s t h k
    rw [applyWrites_cons, applyWrites_cons]
    exact ih _ _ (set_find_congr s t w h) k

theorem applyWrites_one_key (k : String) :
    ∀ (ws : List Write) (s : KeyValueStore) (e0 : ValueEntry),
      (∀ w ∈ ws, w.key = k) → UMap.find k s.data = some e0 →
      ∃ e : ValueEntry, UMap.find k (applyWrites s ws).data = some e ∧
        e0.timestamp ≤ e.timestamp ∧ (∀ w ∈ ws, w.timestamp ≤ e.timestamp) ∧
        (e = e0 ∨ ({ key := k, value := e.value, timestamp := e.timestamp } : Write) ∈ ws) := by
  intro ws
  induction ws with
  | nil =>
    intro s e0 _ h0
    exact ⟨e0, h0, le_refl _, by simp, Or.inl rfl⟩
  | cons w rest ih =>
    intro s e0 hkey h0
    have hw : w.key = k := hkey w (by simp)
    have hrest : ∀ x ∈ rest, x.key = k := fun x hx => hkey x (List.mem_cons_of_mem _ hx)
    rw [applyWrites_cons]
    by_cases hlt : w.timestamp < e0.timestamp
    · have h1 : UMap.find k (s.set w.key w.value w.timestamp).2.data = some e0 := by
        rw [find_set, hw, h0]
        simp [lwwMerge, hlt]
      obtain ⟨e, he, hge, hall, hmem⟩ := ih _ e0 hrest h1
      refine ⟨e, he, hge, ?_, ?_⟩
      · intro x hx
        rcases List.mem_cons.mp hx with h | h
        · subst h
          omega
        · exact hall x h
      · rcases hmem with h | h
        · exact Or.inl h
        · exact Or.inr (List.mem_cons_of_mem _ h)
    · have h1 : UMap.find k (s.set w.key w.value w.timestamp).2.data =
          some { value := w.value, timestamp := w.timestamp } := by
        rw [find_set, hw, h0]
        simp [lwwMerge, hlt]
      obtain ⟨e, he, hge, hall, hmem⟩ := ih _ _ hrest h1
      have hge2 : w.timestamp ≤ e.timestamp := hge
      refine ⟨e, he, by omega, ?_, ?_⟩
      · intro x hx
        rcases List.mem_cons.mp hx with h | h
        · subst h
          exact hge2
        · exact hall x h
      · right
        rcases hmem with h | h
        · subst h
          have : ({ key := k, value := w.value, timestamp := w.timestamp } : Write) = w := by
            cases w
            simp_all
          simp [this]
        · exact List.mem_cons_of_mem _ h

theorem applyWrites_perm {ws1 ws2 : List Write} (hperm : ws1.Perm ws2) :
    (∀ a ∈ ws1, ∀ b ∈ ws1, a.key = b.key → a.timestamp = b.timestamp → a.value = b.value) →
      ∀ (s : KeyValueStore) (k : String),
        UMap.find k (applyWrites s ws1).data = UMap.find k (applyWrites s ws2).data := by
  induction hperm with
  | nil => intro _ s k; rfl
  | cons x _ ih =>
    intro hc s k
    rw [applyWrites_cons, applyWrites_cons]
    exact ih (fun a ha b hb => hc a (List.mem_cons_of_mem _ ha) b (List.mem_cons_of_mem _ hb)) _ k
  | swap x y l =>
    intro hc s k
    rw [applyWrites_cons, applyWrites_cons, applyWrites_cons, applyWrites_cons]
    apply applyWrites_find_congr
    intro k2
    exact set_set_comm s y x (hc y (by simp) x (by simp)) k2
  | trans h1 _ ih1 ih2 =>
    intro hc s k
    rw [ih1 hc s k]
    exact ih2 (fun a ha b hb => hc a (h1.mem_iff.mpr ha) b (h1.mem_iff.mpr hb)) s k

end Assignment_3_Bonus

/-! ## Claims on the last-write-wins store -/

namespace Assignment_3_Bonus

/-- C5: the timestamped `set(k, v, ts)` takes effect exactly when `k` is absent
or `ts` is at least the timestamp stored for `k` (a tie favours the incoming
write): in that case it returns true and `k` is bound to `(v, ts)` afterwards;
in the other case it returns false. -/
theorem C5_set_applies_iff_not_older (s : KeyValueStore) (k v : String) (ts : Nat) :
    ((UMap.find k s.data = none ∨ ∃ e, UMap.find k s.data = some e ∧ e.timestamp ≤ ts) ∧
        (s.set k v ts).1 = true ∧
        UMap.find k (s.set k v ts).2.data = some { value := v, timestamp := ts }) ∨
      (¬ (UMap.find k s.data = none ∨ ∃ e, UMap.find k s.data = some e ∧ e.timestamp ≤ ts) ∧
        (s.set k v ts).1 = false) := by
  cases hf : UMap.find k s.data with
  | none =>
    left
    refine ⟨Or.inl rfl, ?_, ?_⟩
    · simp [KeyValueStore.set, hf]
    · simp [find_set, hf, lwwMerge]
  | some it =>
    by_cases hlt : ts < it.timestamp
    · right
      refine ⟨?_, ?_⟩
      · rintro (h | ⟨e, he, hle⟩)
        · cases h
        · cases he
          omega
      · simp [KeyValueStore.set, hf, hlt]
    · left
      refine ⟨Or.inr ⟨it, rfl, by omega⟩, ?_, ?_⟩
      · simp [KeyValueStore.set, hf, hlt]
      · simp [find_set, hf, lwwMerge, hlt]

/-- C6: when `k` is stored with timestamp `T` and `ts < T`, `set(k, v, ts)`
returns false and leaves the whole store as it was (value and timestamp of `k`
and every other entry); and a follower that receives two SETs of one key with
timestamps 100 then 50, the first of which it accepts, keeps the value and the
timestamp of the first. -/
theorem C6_stale_set_changes_nothing (s : KeyValueStore) (k v : String) (ts : Nat)
    (e : ValueEntry) (hk : UMap.find k s.data = some e) (hts : ts < e.timestamp) :
    s.set k v ts = (false, s) ∧
      ∀ (f : Follower) (m1 m2 : Message),
        m1.cmd = CommandType.CMD_SET → m2.cmd = CommandType.CMD_SET →
        m2.key = m1.key → m1.timestamp = 100 → m2.timestamp = 50 →
        (f.store.set m1.key m1.value m1.timestamp).1 = true →
          UMap.find m1.key (listenForUpdates f [m1, m2]).store.data =
            some { value := m1.value, timestamp := 100 } ∧
          (listenForUpdates f [m1, m2]).store.get m1.key = some m1.value ∧
          (listenForUpdates f [m1, m2]).store = (listenForUpdates f [m1]).store := by
  refine ⟨set_stale s k v ts e hk hts, ?_⟩
  intro f m1 m2 h1 h2 hkey ht1 ht2 hacc
  have hfind1 : UMap.find m1.key (f.store.set m1.key m1.value m1.timestamp).2.data =
      some { value := m1.value, timestamp := 100 } := by
    rw [set_true_find f.store m1.key m1.value m1.timestamp hacc, ht1]
  have hstale := set_stale (f.store.set m1.key m1.value m1.timestamp).2 m1.key m2.value 50
    { value := m1.value, timestamp := 100 } hfind1 (by norm_num)
  have hstore : (listenForUpdates f [m1, m2]).store = (listenForUpdates f [m1]).store := by
    simp [listenForUpdates, listenForUpdatesStep, h1, h2, hkey, ht2, hstale]
  have hone : (listenForUpdates f [m1]).store = (f.store.set m1.key m1.value m1.timestamp).2 := by
    simp [listenForUpdates, listenForUpdatesStep, h1]
  refine ⟨?_, ?_, hstore⟩
  · rw [hstore, hone, hfind1]
  · rw [hstore, hone, KeyValueStore.get, hfind1]

/-- C6, at a concrete store and at scenario D on a follower that starts empty. -/
theorem C6_stale_set_changes_nothing_witness :
    ({ data := [("k", { value := "v1", timestamp := 100 })] } : KeyValueStore).set "k" "v2" 50 =
        (false, { data := [("k", { value := "v1", timestamp := 100 })] }) ∧
      (listenForUpdates {}
        [{ cmd := CommandType.CMD_SET, key := "k", value := "v1", sequence := 1, timestamp := 100 },
         { cmd := CommandType.CMD_SET, key := "k", value := "v2", sequence := 2, timestamp := 50 }]
        ).store.get "k" = some "v1" :=
  ⟨(C6_stale_set_changes_nothing { data := [("k", { value := "v1", timestamp := 100 })] }
      "k" "v2" 50 { value := "v1", timestamp := 100 } (by decide) (by decide)).1,
   ((C6_stale_set_changes_nothing { data := [("k", { value := "v1", timestamp := 100 })] }
      "k" "v2" 50 { value := "v1", timestamp := 100 } (by decide) (by decide)).2 {}
      { cmd := CommandType.CMD_SET, key := "k", value := "v1", sequence := 1, timestamp := 100 }
      { cmd := CommandType.CMD_SET, key := "k", value := "v2", sequence := 2, timestamp := 50 }
      rfl rfl rfl rfl rfl (by decide)).2.1⟩

/-- C7 as stated fails: two writes of one key with equal timestamps and different
values are a permutation of each other in either order, and the two orders leave
different values, since a tie favours the write applied last. -/
theorem C7_counterexample_equal_timestamps :
    List.Perm
        [({ key := "k", value := "a", timestamp := 5 } : Write),
         { key := "k", value := "b", timestamp := 5 }]
        [{ key := "k", value := "b", timestamp := 5 },
         { key := "k", value := "a", timestamp := 5 }] ∧
      (applyWrites {} [{ key := "k", value := "a", timestamp := 5 },
                       { key := "k", value := "b", timestamp := 5 }]).get "k" = some "b" ∧
      (applyWrites {} [{ key := "k", value := "b", timestamp := 5 },
                       { key := "k", value := "a", timestamp := 5 }]).get "k" = some "a" :=
  ⟨List.Perm.swap _ _ _, by decide, by decide⟩

/-- C7 (amended): for every initial store and every list of writes in which two
writes of the same key with the same timestamp carry the same value, applying
the writes in any two orders gives the same final state: every key is bound to
the same value and timestamp, or absent, in both. -/
theorem C7_lww_order_independent (s : KeyValueStore) (ws1 ws2 : List Write)
    (hperm : ws1.Perm ws2)
    (hties : ∀ a ∈ ws1, ∀ b ∈ ws1,
      a.key = b.key → a.timestamp = b.timestamp → a.value = b.value) :
    ∀ k : String, UMap.find k (applyWrites s ws1).data = UMap.find k (applyWrites s ws2).data :=
  fun k => applyWrites_perm hperm hties s k

/-- C7 (amended), at three writes of two keys taken in two orders. -/
theorem C7_lww_order_independent_witness :
    List.Perm
        [({ key := "k", value := "a", timestamp := 5 } : Write),
         { key := "k", value := "b", timestamp := 7 }, { key := "j", value := "c", timestamp := 5 }]
        [{ key := "k", value := "b", timestamp := 7 },
         { key := "k", value := "a", timestamp := 5 }, { key := "j", value := "c", timestamp := 5 }] ∧
      UMap.find "k" (applyWrites {}
        [{ key := "k", value := "a", timestamp := 5 }, { key := "k", value := "b", timestamp := 7 },
         { key := "j", value := "c", timestamp := 5 }]).data =
      UMap.find "k" (applyWrites {}
        [{ key := "k", value := "b", timestamp := 7 }, { key := "k", value := "a", timestamp := 5 },
         { key := "j", value := "c", timestamp := 5 }]).data :=
  ⟨List.Perm.swap _ _ _,
   C7_lww_order_independent {} _ _ (List.Perm.swap _ _ _) (by decide) "k"⟩

/-- C8: after a non-empty list of timestamped writes of one key `k` is applied in
order to an empty store, `k` is bound to an entry whose timestamp is the greatest
timestamp of the list and whose value is that of a write of the list carrying
that timestamp. -/
theorem C8_lww_keeps_greatest_timestamp (k : String) (ws : List Write) (hne : ws ≠ [])
    (hkey : ∀ w ∈ ws, w.key = k) :
    ∃ e : ValueEntry, UMap.find k (applyWrites {} ws).data = some e ∧
      (∀ w ∈ ws, w.timestamp ≤ e.timestamp) ∧
      ({ key := k, value := e.value, timestamp := e.timestamp } : Write) ∈ ws := by
  cases ws with
  | nil => exact absurd rfl hne
  | cons w rest =>
    have hw : w.key = k := hkey w (by simp)
    have hfirst : UMap.find k (({} : KeyValueStore).set w.key w.value w.timestamp).2.data =
        some { value := w.value, timestamp := w.timestamp } := by
      rw [find_set, hw]
      simp [lwwMerge, UMap.find]
    obtain ⟨e, he, hge, hall, hmem⟩ := applyWrites_one_key k rest _ _
      (fun x hx => hkey x (List.mem_cons_of_mem _ hx)) hfirst
    refine ⟨e, ?_, ?_, ?_⟩
    · rw [applyWrites_cons]
      exact he
    · intro x hx
      rcases List.mem_cons.mp hx with h | h
      · subst h
        exact hge
      · exact hall x h
    · rcases hmem with h | h
      · subst h
        have : ({ key := k, value := w.value, timestamp := w.timestamp } : Write) = w := by
          cases w
          simp_all
        simp [this]
      · exact List.mem_cons_of_mem _ h

/-- C8, at three writes of one key with timestamps 3, 9 and 4. -/
theorem C8_lww_keeps_greatest_timestamp_witness :
    ∃ e : ValueEntry,
      UMap.find "k" (applyWrites {}
        [{ key := "k", value := "a", timestamp := 3 }, { key := "k", value := "b", timestamp := 9 },
         { key := "k", value := "c", timestamp := 4 }]).data = some e ∧
      (∀ w ∈ [({ key := "k", value := "a", timestamp := 3 } : Write),
          { key := "k", value := "b", timestamp := 9 },
          { key := "k", value := "c", timestamp := 4 }], w.timestamp ≤ e.timestamp) ∧
      ({ key := "k", value := e.value, timestamp := e.timestamp } : Write) ∈
        [({ key := "k", value := "a", timestamp := 3 } : Write),
          { key := "k", value := "b", timestamp := 9 },
          { key := "k", value := "c", timestamp := 4 }] :=
  C8_lww_keeps_greatest_timestamp "k" _ (by simp) (by decide)

/-- C9: the timestamped `deleteKey(k, ts)` removes the entry of `k` and returns
true exactly when `k` is present with a stored timestamp at most `ts` (every
other key keeps its entry); when `k` is present with a greater timestamp, or
absent, it returns false and the store is unchanged. -/
theorem C9_deleteKey_same_conflict_rule (s : KeyValueStore) (k : String) (ts : Nat) :
    ((∃ e, UMap.find k s.data = some e ∧ e.timestamp ≤ ts) ∧
        (s.deleteKey k ts).1 = true ∧
        ∀ k2 : String, UMap.find k2 (s.deleteKey k ts).2.data =
          if k2 = k then none else UMap.find k2 s.data) ∨
      (¬ (∃ e, UMap.find k s.data = some e ∧ e.timestamp ≤ ts) ∧
        (s.deleteKey k ts).1 = false ∧ (s.deleteKey k ts).2 = s) := by
  cases hf : UMap.find k s.data with
  | none =>
    right
    refine ⟨?_, ?_, ?_⟩
    · rintro ⟨e, he, _⟩
      cases he
    · simp [KeyValueStore.deleteKey, hf]
    · simp [KeyValueStore.deleteKey, hf]
  | some it =>
    by_cases hlt : ts < it.timestamp
    · right
      refine ⟨?_, ?_, ?_⟩
      · rintro ⟨e, he, hle⟩
        cases he
        omega
      · simp [KeyValueStore.deleteKey, hf, hlt]
      · simp [KeyValueStore.deleteKey, hf, hlt]
    · left
      refine ⟨⟨it, rfl, by omega⟩, ?_, ?_⟩
      · simp [KeyValueStore.deleteKey, hf, hlt]
      · intro k2
        simp [KeyValueStore.deleteKey, hf, hlt, UMap.find_erase]

end Assignment_3_Bonus

/-! ## The synchronous leader: counting acknowledgements -/

namespace Assignment_1_CP

open Plain

theorem receiveAcks_other (req : Bool) (l : Leader) (ev : AckEvent) (seq : Nat)
    (hne : ¬ (ev.ackMsg.cmd = CommandType.CMD_ACK ∧ ev.ackMsg.sequence = seq)) :
    UMap.find seq (receiveAcks req l ev).pendingOps = UMap.find seq l.pendingOps := by
  unfold receiveAcks
  by_cases hcmd : ev.ackMsg.cmd = CommandType.CMD_ACK
  · have hseq : ¬ seq = ev.ackMsg.sequence := fun e => hne ⟨hcmd, e.symm⟩
    cases hf : UMap.find ev.ackMsg.sequence l.pendingOps with
    | none => simp [hcmd, hf]
    | some op => simp [hcmd, hf, UMap.find_assign, hseq]
  · simp [hcmd]

theorem receiveAcks_find (req : Bool) (l : Leader) (ev : AckEvent) (op : PendingOperation)
    (hcmd : ev.ackMsg.cmd = CommandType.CMD_ACK)
    (hf : UMap.find ev.ackMsg.sequence l.pendingOps = some op) :
    UMap.find ev.ackMsg.sequence (receiveAcks req l ev).pendingOps =
      some (if requiredAcks req op.expectedAcks ≤ op.receivedAcks + 1 then
        { expectedAcks := op.expectedAcks, receivedAcks := op.receivedAcks + 1,
          completed := true, success := true }
      else
        { expectedAcks := op.expectedAcks, receivedAcks := op.receivedAcks + 1,
          completed := op.completed, success := op.success }) := by
  unfold receiveAcks
  simp only [hcmd, if_true, hf, UMap.find_assign]
  cases req <;> simp [requiredAcks]

theorem receiveAcks_match (req : Bool) (l : Leader) (ev : AckEvent) (seq : Nat)
    (op : PendingOperation) (hcmd : ev.ackMsg.cmd = CommandType.CMD_ACK)
    (hseq : ev.ackMsg.sequence = seq) (hf : UMap.find seq l.pendingOps = some op)
    (hinv : op.success = true ↔ requiredAcks req op.expectedAcks ≤ op.receivedAcks)
    (hc : op.completed = op.success) :
    ∃ op2, UMap.find seq (receiveAcks req l ev).pendingOps = some op2 ∧
      op2.expectedAcks = op.expectedAcks ∧ op2.receivedAcks = op.receivedAcks + 1 ∧
      op2.completed = op2.success ∧
      (op2.success = true ↔ requiredAcks req op.expectedAcks ≤ op.receivedAcks + 1) := by
  subst hseq
  refine ⟨_, receiveAcks_find req l ev op hcmd hf, ?_⟩
  by_cases h : requiredAcks req op.expectedAcks ≤ op.receivedAcks + 1
  · simp [h]
  · rw [if_neg h]
    refine ⟨rfl, rfl, hc, ?_⟩
    constructor
    · intro hs
      have := hinv.mp hs
      omega
    · intro hr
      exact absurd hr h

theorem waitForAcks_success (req : Bool) (seq : Nat) :
    ∀ (acks : List AckEvent) (l : Leader) (op : PendingOperation),
      UMap.find seq l.pendingOps = some op →
      op.completed = op.success →
      (op.success = true ↔ requiredAcks req op.expectedAcks ≤ op.receivedAcks) →
      ∃ op2, UMap.find seq (waitForAcks req l seq acks).pendingOps = some op2 ∧
        (op2.success = true ↔
          requiredAcks req op.expectedAcks ≤ op.receivedAcks + ackCount seq acks) := by
  intro acks
  induction acks with
  | nil =>
    intro l op hf _ hinv
    exact ⟨op, hf, by simpa [ackCount] using hinv⟩
  | cons ev rest ih =>
    intro l op hf hc hinv
    unfold waitForAcks
    by_cases hdone : completed l seq = true
    · simp only [hdone, if_true]
      refine ⟨op, hf, ?_⟩
      have hs : op.success = true := by
        rw [← hc]
        simpa [completed, hf] using hdone
      constructor
      · intro _
        have := hinv.mp hs
        omega
      · intro _
        exact hs
    · simp only [hdone]
      by_cases hm : ev.ackMsg.cmd = CommandType.CMD_ACK ∧ ev.ackMsg.sequence = seq
      · obtain ⟨op1, hf1, he1, hr1, hc1, hs1⟩ :=
          receiveAcks_match req l ev seq op hm.1 hm.2 hf hinv hc
        have hinv1 : op1.success = true ↔ requiredAcks req op1.expectedAcks ≤ op1.receivedAcks := by
          rw [he1, hr1]
          exact hs1
        obtain ⟨op2, hf2, hs2⟩ := ih _ op1 hf1 hc1 hinv1
        refine ⟨op2, hf2, ?_⟩
        rw [hs2, he1, hr1]
        have hcount : ackCount seq (ev :: rest) = ackCount seq rest + 1 := by
          simp [ackCount, List.countP_cons, hm.1, hm.2]
        rw [hcount]
        constructor <;> intro h <;> omega
      · have hf1 : UMap.find seq (receiveAcks req l ev).pendingOps = some op := by
          rw [receiveAcks_other req l ev seq hm]
          exact hf
        obtain ⟨op2, hf2, hs2⟩ := ih _ op hf1 hc hinv
        refine ⟨op2, hf2, ?_⟩
        rw [hs2]
        have hcount : ackCount seq (ev :: rest) = ackCount seq rest := by
          have hm2 : ¬ (ev.ackMsg.cmd = CommandType.CMD_ACK ∧ ev.ackMsg.sequence = seq) := hm
          simp only [ackCount, List.countP_cons]
          simp [hm2]
        rw [hcount]

theorem requiredAcks_pos (req : Bool) (n : Nat) (hn : 0 < n) : 0 < requiredAcks req n := by
  cases req <;> simp [requiredAcks, hn]

theorem requiredAcks_le (req : Bool) (n : Nat) (hn : 0 < n) : requiredAcks req n ≤ n := by
  cases req
  · simp only [requiredAcks]
    simp
    omega
  · simp [requiredAcks]

theorem broadcast_result_iff (req : Bool) (l : Leader) (msg : Message) (acks : List AckEvent) :
    (broadcastAndWaitForAcks req l msg acks).result = true ↔
      (l.followerSockets.length = 0 ∨
        requiredAcks req l.followerSockets.length ≤ ackCount msg.sequence acks) := by
  unfold broadcastAndWaitForAcks
  by_cases hn : l.followerSockets.length = 0
  · simp [hn]
  · have hpos : 0 < l.followerSockets.length := Nat.pos_of_ne_zero hn
    have hreq := requiredAcks_pos req _ hpos
    obtain ⟨op2, hf2, hs2⟩ := waitForAcks_success req msg.sequence acks
      (Leader.mk l.store l.followerSockets l.sequenceCounter
        (UMap.assign msg.sequence (PendingOperation.mk l.followerSockets.length 0 false false)
          l.pendingOps))
      (PendingOperation.mk l.followerSockets.length 0 false false)
      (by simp [UMap.find_assign]) rfl
      (by
        constructor
        · intro h
          cases h
        · intro h
          simp only at h
          omega)
    simp only [hn, if_false, hf2, false_or]
    rw [hs2]
    simp

theorem broadcast_store (req : Bool) (l : Leader) (msg : Message) (acks : List AckEvent) :
    (broadcastAndWaitForAcks req l msg acks).leader.store = l.store ∧
      (broadcastAndWaitForAcks req l msg acks).leader.followerSockets = l.followerSockets ∧
      (broadcastAndWaitForAcks req l msg acks).leader.sequenceCounter = l.sequenceCounter := by
  have hrecv : ∀ (l0 : Leader) (ev : AckEvent),
      (receiveAcks req l0 ev).store = l0.store ∧
      (receiveAcks req l0 ev).followerSockets = l0.followerSockets ∧
      (receiveAcks req l0 ev).sequenceCounter = l0.sequenceCounter := by
    intro l0 ev
    unfold receiveAcks
    by_cases hcmd : ev.ackMsg.cmd = CommandType.CMD_ACK
    · cases hf : UMap.find ev.ackMsg.sequence l0.pendingOps <;> simp [hcmd, hf]
    · simp [hcmd]
  have hwait : ∀ (acks0 : List AckEvent) (l0 : Leader),
      (waitForAcks req l0 msg.sequence acks0).store = l0.store ∧
      (waitForAcks req l0 msg.sequence acks0).followerSockets = l0.followerSockets ∧
      (waitForAcks req l0 msg.sequence acks0).sequenceCounter = l0.sequenceCounter := by
    intro acks0
    induction acks0 with
    | nil => intro l0; simp [waitForAcks]
    | cons ev rest ih =>
      intro l0
      unfold waitForAcks
      by_cases hdone : completed l0 msg.sequence = true
      · simp [hdone]
      · simp only [hdone]
        obtain ⟨h1, h2, h3⟩ := ih (receiveAcks req l0 ev)
        obtain ⟨g1, g2, g3⟩ := hrecv l0 ev
        exact ⟨h1.trans g1, h2.trans g2, h3.trans g3⟩
  unfold broadcastAndWaitForAcks
  by_cases hn : l.followerSockets.length = 0
  · simp [hn]
  · simp only [hn, if_false]
    obtain ⟨h1, h2, h3⟩ := hwait acks
      (Leader.mk l.store l.followerSockets l.sequenceCounter
        (UMap.assign msg.sequence (PendingOperation.mk l.followerSockets.length 0 false false)
          l.pendingOps))
    exact ⟨h1, h2, h3⟩

theorem ackCount_append (seq : Nat) (a b : List AckEvent) :
    ackCount seq (a ++ b) = ackCount seq a + ackCount seq b := by
  simp [ackCount, List.countP_append]

theorem ackCount_cons_match (seq : Nat) (ev : AckEvent) (rest : List AckEvent)
    (hm : ev.ackMsg.cmd = CommandType.CMD_ACK ∧ ev.ackMsg.sequence = seq) :
    ackCount seq (ev :: rest) = ackCount seq rest + 1 := by
  simp [ackCount, List.countP_cons, hm.1, hm.2]

theorem ackCount_cons_other (seq : Nat) (ev : AckEvent) (rest : List AckEvent)
    (hm : ¬ (ev.ackMsg.cmd = CommandType.CMD_ACK ∧ ev.ackMsg.sequence = seq)) :
    ackCount seq (ev :: rest) = ackCount seq rest := by
  simp only [ackCount, List.countP_cons]
  simp [hm]

theorem foldl_receiveAcks_success (req : Bool) (seq : Nat) :
    ∀ (events : List AckEvent) (l : Leader) (op : PendingOperation),
      UMap.find seq l.pendingOps = some op →
      op.completed = op.success →
      (op.success = true ↔ requiredAcks req op.expectedAcks ≤ op.receivedAcks) →
      ∃ op2, UMap.find seq (events.foldl (receiveAcks req) l).pendingOps = some op2 ∧
        (op2.success = true ↔
          requiredAcks req op.expectedAcks ≤ op.receivedAcks + ackCount seq events) := by
  intro events
  induction events with
  | nil =>
    intro l op hf _ hinv
    exact ⟨op, hf, by simpa [ackCount] using hinv⟩
  | cons ev rest ih =>
    intro l op hf hc hinv
    rw [List.foldl_cons]
    by_cases hm : ev.ackMsg.cmd = CommandType.CMD_ACK ∧ ev.ackMsg.sequence = seq
    · obtain ⟨op1, hf1, he1, hr1, hc1, hs1⟩ :=
        receiveAcks_match req l ev seq op hm.1 hm.2 hf hinv hc
      have hinv1 : op1.success = true ↔
          requiredAcks req op1.expectedAcks ≤ op1.receivedAcks := by
        rw [he1, hr1]
        exact hs1
      obtain ⟨op2, hf2, hs2⟩ := ih _ op1 hf1 hc1 hinv1
      refine ⟨op2, hf2, ?_⟩
      rw [hs2, he1, hr1, ackCount_cons_match seq ev rest hm]
      constructor
      all_goals intro h
      all_goals omega
    · have hf1 : UMap.find seq (receiveAcks req l ev).pendingOps = some op := by
        rw [receiveAcks_other req l ev seq hm]
        exact hf
      obtain ⟨op2, hf2, hs2⟩ := ih _ op hf1 hc hinv
      refine ⟨op2, hf2, ?_⟩
      rw [hs2, ackCount_cons_other seq ev rest hm]

theorem wait_for_spec (req : Bool) (seq : Nat) :
    ∀ (acks : List AckEvent) (l : Leader) (op : PendingOperation),
      UMap.find seq l.pendingOps = some op →
      op.completed = op.success →
      (op.success = true ↔ requiredAcks req op.expectedAcks ≤ op.receivedAcks) →
      ∃ op1, UMap.find seq (wait_for req l seq acks).1.pendingOps = some op1 ∧
        op1.completed = op1.success ∧
        op1.expectedAcks = op.expectedAcks ∧
        (op1.success = true ↔ requiredAcks req op1.expectedAcks ≤ op1.receivedAcks) ∧
        op1.receivedAcks + ackCount seq (wait_for req l seq acks).2.2 =
          op.receivedAcks + ackCount seq acks ∧
        ((wait_for req l seq acks).2.1 = true ↔
          requiredAcks req op.expectedAcks ≤ op.receivedAcks + ackCount seq acks) := by
  intro acks
  induction acks with
  | nil =>
    intro l op hf hc hinv
    refine ⟨op, hf, hc, rfl, hinv, rfl, ?_⟩
    have hcomp : completed l seq = op.success := by
      simp [completed, hf, hc]
    show completed l seq = true ↔ _
    rw [hcomp, hinv]
    simp [ackCount]
  | cons ev rest ih =>
    intro l op hf hc hinv
    unfold wait_for
    by_cases hdone : completed l seq = true
    · simp only [hdone, if_true]
      have hs : op.success = true := by
        rw [← hc]
        simpa [completed, hf] using hdone
      refine ⟨op, hf, hc, rfl, hinv, rfl, ?_⟩
      constructor
      · intro _
        have := hinv.mp hs
        omega
      · intro _
        trivial
    · have hd : completed l seq = false := by simpa using hdone
      simp only [hd, Bool.false_eq_true, if_false]
      by_cases hm : ev.ackMsg.cmd = CommandType.CMD_ACK ∧ ev.ackMsg.sequence = seq
      · obtain ⟨op1, hf1, he1, hr1, hc1, hs1⟩ :=
          receiveAcks_match req l ev seq op hm.1 hm.2 hf hinv hc
        have hinv1 : op1.success = true ↔
            requiredAcks req op1.expectedAcks ≤ op1.receivedAcks := by
          rw [he1, hr1]
          exact hs1
        obtain ⟨op2, hf2, hc2, he2, hinv2, hcnt2, hw2⟩ := ih _ op1 hf1 hc1 hinv1
        refine ⟨op2, hf2, hc2, he2.trans he1, hinv2, ?_, ?_⟩
        · rw [hcnt2, hr1, ackCount_cons_match seq ev rest hm]
          omega
        · rw [hw2, he1, hr1, ackCount_cons_match seq ev rest hm]
          constructor
          all_goals intro h
          all_goals omega
      · have hf1 : UMap.find seq (receiveAcks req l ev).pendingOps = some op := by
          rw [receiveAcks_other req l ev seq hm]
          exact hf
        obtain ⟨op2, hf2, hc2, he2, hinv2, hcnt2, hw2⟩ := ih _ op hf1 hc hinv
        refine ⟨op2, hf2, hc2, he2, hinv2, ?_, ?_⟩
        · rw [hcnt2, ackCount_cons_other seq ev rest hm]
        · rw [hw2, ackCount_cons_other seq ev rest hm]

theorem steps_timedOut_iff (req : Bool) (l : Leader) (msg : Message)
    (acks late : List AckEvent) :
    (broadcastAndWaitForAcksSteps req l msg acks late).timedOut = true ↔
      (l.followerSockets.length ≠ 0 ∧
        ackCount msg.sequence acks < requiredAcks req l.followerSockets.length) := by
  unfold broadcastAndWaitForAcksSteps
  by_cases hn : l.followerSockets.length = 0
  · simp [hn]
  · obtain ⟨op1, _, _, _, _, _, hw⟩ := wait_for_spec req msg.sequence acks
      (Leader.mk l.store l.followerSockets l.sequenceCounter
        (UMap.assign msg.sequence (PendingOperation.mk l.followerSockets.length 0 false false)
          l.pendingOps))
      (PendingOperation.mk l.followerSockets.length 0 false false)
      (by simp [UMap.find_assign]) rfl
      (by
        have hreq := requiredAcks_pos req _ (Nat.pos_of_ne_zero hn)
        constructor
        · intro h
          cases h
        · intro h
          simp only at h
          omega)
    simp only [hn, if_false, Bool.not_eq_true']
    simp only [Nat.zero_add] at hw
    constructor
    · intro h
      refine ⟨hn, ?_⟩
      by_contra hlt
      have := hw.mpr (by omega)
      rw [this] at h
      cases h
    · intro h
      by_contra hne
      have ht := hw.mp (by simpa using hne)
      omega

theorem steps_result_iff (req : Bool) (l : Leader) (msg : Message)
    (acks late : List AckEvent) :
    (broadcastAndWaitForAcksSteps req l msg acks late).result = true ↔
      (l.followerSockets.length = 0 ∨
        requiredAcks req l.followerSockets.length ≤ ackCount msg.sequence (acks ++ late)) := by
  unfold broadcastAndWaitForAcksSteps
  by_cases hn : l.followerSockets.length = 0
  · simp [hn]
  · obtain ⟨op1, hf1, hc1, he1, hinv1, hcnt1, _⟩ := wait_for_spec req msg.sequence acks
      (Leader.mk l.store l.followerSockets l.sequenceCounter
        (UMap.assign msg.sequence (PendingOperation.mk l.followerSockets.length 0 false false)
          l.pendingOps))
      (PendingOperation.mk l.followerSockets.length 0 false false)
      (by simp [UMap.find_assign]) rfl
      (by
        have hreq := requiredAcks_pos req _ (Nat.pos_of_ne_zero hn)
        constructor
        · intro h
          cases h
        · intro h
          simp only at h
          omega)
    obtain ⟨op2, hf2, hs2⟩ := foldl_receiveAcks_success req msg.sequence
      ((wait_for req
        (Leader.mk l.store l.followerSockets l.sequenceCounter
          (UMap.assign msg.sequence (PendingOperation.mk l.followerSockets.length 0 false false)
            l.pendingOps)) msg.sequence acks).2.2 ++ late) _ op1 hf1 hc1 hinv1
    simp only [hn, if_false, hf2, false_or]
    simp only [Nat.zero_add] at hcnt1 he1
    rw [hs2, he1, ackCount_append, ackCount_append]
    constructor
    all_goals intro h
    all_goals omega

theorem steps_result_eq (req : Bool) (l : Leader) (msg : Message)
    (acks late : List AckEvent) :
    (broadcastAndWaitForAcksSteps req l msg acks late).result =
      (broadcastAndWaitForAcks req l msg (acks ++ late)).result := by
  have h1 := steps_result_iff req l msg acks late
  have h2 := broadcast_result_iff req l msg (acks ++ late)
  cases ha : (broadcastAndWaitForAcksSteps req l msg acks late).result
  · cases hb : (broadcastAndWaitForAcks req l msg (acks ++ late)).result
    · rfl
    · rw [ha] at h1
      exact absurd (h1.mpr (h2.mp hb)) (by simp)
  · exact (h2.mpr (h1.mp ha)).symm

end Assignment_1_CP

/-! ## Claims on the synchronous leader -/

namespace Assignment_1_CP

open Plain

theorem snprintf_short (size : Nat) (text : String) (h : text.length < size) :
    snprintf size text = text := by
  unfold snprintf
  have hlen : text.data.length ≤ size - 1 := by
    have : text.data.length = text.length := rfl
    omega
  rw [List.take_of_length_le hlen]

theorem handleClientStep_get (req : Bool) (l : Leader) (g : Message) (acks : List AckEvent)
    (hg : g.cmd = CommandType.CMD_GET) :
    handleClientStep req l g acks =
      match l.store.get g.key with
      | some result =>
        { leader := l,
          response := { g with status := 0, response := snprintf MAX_VALUE_SIZE result },
          sent := [] }
      | none =>
        { leader := l,
          response := { g with status := -1, response := snprintf MAX_VALUE_SIZE "Key not found" },
          sent := [] } := by
  unfold handleClientStep
  simp [hg]

theorem acks_of_all_followers (fsocks : List Int) (acks : List AckEvent) (seq : Nat)
    (hnodup : fsocks.Nodup)
    (hall : ∀ fs ∈ fsocks, ∃ ev ∈ acks,
      ev.followerSocket = fs ∧ ev.ackMsg.cmd = CommandType.CMD_ACK ∧ ev.ackMsg.sequence = seq) :
    fsocks.length ≤ ackCount seq acks := by
  have hsub : fsocks ⊆ (acks.filter (fun ev =>
      ev.ackMsg.cmd = CommandType.CMD_ACK ∧ ev.ackMsg.sequence = seq)).map
        (fun ev => ev.followerSocket) := by
    intro fs hfs
    obtain ⟨ev, hev, h1, h2, h3⟩ := hall fs hfs
    rw [List.mem_map]
    refine ⟨ev, ?_, h1⟩
    rw [List.mem_filter]
    exact ⟨hev, by simp [h2, h3]⟩
  have hle := (List.subperm_of_subset hnodup hsub).length_le
  rw [List.length_map] at hle
  unfold ackCount
  rw [List.countP_eq_length_filter]
  exact hle

theorem handleClientStep_set (req : Bool) (l : Leader) (msg : Message) (acks : List AckEvent)
    (h : msg.cmd = CommandType.CMD_SET) (b : Broadcast)
    (hb : b = broadcastAndWaitForAcks req
      (Leader.mk l.store l.followerSockets (nextSequence l.sequenceCounter) l.pendingOps)
      (Message.mk msg.cmd msg.key msg.value msg.response msg.status
        (nextSequence l.sequenceCounter) msg.followerId) acks) :
    (handleClientStep req l msg acks).response.sequence = nextSequence l.sequenceCounter ∧
      (handleClientStep req l msg acks).leader.sequenceCounter = nextSequence l.sequenceCounter ∧
      (handleClientStep req l msg acks).sent = b.sent ∧
      (b.result = true →
        (handleClientStep req l msg acks).response.status = 0 ∧
        (handleClientStep req l msg acks).leader.store = l.store.set msg.key msg.value) ∧
      (b.result = false →
        (handleClientStep req l msg acks).response.status = -1 ∧
        (handleClientStep req l msg acks).leader.store = l.store) := by
  have hst := broadcast_store req
    (Leader.mk l.store l.followerSockets (nextSequence l.sequenceCounter) l.pendingOps)
    (Message.mk msg.cmd msg.key msg.value msg.response msg.status
      (nextSequence l.sequenceCounter) msg.followerId) acks
  rw [← hb] at hst
  simp only at hst
  rw [h] at hb
  unfold handleClientStep
  simp only [h, if_true, ← hb]
  cases hres : b.result
  · simp [hst.1, hst.2.2]
  · simp [hst.1, hst.2.2]

theorem handleClientStep_delete (req : Bool) (l : Leader) (msg : Message) (acks : List AckEvent)
    (h : msg.cmd = CommandType.CMD_DELETE) (b : Broadcast)
    (hb : b = broadcastAndWaitForAcks req
      (Leader.mk l.store l.followerSockets (nextSequence l.sequenceCounter) l.pendingOps)
      (Message.mk msg.cmd msg.key msg.value msg.response msg.status
        (nextSequence l.sequenceCounter) msg.followerId) acks) :
    (handleClientStep req l msg acks).response.sequence = nextSequence l.sequenceCounter ∧
      (handleClientStep req l msg acks).leader.sequenceCounter = nextSequence l.sequenceCounter ∧
      (handleClientStep req l msg acks).sent = b.sent ∧
      (b.result = true →
        (handleClientStep req l msg acks).response.status =
          (if (l.store.deleteKey msg.key).1 then 0 else -1) ∧
        (handleClientStep req l msg acks).leader.store = (l.store.deleteKey msg.key).2) ∧
      (b.result = false →
        (handleClientStep req l msg acks).response.status = -1 ∧
        (handleClientStep req l msg acks).leader.store = l.store) := by
  have hst := broadcast_store req
    (Leader.mk l.store l.followerSockets (nextSequence l.sequenceCounter) l.pendingOps)
    (Message.mk msg.cmd msg.key msg.value msg.response msg.status
      (nextSequence l.sequenceCounter) msg.followerId) acks
  rw [← hb] at hst
  simp only at hst
  unfold handleClientStep
  have h1 : ¬ CommandType.CMD_DELETE = CommandType.CMD_SET := by decide
  have h2 : ¬ CommandType.CMD_DELETE = CommandType.CMD_GET := by decide
  rw [h] at hb
  simp only [h, h1, h2, if_true, if_false, ← hb]
  cases hres : b.result
  · simp [hst.1, hst.2.2]
  · simp [hst.1, hst.2.2]

/-- C1 (defect of the code): strict configuration, followers on sockets 5 and
6, a SET of `k` to `v1` that gets the sequence number 1.  The follower on
socket 5 acknowledges before the timeout; the acknowledgement of the follower
on socket 6 is handled after the wait has timed out and before the cleanup.
The wait times out with 1 of the 2 required acknowledgements, and yet
`broadcastAndWaitForAcks` returns true, the client is answered with status 0
and `k = v1` is committed.  In every run the wait times out exactly when
followers are registered and the acknowledgements handled before the timeout
stay below the required count (`N` strict, `N / 2 + 1` quorum), whereas the
function returns true, and a SET is answered with status 0, exactly when no
follower is registered or the acknowledgements handled before the cleanup, the
late ones included, reach that count.  When no acknowledgement is handled
between the timeout and the cleanup, success is reported exactly when the count
was reached before the wait ended. -/
theorem C1_late_ack_reports_success :
    (broadcastAndWaitForAcksSteps REQUIRE_ALL_ACKS
        { followerSockets := [5, 6], sequenceCounter := 1 }
        { cmd := CommandType.CMD_SET, key := "k", value := "v1", sequence := 1 }
        (followerReplies 5 { followerId := 1 }
          { cmd := CommandType.CMD_SET, key := "k", value := "v1", sequence := 1 })
        (followerReplies 6 { followerId := 2 }
          { cmd := CommandType.CMD_SET, key := "k", value := "v1", sequence := 1 })
      ).timedOut = true ∧
    ackCount 1 (followerReplies 5 { followerId := 1 }
        { cmd := CommandType.CMD_SET, key := "k", value := "v1", sequence := 1 }) = 1 ∧
    requiredAcks REQUIRE_ALL_ACKS 2 = 2 ∧
    (broadcastAndWaitForAcksSteps REQUIRE_ALL_ACKS
        { followerSockets := [5, 6], sequenceCounter := 1 }
        { cmd := CommandType.CMD_SET, key := "k", value := "v1", sequence := 1 }
        (followerReplies 5 { followerId := 1 }
          { cmd := CommandType.CMD_SET, key := "k", value := "v1", sequence := 1 })
        (followerReplies 6 { followerId := 2 }
          { cmd := CommandType.CMD_SET, key := "k", value := "v1", sequence := 1 })
      ).result = true ∧
    (handleClientStep REQUIRE_ALL_ACKS { followerSockets := [5, 6] }
        { cmd := CommandType.CMD_SET, key := "k", value := "v1" }
        (followerReplies 5 { followerId := 1 }
            { cmd := CommandType.CMD_SET, key := "k", value := "v1", sequence := 1 } ++
          followerReplies 6 { followerId := 2 }
            { cmd := CommandType.CMD_SET, key := "k", value := "v1", sequence := 1 })
      ).response.status = 0 ∧
    (handleClientStep REQUIRE_ALL_ACKS { followerSockets := [5, 6] }
        { cmd := CommandType.CMD_SET, key := "k", value := "v1" }
        (followerReplies 5 { followerId := 1 }
            { cmd := CommandType.CMD_SET, key := "k", value := "v1", sequence := 1 } ++
          followerReplies 6 { followerId := 2 }
            { cmd := CommandType.CMD_SET, key := "k", value := "v1", sequence := 1 })
      ).leader.store.get "k" = some "v1" ∧
    (∀ (requireAllAcks : Bool) (l : Leader) (msg : Message) (acks late : List AckEvent),
      ((broadcastAndWaitForAcksSteps requireAllAcks l msg acks late).timedOut = true ↔
        (l.followerSockets.length ≠ 0 ∧
          ackCount msg.sequence acks < requiredAcks requireAllAcks l.followerSockets.length)) ∧
      ((broadcastAndWaitForAcksSteps requireAllAcks l msg acks late).result = true ↔
        (l.followerSockets.length = 0 ∨
          requiredAcks requireAllAcks l.followerSockets.length ≤
            ackCount msg.sequence (acks ++ late))) ∧
      (broadcastAndWaitForAcksSteps requireAllAcks l msg acks late).result =
        (broadcastAndWaitForAcks requireAllAcks l msg (acks ++ late)).result ∧
      ((broadcastAndWaitForAcksSteps requireAllAcks l msg acks []).result = true ↔
        (l.followerSockets.length = 0 ∨
          requiredAcks requireAllAcks l.followerSockets.length ≤ ackCount msg.sequence acks)) ∧
      ((handleClientStep requireAllAcks l { msg with cmd := CommandType.CMD_SET } (acks ++ late)
          ).response.status = 0 ↔
        (l.followerSockets.length = 0 ∨
          requiredAcks requireAllAcks l.followerSockets.length ≤
            ackCount (nextSequence l.sequenceCounter) (acks ++ late))) ∧
      requiredAcks true l.followerSockets.length = l.followerSockets.length ∧
      requiredAcks false l.followerSockets.length = l.followerSockets.length / 2 + 1) := by
  refine ⟨by decide, by decide, by decide, by decide, by decide, by decide, ?_⟩
  intro requireAllAcks l msg acks late
  refine ⟨steps_timedOut_iff requireAllAcks l msg acks late,
    steps_result_iff requireAllAcks l msg acks late,
    steps_result_eq requireAllAcks l msg acks late, ?_, ?_, rfl, rfl⟩
  · have h := steps_result_iff requireAllAcks l msg acks []
    rw [List.append_nil] at h
    exact h
  · have hb := broadcast_result_iff requireAllAcks
      (Leader.mk l.store l.followerSockets (nextSequence l.sequenceCounter) l.pendingOps)
      (Message.mk CommandType.CMD_SET msg.key msg.value msg.response msg.status
        (nextSequence l.sequenceCounter) msg.followerId) (acks ++ late)
    simp only at hb
    rw [← hb]
    obtain ⟨_, _, _, hT, hF⟩ := handleClientStep_set requireAllAcks l
      { msg with cmd := CommandType.CMD_SET } (acks ++ late) rfl _ rfl
    constructor
    · intro hs
      by_contra hne
      have hfalse := (hF (by simpa using hne)).1
      rw [hfalse] at hs
      cases hs
    · intro hr
      exact (hT hr).1

/-- C3: when the registered followers are distinct endpoints and each of them
acknowledges the sequence number of a SET of `k` to `v` within the wait, the
client receives status 0, and a following GET of `k` is answered with status 0
and the value `v` (a value fits its message field: fewer than `MAX_VALUE_SIZE`
characters). -/
theorem C3_acknowledged_set_is_readable (requireAllAcks : Bool) (l : Leader) (msg : Message)
    (acks : List AckEvent)
    (hcmd : msg.cmd = CommandType.CMD_SET)
    (hvalue : msg.value.length < MAX_VALUE_SIZE)
    (hdistinct : l.followerSockets.Nodup)
    (hall : ∀ fs ∈ l.followerSockets, ∃ ev ∈ acks,
      ev.followerSocket = fs ∧ ev.ackMsg.cmd = CommandType.CMD_ACK ∧
        ev.ackMsg.sequence = nextSequence l.sequenceCounter) :
    (handleClientStep requireAllAcks l msg acks).response.status = 0 ∧
      ∀ (g : Message) (acks2 : List AckEvent),
        g.cmd = CommandType.CMD_GET → g.key = msg.key →
        (handleClientStep requireAllAcks (handleClientStep requireAllAcks l msg acks).leader
            g acks2).response.status = 0 ∧
        (handleClientStep requireAllAcks (handleClientStep requireAllAcks l msg acks).leader
            g acks2).response.response = msg.value := by
  have hcount := acks_of_all_followers l.followerSockets acks _ hdistinct hall
  have hres : (broadcastAndWaitForAcks requireAllAcks
      (Leader.mk l.store l.followerSockets (nextSequence l.sequenceCounter) l.pendingOps)
      (Message.mk msg.cmd msg.key msg.value msg.response msg.status
        (nextSequence l.sequenceCounter) msg.followerId) acks).result = true := by
    rw [broadcast_result_iff]
    simp only
    by_cases h0 : l.followerSockets.length = 0
    · exact Or.inl h0
    · right
      have := requiredAcks_le requireAllAcks _ (Nat.pos_of_ne_zero h0)
      omega
  obtain ⟨hstatus, hstore⟩ :=
    (handleClientStep_set requireAllAcks l msg acks hcmd _ rfl).2.2.2.1 hres
  refine ⟨hstatus, ?_⟩
  intro g acks2 hg hkey
  have hget : (handleClientStep requireAllAcks l msg acks).leader.store.get g.key =
      some msg.value := by
    rw [hstore, hkey]
    simp [KeyValueStore.get, KeyValueStore.set, UMap.find_assign]
  rw [handleClientStep_get _ _ g acks2 hg, hget]
  exact ⟨rfl, snprintf_short _ _ hvalue⟩

/-- C3 at scenario A: two registered followers on sockets 5 and 6, both answer the
SET; the client receives status 0 and a following GET returns the value. -/
theorem C3_acknowledged_set_is_readable_witness :
    (handleClientStep REQUIRE_ALL_ACKS { followerSockets := [5, 6] }
        { cmd := CommandType.CMD_SET, key := "k", value := "v1" }
        (followerReplies 5 { followerId := 1 }
            { cmd := CommandType.CMD_SET, key := "k", value := "v1", sequence := 1 } ++
          followerReplies 6 { followerId := 2 }
            { cmd := CommandType.CMD_SET, key := "k", value := "v1", sequence := 1 })
      ).response.status = 0 ∧
    (handleClientStep REQUIRE_ALL_ACKS
        (handleClientStep REQUIRE_ALL_ACKS { followerSockets := [5, 6] }
          { cmd := CommandType.CMD_SET, key := "k", value := "v1" }
          (followerReplies 5 { followerId := 1 }
              { cmd := CommandType.CMD_SET, key := "k", value := "v1", sequence := 1 } ++
            followerReplies 6 { followerId := 2 }
              { cmd := CommandType.CMD_SET, key := "k", value := "v1", sequence := 1 })).leader
        { cmd := CommandType.CMD_GET, key := "k" } []).response.response = "v1" :=
  ⟨(C3_acknowledged_set_is_readable REQUIRE_ALL_ACKS { followerSockets := [5, 6] }
      { cmd := CommandType.CMD_SET, key := "k", value := "v1" }
      (followerReplies 5 { followerId := 1 }
          { cmd := CommandType.CMD_SET, key := "k", value := "v1", sequence := 1 } ++
        followerReplies 6 { followerId := 2 }
          { cmd := CommandType.CMD_SET, key := "k", value := "v1", sequence := 1 })
      rfl (by decide) (by decide) (by decide)).1,
   ((C3_acknowledged_set_is_readable REQUIRE_ALL_ACKS { followerSockets := [5, 6] }
      { cmd := CommandType.CMD_SET, key := "k", value := "v1" }
      (followerReplies 5 { followerId := 1 }
          { cmd := CommandType.CMD_SET, key := "k", value := "v1", sequence := 1 } ++
        followerReplies 6 { followerId := 2 }
          { cmd := CommandType.CMD_SET, key := "k", value := "v1", sequence := 1 })
      rfl (by decide) (by decide) (by decide)).2
      { cmd := CommandType.CMD_GET, key := "k" } [] rfl rfl).2⟩

/-- C4, the code at the failing input: two followers are registered on sockets 5
and 6, and two acknowledgements for the sequence number of the SET arrive, both
on socket 5 from follower 1.  No acknowledgement comes from socket 6, yet the
SET is answered with status 0 and committed to the store of the leader.  The
same happens when socket number 5 is accepted twice (the entry of a closed
connection is kept, and the number is handed out again): the one follower behind
it is sent the message twice, and its two acknowledgements complete the write. -/
theorem C4_duplicate_ack_reports_success :
    (∀ ev ∈ [({ followerSocket := 5, followerId := 1,
                ackMsg := { cmd := CommandType.CMD_ACK, sequence := 1, followerId := 1 } }
              : AckEvent),
             { followerSocket := 5, followerId := 1,
               ackMsg := { cmd := CommandType.CMD_ACK, sequence := 1, followerId := 1 } }],
        ev.followerSocket ≠ 6) ∧
      (handleClientStep REQUIRE_ALL_ACKS { followerSockets := [5, 6] }
          { cmd := CommandType.CMD_SET, key := "k", value := "v1" }
          [{ followerSocket := 5, followerId := 1,
             ackMsg := { cmd := CommandType.CMD_ACK, sequence := 1, followerId := 1 } },
           { followerSocket := 5, followerId := 1,
             ackMsg := { cmd := CommandType.CMD_ACK, sequence := 1, followerId := 1 } }]
        ).response.status = 0 ∧
      (handleClientStep REQUIRE_ALL_ACKS { followerSockets := [5, 6] }
          { cmd := CommandType.CMD_SET, key := "k", value := "v1" }
          [{ followerSocket := 5, followerId := 1,
             ackMsg := { cmd := CommandType.CMD_ACK, sequence := 1, followerId := 1 } },
           { followerSocket := 5, followerId := 1,
             ackMsg := { cmd := CommandType.CMD_ACK, sequence := 1, followerId := 1 } }]
        ).leader.store.get "k" = some "v1" ∧
      (acceptFollowers (acceptFollowers {} 5) 5).followerSockets = [5, 5] ∧
      (handleClientStep REQUIRE_ALL_ACKS (acceptFollowers (acceptFollowers {} 5) 5)
          { cmd := CommandType.CMD_SET, key := "k", value := "v1" }
          (followerReplies 5 { followerId := 2 }
              { cmd := CommandType.CMD_SET, key := "k", value := "v1", sequence := 1 } ++
            followerReplies 5 { followerId := 2 }
              { cmd := CommandType.CMD_SET, key := "k", value := "v1", sequence := 1 })
        ).response.status = 0 := by
  refine ⟨by decide, by decide, by decide, by decide, by decide⟩

end Assignment_1_CP

/-! ## Sequence numbers -/

namespace Assignment_1_CP

theorem broadcast_sent (req : Bool) (l : Leader) (msg : Message) (acks : List AckEvent) :
    ∀ p ∈ (broadcastAndWaitForAcks req l msg acks).sent, p.2 = msg := by
  intro p hp
  unfold broadcastAndWaitForAcks at hp
  by_cases hn : l.followerSockets.length = 0
  · simp [hn] at hp
  · simp only [hn, if_false, List.mem_map] at hp
    obtain ⟨fs, _, rfl⟩ := hp
    rfl

theorem handleClientStep_mutating (req : Bool) (l : Leader) (msg : Message)
    (acks : List AckEvent)
    (h : msg.cmd = CommandType.CMD_SET ∨ msg.cmd = CommandType.CMD_DELETE) :
    (handleClientStep req l msg acks).response.sequence = nextSequence l.sequenceCounter ∧
      (handleClientStep req l msg acks).leader.sequenceCounter = nextSequence l.sequenceCounter ∧
      ∀ p ∈ (handleClientStep req l msg acks).sent,
        p.2.sequence = (handleClientStep req l msg acks).response.sequence := by
  rcases h with h | h
  · obtain ⟨h1, h2, h3, _, _⟩ := handleClientStep_set req l msg acks h _ rfl
    refine ⟨h1, h2, ?_⟩
    intro p hp
    rw [h3] at hp
    rw [broadcast_sent _ _ _ _ p hp, h1]
  · obtain ⟨h1, h2, h3, _, _⟩ := handleClientStep_delete req l msg acks h _ rfl
    refine ⟨h1, h2, ?_⟩
    intro p hp
    rw [h3] at hp
    rw [broadcast_sent _ _ _ _ p hp, h1]

theorem handleClient_sequences (req : Bool) :
    ∀ (reqs : List (Message × List AckEvent)) (l : Leader) (start : Nat),
      l.sequenceCounter = start % 2 ^ 64 →
      (∀ r ∈ reqs, r.1.cmd = CommandType.CMD_SET ∨ r.1.cmd = CommandType.CMD_DELETE) →
      (handleClient req l reqs).map (fun st => st.response.sequence) =
          (List.range' (start + 1) reqs.length).map (fun i => i % 2 ^ 64) ∧
        (handleClient req l reqs).map (fun st => st.leader.sequenceCounter) =
          (List.range' (start + 1) reqs.length).map (fun i => i % 2 ^ 64) ∧
        ∀ st ∈ handleClient req l reqs, ∀ p ∈ st.sent,
          p.2.sequence = st.response.sequence := by
  intro reqs
  induction reqs with
  | nil =>
    intro l start _ _
    simp [handleClient]
  | cons r rest ih =>
    intro l start hl hmut
    obtain ⟨msg, acks⟩ := r
    have hstep := handleClientStep_mutating req l msg acks (hmut (msg, acks) (by simp))
    have hnext : nextSequence l.sequenceCounter = (start + 1) % 2 ^ 64 := by
      rw [hl]
      unfold nextSequence
      omega
    obtain ⟨i1, i2, i3⟩ := ih (handleClientStep req l msg acks).leader (start + 1)
      (by rw [hstep.2.1, hnext]) (fun x hx => hmut x (List.mem_cons_of_mem _ hx))
    refine ⟨?_, ?_, ?_⟩
    · simp only [handleClient, List.map_cons, List.length_cons, List.range'_succ]
      rw [i1, hstep.1, hnext]
    · simp only [handleClient, List.map_cons, List.length_cons, List.range'_succ]
      rw [i2, hstep.2.1, hnext]
    · intro st hst
      simp only [handleClient, List.mem_cons] at hst
      rcases hst with h | h
      · subst h
        exact hstep.2.2
      · exact i3 st h

end Assignment_1_CP

namespace Assignment_2_AP

theorem wrapInt32_small (x : Int) (h0 : 0 ≤ x) (h1 : x < 2 ^ 31) : wrapInt32 x = x := by
  unfold wrapInt32
  omega

theorem nextLogSequence_wrap (m : Int) :
    nextLogSequence (wrapInt32 m) = wrapInt32 (m + 1) := by
  unfold nextLogSequence wrapInt32
  omega

theorem ap_handleClientStep_mutating (l : Leader) (msg : Message)
    (h : msg.cmd = CommandType.CMD_SET ∨ msg.cmd = CommandType.CMD_DELETE) :
    (handleClientStep l msg).response.sequence = nextLogSequence l.logSequence ∧
      (handleClientStep l msg).leader.logSequence = nextLogSequence l.logSequence ∧
      (handleClientStep l msg).broadcast = some (handleClientStep l msg).response ∧
      (handleClientStep l msg).leader.operationLog =
        l.operationLog ++ [(handleClientStep l msg).response] := by
  have h1 : ¬ CommandType.CMD_DELETE = CommandType.CMD_SET := by decide
  have h2 : ¬ CommandType.CMD_DELETE = CommandType.CMD_GET := by decide
  rcases h with h | h
  · unfold handleClientStep
    simp [h]
  · unfold handleClientStep
    simp [h, h1, h2]

theorem ap_handleClient_sequences :
    ∀ (msgs : List Message) (l : Leader) (start : Nat),
      l.logSequence = wrapInt32 start →
      (∀ m ∈ msgs, m.cmd = CommandType.CMD_SET ∨ m.cmd = CommandType.CMD_DELETE) →
      (handleClient l msgs).map (fun st => st.response.sequence) =
          (List.range' (start + 1) msgs.length).map (fun i : Nat => wrapInt32 (i : Int)) ∧
        (handleClient l msgs).map (fun st => st.leader.logSequence) =
          (List.range' (start + 1) msgs.length).map (fun i : Nat => wrapInt32 (i : Int)) ∧
        ∀ st ∈ handleClient l msgs,
          st.broadcast = some st.response ∧
            st.leader.operationLog.getLast? = some st.response := by
  intro msgs
  induction msgs with
  | nil =>
    intro l start _ _
    simp [handleClient]
  | cons msg rest ih =>
    intro l start hl hmut
    have hstep := ap_handleClientStep_mutating l msg (hmut msg (by simp))
    have hnext : nextLogSequence l.logSequence = wrapInt32 ((start + 1 : Nat) : Int) := by
      rw [hl, nextLogSequence_wrap]
      norm_cast
    obtain ⟨i1, i2, i3⟩ := ih (handleClientStep l msg).leader (start + 1)
      (by rw [hstep.2.1, hnext]) (fun x hx => hmut x (List.mem_cons_of_mem _ hx))
    refine ⟨?_, ?_, ?_⟩
    · simp only [handleClient, List.map_cons, List.length_cons, List.range'_succ]
      rw [i1, hstep.1, hnext]
    · simp only [handleClient, List.map_cons, List.length_cons, List.range'_succ]
      rw [i2, hstep.2.1, hnext]
    · intro st hst
      simp only [handleClient, List.mem_cons] at hst
      rcases hst with h | h
      · subst h
        refine ⟨hstep.2.2.1, ?_⟩
        rw [hstep.2.2.2]
        simp
      · exact i3 st h

end Assignment_2_AP

/-! ## Claims on sequence numbers -/

/-- C10 as stated fails on the asynchronous leader, whose counter is a 32-bit
`int`: of 2^31 SET requests handled one after another from a fresh counter, the
last one is assigned -2147483648, not 2147483648, a number below the one assigned
just before it. -/
theorem C10_counterexample_int_counter_wraps :
    ((Assignment_2_AP.handleClient {}
        (List.replicate (2 ^ 31)
          { cmd := Assignment_2_AP.CommandType.CMD_SET, key := "k", value := "v" })).map
        (fun st => st.response.sequence))[2 ^ 31 - 1]? = some (-2147483648) ∧
    ((Assignment_2_AP.handleClient {}
        (List.replicate (2 ^ 31)
          { cmd := Assignment_2_AP.CommandType.CMD_SET, key := "k", value := "v" })).map
        (fun st => st.response.sequence))[2 ^ 31 - 2]? = some 2147483647 := by
  have hseq := (Assignment_2_AP.ap_handleClient_sequences
    (List.replicate (2 ^ 31)
      { cmd := Assignment_2_AP.CommandType.CMD_SET, key := "k", value := "v" }) {} 0
    (by unfold Assignment_2_AP.wrapInt32; rfl)
    (by
      intro m hm
      rw [List.eq_of_mem_replicate hm]
      exact Or.inl rfl)).1
  rw [hseq, List.length_replicate]
  constructor
  · rw [List.getElem?_map, List.getElem?_range' _ _ (by norm_num)]
    simp only [Option.map_some', Assignment_2_AP.wrapInt32]
    norm_num
  · rw [List.getElem?_map, List.getElem?_range' _ _ (by norm_num)]
    simp only [Option.map_some', Assignment_2_AP.wrapInt32]
    norm_num

/-- C10 (amended): for every list of fewer than 2^64 SET and DELETE requests
handled one after another by the synchronous leader from a fresh counter, and
every list of fewer than 2^31 such requests handled by the asynchronous leader
from a fresh counter, the n-th request is assigned sequence number n and leaves
the counter at n; the messages the synchronous leader sends to followers for a
request carry the number assigned to it, and so do the log entry and the
broadcast message of the asynchronous leader. -/
theorem C10_sequence_numbers_consecutive (requireAllAcks : Bool)
    (l : Assignment_1_CP.Leader)
    (reqs : List (Assignment_1_CP.Message × List Assignment_1_CP.AckEvent))
    (la : Assignment_2_AP.Leader) (msgs : List Assignment_2_AP.Message)
    (hfresh : l.sequenceCounter = 0)
    (hmut : ∀ r ∈ reqs, r.1.cmd = Assignment_1_CP.CommandType.CMD_SET ∨
      r.1.cmd = Assignment_1_CP.CommandType.CMD_DELETE)
    (hlen : reqs.length < 2 ^ 64)
    (hfreshA : la.logSequence = 0)
    (hmutA : ∀ m ∈ msgs, m.cmd = Assignment_2_AP.CommandType.CMD_SET ∨
      m.cmd = Assignment_2_AP.CommandType.CMD_DELETE)
    (hlenA : msgs.length < 2 ^ 31) :
    ((Assignment_1_CP.handleClient requireAllAcks l reqs).map
          (fun st => st.response.sequence) = List.range' 1 reqs.length ∧
        (Assignment_1_CP.handleClient requireAllAcks l reqs).map
          (fun st => st.leader.sequenceCounter) = List.range' 1 reqs.length ∧
        ∀ st ∈ Assignment_1_CP.handleClient requireAllAcks l reqs, ∀ p ∈ st.sent,
          p.2.sequence = st.response.sequence) ∧
      ((Assignment_2_AP.handleClient la msgs).map (fun st => st.response.sequence) =
          (List.range' 1 msgs.length).map (fun i : Nat => (i : Int)) ∧
        (Assignment_2_AP.handleClient la msgs).map (fun st => st.leader.logSequence) =
          (List.range' 1 msgs.length).map (fun i : Nat => (i : Int)) ∧
        ∀ st ∈ Assignment_2_AP.handleClient la msgs,
          st.broadcast = some st.response ∧
            st.leader.operationLog.getLast? = some st.response) := by
  obtain ⟨c1, c2, c3⟩ := Assignment_1_CP.handleClient_sequences requireAllAcks reqs l 0
    (by rw [hfresh]; rfl) hmut
  obtain ⟨a1, a2, a3⟩ := Assignment_2_AP.ap_handleClient_sequences msgs la 0
    (by rw [hfreshA]; unfold Assignment_2_AP.wrapInt32; rfl) hmutA
  have hcp : (List.range' (0 + 1) reqs.length).map (fun i => i % 2 ^ 64) =
      List.range' 1 reqs.length := by
    rw [Nat.zero_add]
    conv_rhs => rw [← List.map_id (List.range' 1 reqs.length)]
    apply List.map_congr_left
    intro i hi
    rw [List.mem_range'_1] at hi
    simp only [id]
    exact Nat.mod_eq_of_lt (by omega)
  have hap : (List.range' (0 + 1) msgs.length).map (fun i : Nat => Assignment_2_AP.wrapInt32 i) =
      (List.range' 1 msgs.length).map (fun i : Nat => (i : Int)) := by
    rw [Nat.zero_add]
    apply List.map_congr_left
    intro i hi
    rw [List.mem_range'_1] at hi
    exact Assignment_2_AP.wrapInt32_small _ (by omega) (by omega)
  rw [hcp] at c1 c2
  rw [hap] at a1 a2
  exact ⟨⟨c1, c2, c3⟩, ⟨a1, a2, a3⟩⟩

/-- C10 (amended), at a SET followed by a DELETE on each of the two leaders. -/
theorem C10_sequence_numbers_consecutive_witness :
    (Assignment_1_CP.handleClient true {}
        [({ cmd := Assignment_1_CP.CommandType.CMD_SET, key := "k", value := "v" }, []),
         ({ cmd := Assignment_1_CP.CommandType.CMD_DELETE, key := "k" }, [])]).map
        (fun st => st.response.sequence) = [1, 2] ∧
      (Assignment_2_AP.handleClient {}
        [{ cmd := Assignment_2_AP.CommandType.CMD_SET, key := "k", value := "v" },
         { cmd := Assignment_2_AP.CommandType.CMD_DELETE, key := "k" }]).map
        (fun st => st.response.sequence) = [1, 2] :=
  ⟨(C10_sequence_numbers_consecutive true {}
      [({ cmd := Assignment_1_CP.CommandType.CMD_SET, key := "k", value := "v" }, []),
       ({ cmd := Assignment_1_CP.CommandType.CMD_DELETE, key := "k" }, [])]
      {}
      [{ cmd := Assignment_2_AP.CommandType.CMD_SET, key := "k", value := "v" },
       { cmd := Assignment_2_AP.CommandType.CMD_DELETE, key := "k" }]
      rfl (by decide) (by norm_num) rfl (by decide) (by norm_num)).1.1,
   (C10_sequence_numbers_consecutive true {}
      [({ cmd := Assignment_1_CP.CommandType.CMD_SET, key := "k", value := "v" }, []),
       ({ cmd := Assignment_1_CP.CommandType.CMD_DELETE, key := "k" }, [])]
      {}
      [{ cmd := Assignment_2_AP.CommandType.CMD_SET, key := "k", value := "v" },
       { cmd := Assignment_2_AP.CommandType.CMD_DELETE, key := "k" }]
      rfl (by decide) (by norm_num) rfl (by decide) (by norm_num)).2.1⟩

/-! ## The operation log -/

namespace Assignment_2_AP

open Plain

theorem ap_step_mutating (l : Leader) (msg : Message) (h : mutating msg = true) :
    (handleClientStep l msg).response.cmd = msg.cmd ∧
      (handleClientStep l msg).response.key = msg.key ∧
      (handleClientStep l msg).response.value = msg.value ∧
      (handleClientStep l msg).response.sequence = nextLogSequence l.logSequence ∧
      (handleClientStep l msg).leader.logSequence = nextLogSequence l.logSequence ∧
      (handleClientStep l msg).leader.store = applyOp l.store msg ∧
      (handleClientStep l msg).leader.followerSockets = l.followerSockets ∧
      (handleClientStep l msg).leader.operationLog =
        l.operationLog ++ [(handleClientStep l msg).response] := by
  have h1 : ¬ CommandType.CMD_DELETE = CommandType.CMD_SET := by decide
  have h2 : ¬ CommandType.CMD_DELETE = CommandType.CMD_GET := by decide
  simp only [mutating, decide_eq_true_eq] at h
  rcases h with h | h
  · unfold handleClientStep applyOp
    simp [h]
  · unfold handleClientStep applyOp
    simp [h, h1, h2]

theorem ap_step_other (l : Leader) (msg : Message) (h : mutating msg = false) :
    (handleClientStep l msg).leader = l := by
  simp only [mutating, decide_eq_false_iff_not, not_or] at h
  unfold handleClientStep
  simp only [h.1, h.2, if_false]
  split
  · split <;> rfl
  · split
    · rfl
    · split <;> rfl

theorem ap_afterClient_cons (l : Leader) (msg : Message) (rest : List Message) :
    afterClient l (msg :: rest) = afterClient (handleClientStep l msg).leader rest := rfl

theorem ap_afterClient_append (l : Leader) (xs ys : List Message) :
    afterClient l (xs ++ ys) = afterClient (afterClient l xs) ys := by
  unfold afterClient
  rw [List.foldl_append]

theorem ap_afterClient_log :
    ∀ (msgs : List Message) (l : Leader) (start : Nat),
      l.logSequence = wrapInt32 start →
      (afterClient l msgs).logSequence = wrapInt32 ((start + msgs.countP mutating : Nat) : Int) ∧
        (afterClient l msgs).operationLog.map (fun m => m.sequence) =
          l.operationLog.map (fun m => m.sequence) ++
            (List.range' (start + 1) (msgs.countP mutating)).map
              (fun i : Nat => wrapInt32 (i : Int)) := by
  intro msgs
  induction msgs with
  | nil =>
    intro l start hl
    simp [afterClient, hl]
  | cons msg rest ih =>
    intro l start hl
    rw [ap_afterClient_cons]
    cases hm : mutating msg with
    | true =>
      obtain ⟨_, _, _, hseq, hnext, _, _, hlog⟩ := ap_step_mutating l msg hm
      have hstart : nextLogSequence l.logSequence = wrapInt32 ((start + 1 : Nat) : Int) := by
        rw [hl, nextLogSequence_wrap]
        norm_cast
      obtain ⟨i1, i2⟩ := ih (handleClientStep l msg).leader (start + 1) (by rw [hnext, hstart])
      have hcount : (msg :: rest).countP mutating = rest.countP mutating + 1 := by
        rw [List.countP_cons]
        simp [hm]
      refine ⟨?_, ?_⟩
      · rw [i1, hcount]
        congr 2
        omega
      · rw [i2, hcount, hlog, List.range'_succ, List.map_append, List.map_cons, List.map_nil,
          List.map_cons, hseq, hstart, List.append_assoc]
        rfl
    | false =>
      rw [ap_step_other l msg hm]
      obtain ⟨i1, i2⟩ := ih l start hl
      have hcount : (msg :: rest).countP mutating = rest.countP mutating := by
        rw [List.countP_cons]
        simp [hm]
      rw [hcount]
      exact ⟨i1, i2⟩

theorem ap_step_log (l : Leader) (msg : Message) :
    (handleClientStep l msg).leader.operationLog =
      l.operationLog ++ (if mutating msg then [(handleClientStep l msg).response] else []) := by
  cases hm : mutating msg with
  | true =>
    simp only [if_true]
    exact (ap_step_mutating l msg hm).2.2.2.2.2.2.2
  | false =>
    rw [ap_step_other l msg hm]
    simp

theorem range_cast_increasing (n : Nat) :
    List.Pairwise (fun a b : Int => a < b)
      ((List.range' 1 n).map (fun i : Nat => (i : Int))) := by
  rw [List.pairwise_map]
  have h := List.pairwise_lt_range' 1 n
  exact h.imp (fun hab => by exact_mod_cast hab)

theorem range_wrap_small (n : Nat) (hn : n < 2 ^ 31) :
    (List.range' (0 + 1) n).map (fun i : Nat => wrapInt32 (i : Int)) =
      (List.range' 1 n).map (fun i : Nat => (i : Int)) := by
  rw [Nat.zero_add]
  apply List.map_congr_left
  intro i hi
  rw [List.mem_range'_1] at hi
  exact wrapInt32_small _ (by omega) (by omega)

end Assignment_2_AP

namespace Assignment_3_Bonus

theorem bonus_step_mutating (l : Leader) (msg : Message) (now : Nat)
    (h : mutating msg = true) :
    (handleClientStep l msg now).response.cmd = msg.cmd ∧
      (handleClientStep l msg now).response.key = msg.key ∧
      (handleClientStep l msg now).response.value = msg.value ∧
      (handleClientStep l msg now).response.status = 0 ∧
      (handleClientStep l msg now).response.sequence = nextLogSequence l.logSequence ∧
      (handleClientStep l msg now).leader.logSequence = nextLogSequence l.logSequence ∧
      (handleClientStep l msg now).leader.followerSockets = l.followerSockets ∧
      (handleClientStep l msg now).leader.operationLog =
        l.operationLog ++ [(handleClientStep l msg now).response] := by
  have h1 : ¬ CommandType.CMD_DELETE = CommandType.CMD_SET := by decide
  have h2 : ¬ CommandType.CMD_DELETE = CommandType.CMD_GET := by decide
  simp only [mutating, decide_eq_true_eq] at h
  rcases h with h | h
  · unfold handleClientStep
    by_cases ht : msg.timestamp = 0 <;> simp [h, ht]
  · unfold handleClientStep
    by_cases ht : msg.timestamp = 0 <;> simp [h, h1, h2, ht]

theorem bonus_step_other (l : Leader) (msg : Message) (now : Nat)
    (h : mutating msg = false) :
    (handleClientStep l msg now).leader = l := by
  simp only [mutating, decide_eq_false_iff_not, not_or] at h
  unfold handleClientStep
  by_cases ht : msg.timestamp = 0
  · simp only [ht, if_true, h.1, h.2, if_false]
    split
    · split <;> rfl
    · split <;> rfl
  · simp only [ht, if_false, h.1, h.2]
    split
    · split <;> rfl
    · split <;> rfl

theorem bonus_afterClient_cons (l : Leader) (r : Message × Nat) (rest : List (Message × Nat)) :
    afterClient l (r :: rest) = afterClient (handleClientStep l r.1 r.2).leader rest := rfl

theorem bonus_afterClient_log :
    ∀ (reqs : List (Message × Nat)) (l : Leader) (start : Nat),
      l.logSequence = Assignment_2_AP.wrapInt32 start →
      (afterClient l reqs).logSequence =
          Assignment_2_AP.wrapInt32
            ((start + reqs.countP (fun r => mutating r.1) : Nat) : Int) ∧
        (afterClient l reqs).operationLog.map (fun m => m.sequence) =
          l.operationLog.map (fun m => m.sequence) ++
            (List.range' (start + 1) (reqs.countP (fun r => mutating r.1))).map
              (fun i : Nat => Assignment_2_AP.wrapInt32 (i : Int)) := by
  intro reqs
  induction reqs with
  | nil =>
    intro l start hl
    simp [afterClient, hl]
  | cons r rest ih =>
    intro l start hl
    rw [bonus_afterClient_cons]
    cases hm : mutating r.1 with
    | true =>
      obtain ⟨_, _, _, _, hseq, hnext, _, hlog⟩ := bonus_step_mutating l r.1 r.2 hm
      have hstart : nextLogSequence l.logSequence =
          Assignment_2_AP.wrapInt32 ((start + 1 : Nat) : Int) := by
        rw [hl]
        unfold nextLogSequence Assignment_2_AP.wrapInt32
        push_cast
        omega
      obtain ⟨i1, i2⟩ := ih (handleClientStep l r.1 r.2).leader (start + 1)
        (by rw [hnext, hstart])
      have hcount : (r :: rest).countP (fun r => mutating r.1) =
          rest.countP (fun r => mutating r.1) + 1 := by
        rw [List.countP_cons]
        simp [hm]
      refine ⟨?_, ?_⟩
      · rw [i1, hcount]
        congr 2
        omega
      · rw [i2, hcount, hlog, List.range'_succ, List.map_append, List.map_cons, List.map_nil,
          List.map_cons, hseq, hstart, List.append_assoc]
        rfl
    | false =>
      rw [bonus_step_other l r.1 r.2 hm]
      obtain ⟨i1, i2⟩ := ih l start hl
      have hcount : (r :: rest).countP (fun r => mutating r.1) =
          rest.countP (fun r => mutating r.1) := by
        rw [List.countP_cons]
        simp [hm]
      rw [hcount]
      exact ⟨i1, i2⟩

theorem bonus_step_log (l : Leader) (msg : Message) (now : Nat) :
    (handleClientStep l msg now).leader.operationLog =
      l.operationLog ++
        (if mutating msg then [(handleClientStep l msg now).response] else []) := by
  cases hm : mutating msg with
  | true =>
    simp only [if_true]
    exact (bonus_step_mutating l msg now hm).2.2.2.2.2.2.2
  | false =>
    rw [bonus_step_other l msg now hm]
    simp

end Assignment_3_Bonus

/-! ## Catch-up of the plain follower -/

namespace Assignment_2_AP

open Plain

theorem applyOp_congr (s : KeyValueStore) (a b : Message) (hc : a.cmd = b.cmd)
    (hk : a.key = b.key) (hv : a.value = b.value) : applyOp s a = applyOp s b := by
  unfold applyOp
  rw [hc, hk, hv]

theorem ap_afterClient_store :
    ∀ (msgs : List Message) (l : Leader), (∀ m ∈ msgs, mutating m = true) →
      (afterClient l msgs).store = msgs.foldl applyOp l.store := by
  intro msgs
  induction msgs with
  | nil => intro l _; rfl
  | cons msg rest ih =>
    intro l hmut
    rw [ap_afterClient_cons, ih _ (fun m hm => hmut m (List.mem_cons_of_mem _ hm)),
      (ap_step_mutating l msg (hmut msg (by simp))).2.2.2.2.2.1]
    rfl

theorem ap_afterClient_entries :
    ∀ (msgs : List Message) (l : Leader), (∀ m ∈ msgs, mutating m = true) →
      ∃ entries : List Message,
        (afterClient l msgs).operationLog = l.operationLog ++ entries ∧
        (∀ s : KeyValueStore, entries.foldl applyOp s = msgs.foldl applyOp s) ∧
        (∀ e ∈ entries, e.cmd ≠ CommandType.CMD_ACK) ∧
        (∀ e ∈ entries, ∃ m ∈ msgs, e.key = m.key) := by
  intro msgs
  induction msgs with
  | nil =>
    intro l _
    exact ⟨[], by simp [afterClient], fun _ => rfl, by simp, by simp⟩
  | cons msg rest ih =>
    intro l hmut
    have hm := hmut msg (by simp)
    obtain ⟨hcmd, hkey, hval, _, _, _, _, hlog⟩ := ap_step_mutating l msg hm
    obtain ⟨es, h1, h2, h3, h4⟩ := ih (handleClientStep l msg).leader
      (fun m hx => hmut m (List.mem_cons_of_mem _ hx))
    refine ⟨(handleClientStep l msg).response :: es, ?_, ?_, ?_, ?_⟩
    · rw [ap_afterClient_cons, h1, hlog, List.append_assoc]
      rfl
    · intro s
      rw [List.foldl_cons, List.foldl_cons, h2,
        applyOp_congr s (handleClientStep l msg).response msg hcmd hkey hval]
    · intro e he
      rcases List.mem_cons.mp he with h | h
      · subst h
        rw [hcmd]
        simp only [mutating, decide_eq_true_eq] at hm
        rcases hm with hm | hm <;> rw [hm] <;> decide
      · exact h3 e h
    · intro e he
      rcases List.mem_cons.mp he with h | h
      · subst h
        exact ⟨msg, by simp, hkey⟩
      · obtain ⟨m, hmem, hk⟩ := h4 e h
        exact ⟨m, List.mem_cons_of_mem _ hmem, hk⟩

theorem ap_requestSyncLoop_entries :
    ∀ (entries : List Message) (f : Follower) (ack : Message) (rest : List Message),
      (∀ e ∈ entries, e.cmd ≠ CommandType.CMD_ACK) → ack.cmd = CommandType.CMD_ACK →
      (requestSyncLoop f (entries ++ ack :: rest)).store = entries.foldl applyOp f.store ∧
        (requestSyncLoop f (entries ++ ack :: rest)).lastSequence = ack.sequence ∧
        (requestSyncLoop f (entries ++ ack :: rest)).seqFile = some ack.sequence ∧
        (requestSyncLoop f (entries ++ ack :: rest)).followerId = f.followerId := by
  intro entries
  induction entries with
  | nil =>
    intro f ack rest _ hack
    simp [requestSyncLoop, hack, saveSequence]
  | cons e es ih =>
    intro f ack rest hne hack
    have he : e.cmd ≠ CommandType.CMD_ACK := hne e (by simp)
    rw [List.cons_append, requestSyncLoop]
    simp only [he, if_false]
    obtain ⟨i1, i2, i3, i4⟩ := ih
      (Follower.mk
        (if e.cmd = CommandType.CMD_SET then f.store.set e.key e.value
          else if e.cmd = CommandType.CMD_DELETE then (f.store.deleteKey e.key).2 else f.store)
        f.followerId
        (if e.sequence > f.lastSequence then e.sequence else f.lastSequence) f.seqFile)
      ack rest (fun x hx => hne x (List.mem_cons_of_mem _ hx)) hack
    exact ⟨i1, i2, i3, i4⟩

theorem applyOp_find_other (s : KeyValueStore) (e : Message) (k : String) (h : e.key ≠ k) :
    UMap.find k (applyOp s e).data = UMap.find k s.data := by
  have hk : ¬ k = e.key := fun x => h x.symm
  unfold applyOp
  split
  · simp [KeyValueStore.set, UMap.find_assign, hk]
  · split
    · simp [KeyValueStore.deleteKey, UMap.find_erase, hk]
    · rfl

theorem foldl_applyOp_find_other (k : String) :
    ∀ (es : List Message) (s : KeyValueStore), (∀ e ∈ es, e.key ≠ k) →
      UMap.find k (es.foldl applyOp s).data = UMap.find k s.data := by
  intro es
  induction es with
  | nil => intro s _; rfl
  | cons e rest ih =>
    intro s h
    rw [List.foldl_cons, ih _ (fun x hx => h x (List.mem_cons_of_mem _ hx)),
      applyOp_find_other s e k (h e (by simp))]

end Assignment_2_AP

namespace Assignment_2_AP

open Plain

theorem ap_handleFollower_sync (l : Leader) (followerSocket : Int) (f : Follower) :
    (handleFollower l followerSocket (some (syncReq f))).sent =
      l.operationLog.filter (fun op => op.sequence > f.lastSequence) ++
        [{ cmd := CommandType.CMD_ACK, sequence := l.logSequence }] := by
  unfold handleFollower syncReq
  simp

theorem ap_log_positive (l : Leader) (n : Nat)
    (h : l.operationLog.map (fun m => m.sequence) =
      (List.range' 1 n).map (fun i : Nat => (i : Int))) :
    l.operationLog.filter (fun op => op.sequence > 0) = l.operationLog := by
  rw [List.filter_eq_self]
  intro e he
  have hmem : e.sequence ∈ l.operationLog.map (fun m => m.sequence) :=
    List.mem_map.mpr ⟨e, he, rfl⟩
  rw [h, List.mem_map] at hmem
  obtain ⟨i, hi, hie⟩ := hmem
  rw [List.mem_range'_1] at hi
  have : (0 : Int) < e.sequence := by
    rw [← hie]
    exact_mod_cast hi.1
  simpa using this

theorem ap_sync_from_zero (l0 : Leader) (msgs : List Message) (f0 : Follower)
    (followerSocket : Int)
    (hlog : l0.operationLog = []) (hseq : l0.logSequence = 0)
    (hmut : ∀ m ∈ msgs, mutating m = true) (hlen : msgs.length < 2 ^ 31)
    (hfs : f0.lastSequence = 0) :
    (requestSync f0 true
        (handleFollower (afterClient l0 msgs) followerSocket (some (syncReq f0))).sent).store =
      msgs.foldl applyOp f0.store := by
  have hcount : msgs.countP mutating = msgs.length := by
    rw [List.countP_eq_length]
    exact hmut
  have hl := (ap_afterClient_log msgs l0 0 (by rw [hseq]; unfold wrapInt32; rfl)).2
  rw [hlog, List.map_nil, List.nil_append, hcount, range_wrap_small _ hlen] at hl
  obtain ⟨entries, he1, he2, he3, _⟩ := ap_afterClient_entries msgs l0 hmut
  rw [hlog, List.nil_append] at he1
  rw [ap_handleFollower_sync, hfs, ap_log_positive _ _ hl, he1]
  unfold requestSync
  simp only [if_true]
  rw [(ap_requestSyncLoop_entries entries f0 _ [] he3 rfl).1, he2]

theorem ap_sync_after_wrap (A : List Message) (mJ : Message) (followerSocket : Int)
    (hA : ∀ m ∈ A, mutating m = true) (hkey : ∀ m ∈ A, m.key ≠ mJ.key)
    (hlen : A.length = 2 ^ 31 - 1) (hJ : mJ.cmd = CommandType.CMD_SET) :
    (requestSync {} true
        (handleFollower (afterClient {} (A ++ [mJ])) followerSocket (some (syncReq {}))).sent
      ).store.get mJ.key = none ∧
      (afterClient {} (A ++ [mJ])).store.get mJ.key = some mJ.value := by
  have hmJ : mutating mJ = true := by simp [mutating, hJ]
  have hcount : A.countP mutating = A.length := by
    rw [List.countP_eq_length]
    exact hA
  obtain ⟨hseqA, _⟩ := ap_afterClient_log A {} 0 (by unfold wrapInt32; rfl)
  rw [hcount, hlen] at hseqA
  obtain ⟨entries, he1, _, he3, he4⟩ := ap_afterClient_entries A {} hA
  have he1b : (afterClient {} A).operationLog = entries := by
    rw [he1]
    rfl
  obtain ⟨_, _, _, hrseq, _, hstore, _, hlog⟩ := ap_step_mutating (afterClient {} A) mJ hmJ
  have hsplit : afterClient {} (A ++ [mJ]) = (handleClientStep (afterClient {} A) mJ).leader := by
    rw [ap_afterClient_append]
    rfl
  have hlast : (handleClientStep (afterClient {} A) mJ).response.sequence = -2147483648 := by
    rw [hrseq, hseqA]
    unfold nextLogSequence wrapInt32
    norm_num
  constructor
  · rw [ap_handleFollower_sync, hsplit, hlog, he1b, List.filter_append]
    have hdrop : List.filter (fun op => decide (op.sequence > ({} : Follower).lastSequence))
        [(handleClientStep (afterClient {} A) mJ).response] = [] := by
      rw [List.filter_cons, hlast]
      rfl
    rw [hdrop, List.append_nil]
    unfold requestSync
    simp only [if_true]
    have hsub : ∀ e ∈ entries.filter
        (fun op => decide (op.sequence > ({} : Follower).lastSequence)), e ∈ entries :=
      fun e he => (List.mem_filter.mp he).1
    rw [KeyValueStore.get,
      (ap_requestSyncLoop_entries _ {} _ [] (fun e he => he3 e (hsub e he)) rfl).1,
      foldl_applyOp_find_other mJ.key _ _ (fun e he => by
        obtain ⟨m, hm, hk⟩ := he4 e (hsub e he)
        rw [hk]
        exact hkey m hm)]
    rfl
  · rw [hsplit, hstore]
    unfold applyOp
    simp [hJ, KeyValueStore.get, KeyValueStore.set, UMap.find_assign]

end Assignment_2_AP

/-! ## Claims on the catch-up protocol -/

/-- C11: for every log and every SYNC request with sequence `S`, the asynchronous
leader answers on the requesting socket with the log entries whose sequence is
greater than `S`, in log order, and then one message with command ACK whose
sequence is the current value of the counter `logSequence`; `handleClient` and
the registration handshake of `handleFollower` send the same entries and the
same ACK sequence. -/
theorem C11_sync_answer_is_log_suffix (l : Assignment_2_AP.Leader)
    (msg : Assignment_2_AP.Message) (followerSocket : Int)
    (hsync : msg.cmd = Assignment_2_AP.CommandType.CMD_SYNC) :
    (Assignment_2_AP.handleClientStep l msg).replay =
        l.operationLog.filter (fun op => op.sequence > msg.sequence) ∧
      (Assignment_2_AP.handleClientStep l msg).response.cmd =
        Assignment_2_AP.CommandType.CMD_ACK ∧
      (Assignment_2_AP.handleClientStep l msg).response.sequence = l.logSequence ∧
      (Assignment_2_AP.handleFollower l followerSocket (some msg)).sent =
        l.operationLog.filter (fun op => op.sequence > msg.sequence) ++
          [{ cmd := Assignment_2_AP.CommandType.CMD_ACK, sequence := l.logSequence }] ∧
      (Assignment_2_AP.handleFollower l followerSocket (some msg)).sent.map
          (fun m => (m.cmd, m.sequence)) =
        ((Assignment_2_AP.handleClientStep l msg).replay ++
          [(Assignment_2_AP.handleClientStep l msg).response]).map
          (fun m => (m.cmd, m.sequence)) := by
  have h1 : ¬ Assignment_2_AP.CommandType.CMD_SYNC = Assignment_2_AP.CommandType.CMD_SET := by
    decide
  have h2 : ¬ Assignment_2_AP.CommandType.CMD_SYNC = Assignment_2_AP.CommandType.CMD_GET := by
    decide
  have h3 : ¬ Assignment_2_AP.CommandType.CMD_SYNC =
      Assignment_2_AP.CommandType.CMD_DELETE := by decide
  have h4 : ¬ Assignment_2_AP.CommandType.CMD_SYNC = Assignment_2_AP.CommandType.CMD_LIST := by
    decide
  refine ⟨?_, ?_, ?_, ?_, ?_⟩
  · unfold Assignment_2_AP.handleClientStep
    simp [hsync, h1, h2, h3, h4]
  · unfold Assignment_2_AP.handleClientStep
    simp [hsync, h1, h2, h3, h4]
  · unfold Assignment_2_AP.handleClientStep
    simp [hsync, h1, h2, h3, h4]
  · unfold Assignment_2_AP.handleFollower
    simp [hsync]
  · unfold Assignment_2_AP.handleFollower Assignment_2_AP.handleClientStep
    simp [hsync, h1, h2, h3, h4]

/-- C11, at a log of three entries and a request from sequence 1. -/
theorem C11_sync_answer_is_log_suffix_witness :
    (Assignment_2_AP.handleFollower
        { operationLog :=
            [{ cmd := Assignment_2_AP.CommandType.CMD_SET, key := "a", value := "1", sequence := 1 },
             { cmd := Assignment_2_AP.CommandType.CMD_SET, key := "b", value := "2", sequence := 2 },
             { cmd := Assignment_2_AP.CommandType.CMD_DELETE, key := "a", sequence := 3 }],
          logSequence := 3 }
        7 (some { cmd := Assignment_2_AP.CommandType.CMD_SYNC, sequence := 1 })).sent =
      [{ cmd := Assignment_2_AP.CommandType.CMD_SET, key := "b", value := "2", sequence := 2 },
       { cmd := Assignment_2_AP.CommandType.CMD_DELETE, key := "a", sequence := 3 },
       { cmd := Assignment_2_AP.CommandType.CMD_ACK, sequence := 3 }] :=
  (C11_sync_answer_is_log_suffix
    { operationLog :=
        [{ cmd := Assignment_2_AP.CommandType.CMD_SET, key := "a", value := "1", sequence := 1 },
         { cmd := Assignment_2_AP.CommandType.CMD_SET, key := "b", value := "2", sequence := 2 },
         { cmd := Assignment_2_AP.CommandType.CMD_DELETE, key := "a", sequence := 3 }],
      logSequence := 3 }
    { cmd := Assignment_2_AP.CommandType.CMD_SYNC, sequence := 1 } 7 rfl).2.2.2.1

/-- C12 as stated fails: after 2^31 SET requests handled one at a time from the
initial state of the asynchronous leader, the log entry at position 2^31 carries
sequence -2147483648, below the 2147483647 of the entry before it. -/
theorem C12_counterexample_log_sequence_wraps :
    ((Assignment_2_AP.afterClient {}
        (List.replicate (2 ^ 31)
          { cmd := Assignment_2_AP.CommandType.CMD_SET, key := "k", value := "v" })
        ).operationLog.map (fun m => m.sequence))[2 ^ 31 - 2]? = some 2147483647 ∧
    ((Assignment_2_AP.afterClient {}
        (List.replicate (2 ^ 31)
          { cmd := Assignment_2_AP.CommandType.CMD_SET, key := "k", value := "v" })
        ).operationLog.map (fun m => m.sequence))[2 ^ 31 - 1]? = some (-2147483648) := by
  have hlog := (Assignment_2_AP.ap_afterClient_log
    (List.replicate (2 ^ 31)
      { cmd := Assignment_2_AP.CommandType.CMD_SET, key := "k", value := "v" }) {} 0
    (by unfold Assignment_2_AP.wrapInt32; rfl)).2
  have hcount : (List.replicate (2 ^ 31)
      ({ cmd := Assignment_2_AP.CommandType.CMD_SET, key := "k", value := "v" } :
        Assignment_2_AP.Message)).countP Assignment_2_AP.mutating = 2 ^ 31 := by
    rw [List.countP_replicate]
    rfl
  rw [hlog, hcount]
  simp only [List.map_nil, List.nil_append]
  constructor
  · rw [List.getElem?_map, List.getElem?_range' _ _ (by norm_num)]
    simp only [Option.map_some', Assignment_2_AP.wrapInt32]
    norm_num
  · rw [List.getElem?_map, List.getElem?_range' _ _ (by norm_num)]
    simp only [Option.map_some', Assignment_2_AP.wrapInt32]
    norm_num

/-- C12 (amended): in the plain and in the LWW asynchronous leader, a SET or
DELETE appends exactly one entry, its answer, to the operation log and any other
request leaves the log as it is; after any sequence of requests with fewer than
2^31 SETs and DELETEs, handled one at a time from the initial state (empty log,
counter 0), the entries carry the sequence numbers 1, 2, 3, ... in log order,
which are strictly increasing. -/
theorem C12_log_append_only_increasing
    (l : Assignment_2_AP.Leader) (msgs : List Assignment_2_AP.Message)
    (lb : Assignment_3_Bonus.Leader) (reqs : List (Assignment_3_Bonus.Message × Nat))
    (hlog : l.operationLog = []) (hseq : l.logSequence = 0)
    (hcount : msgs.countP Assignment_2_AP.mutating < 2 ^ 31)
    (hlogB : lb.operationLog = []) (hseqB : lb.logSequence = 0)
    (hcountB : reqs.countP (fun r => Assignment_3_Bonus.mutating r.1) < 2 ^ 31) :
    ((∀ (st : Assignment_2_AP.Leader) (msg : Assignment_2_AP.Message),
          (Assignment_2_AP.handleClientStep st msg).leader.operationLog =
            st.operationLog ++
              (if Assignment_2_AP.mutating msg then
                [(Assignment_2_AP.handleClientStep st msg).response] else [])) ∧
        (Assignment_2_AP.afterClient l msgs).operationLog.map (fun m => m.sequence) =
          (List.range' 1 (msgs.countP Assignment_2_AP.mutating)).map
            (fun i : Nat => (i : Int)) ∧
        List.Pairwise (fun a b : Int => a < b)
          ((Assignment_2_AP.afterClient l msgs).operationLog.map (fun m => m.sequence))) ∧
      ((∀ (st : Assignment_3_Bonus.Leader) (msg : Assignment_3_Bonus.Message) (now : Nat),
          (Assignment_3_Bonus.handleClientStep st msg now).leader.operationLog =
            st.operationLog ++
              (if Assignment_3_Bonus.mutating msg then
                [(Assignment_3_Bonus.handleClientStep st msg now).response] else [])) ∧
        (Assignment_3_Bonus.afterClient lb reqs).operationLog.map (fun m => m.sequence) =
          (List.range' 1 (reqs.countP (fun r => Assignment_3_Bonus.mutating r.1))).map
            (fun i : Nat => (i : Int)) ∧
        List.Pairwise (fun a b : Int => a < b)
          ((Assignment_3_Bonus.afterClient lb reqs).operationLog.map (fun m => m.sequence))) := by
  have ha := (Assignment_2_AP.ap_afterClient_log msgs l 0
    (by rw [hseq]; unfold Assignment_2_AP.wrapInt32; rfl)).2
  rw [hlog, List.map_nil, List.nil_append, Assignment_2_AP.range_wrap_small _ hcount] at ha
  have hb := (Assignment_3_Bonus.bonus_afterClient_log reqs lb 0
    (by rw [hseqB]; unfold Assignment_2_AP.wrapInt32; rfl)).2
  rw [hlogB, List.map_nil, List.nil_append, Assignment_2_AP.range_wrap_small _ hcountB] at hb
  refine ⟨⟨Assignment_2_AP.ap_step_log, ha, ?_⟩, ⟨Assignment_3_Bonus.bonus_step_log, hb, ?_⟩⟩
  · rw [ha]
    exact Assignment_2_AP.range_cast_increasing _
  · rw [hb]
    exact Assignment_2_AP.range_cast_increasing _

/-- C12 (amended), at SET, GET, DELETE on the plain leader and SET, DELETE on the
LWW leader. -/
theorem C12_log_append_only_increasing_witness :
    (Assignment_2_AP.afterClient {}
        [{ cmd := Assignment_2_AP.CommandType.CMD_SET, key := "k", value := "v" },
         { cmd := Assignment_2_AP.CommandType.CMD_GET, key := "k" },
         { cmd := Assignment_2_AP.CommandType.CMD_DELETE, key := "k" }]
      ).operationLog.map (fun m => m.sequence) = [1, 2] ∧
    (Assignment_3_Bonus.afterClient {}
        [({ cmd := Assignment_3_Bonus.CommandType.CMD_SET, key := "k", value := "v" }, 100),
         ({ cmd := Assignment_3_Bonus.CommandType.CMD_DELETE, key := "k" }, 200)]
      ).operationLog.map (fun m => m.sequence) = [1, 2] :=
  ⟨(C12_log_append_only_increasing {}
      [{ cmd := Assignment_2_AP.CommandType.CMD_SET, key := "k", value := "v" },
       { cmd := Assignment_2_AP.CommandType.CMD_GET, key := "k" },
       { cmd := Assignment_2_AP.CommandType.CMD_DELETE, key := "k" }]
      {}
      [({ cmd := Assignment_3_Bonus.CommandType.CMD_SET, key := "k", value := "v" }, 100),
       ({ cmd := Assignment_3_Bonus.CommandType.CMD_DELETE, key := "k" }, 200)]
      rfl rfl (by decide) rfl rfl (by decide)).1.2.1,
   (C12_log_append_only_increasing {}
      [{ cmd := Assignment_2_AP.CommandType.CMD_SET, key := "k", value := "v" },
       { cmd := Assignment_2_AP.CommandType.CMD_GET, key := "k" },
       { cmd := Assignment_2_AP.CommandType.CMD_DELETE, key := "k" }]
      {}
      [({ cmd := Assignment_3_Bonus.CommandType.CMD_SET, key := "k", value := "v" }, 100),
       ({ cmd := Assignment_3_Bonus.CommandType.CMD_DELETE, key := "k" }, 200)]
      rfl rfl (by decide) rfl rfl (by decide)).2.2.1⟩

/-- C13 as stated fails: the leader handles 2^31 - 1 SETs of key "k" and then a
SET of key "j", all from its initial state; the last log entry carries sequence
-2147483648, the answer to a sync from sequence 0 leaves it out, and the follower
ends without the key "j" that the leader holds. -/
theorem C13_counterexample_sync_misses_wrapped_entry :
    (Assignment_2_AP.requestSync {} true
        (Assignment_2_AP.handleFollower
          (Assignment_2_AP.afterClient {}
            (List.replicate (2 ^ 31 - 1)
                { cmd := Assignment_2_AP.CommandType.CMD_SET, key := "k", value := "v" } ++
              [{ cmd := Assignment_2_AP.CommandType.CMD_SET, key := "j", value := "w" }]))
          7 (some (Assignment_2_AP.syncReq {}))).sent).store.get "j" = none ∧
      (Assignment_2_AP.afterClient {}
        (List.replicate (2 ^ 31 - 1)
            { cmd := Assignment_2_AP.CommandType.CMD_SET, key := "k", value := "v" } ++
          [{ cmd := Assignment_2_AP.CommandType.CMD_SET, key := "j", value := "w" }])
        ).store.get "j" = some "w" :=
  Assignment_2_AP.ap_sync_after_wrap
    (List.replicate (2 ^ 31 - 1)
      { cmd := Assignment_2_AP.CommandType.CMD_SET, key := "k", value := "v" })
    { cmd := Assignment_2_AP.CommandType.CMD_SET, key := "j", value := "w" } 7
    (fun m hm => by rw [List.eq_of_mem_replicate hm]; rfl)
    (fun m hm => by rw [List.eq_of_mem_replicate hm]; decide)
    (List.length_replicate _ _) rfl

/-- C13 (amended): the plain asynchronous leader handles fewer than 2^31 SET and
DELETE requests from its initial state (empty store, empty log, counter 0); a
follower with an empty store and last-applied sequence 0 then completes
`requestSync` against `handleFollower`.  The store of the follower equals the
store of the leader, key for key and value for value. -/
theorem C13_sync_from_zero_reproduces_store (l0 : Assignment_2_AP.Leader)
    (msgs : List Assignment_2_AP.Message) (f0 : Assignment_2_AP.Follower)
    (followerSocket : Int)
    (hstore : l0.store = {}) (hlog : l0.operationLog = []) (hseq : l0.logSequence = 0)
    (hmut : ∀ m ∈ msgs, Assignment_2_AP.mutating m = true) (hlen : msgs.length < 2 ^ 31)
    (hfstore : f0.store = {}) (hfs : f0.lastSequence = 0) :
    (Assignment_2_AP.requestSync f0 true
        (Assignment_2_AP.handleFollower (Assignment_2_AP.afterClient l0 msgs) followerSocket
          (some (Assignment_2_AP.syncReq f0))).sent).store =
        (Assignment_2_AP.afterClient l0 msgs).store ∧
      ∀ k : String,
        (Assignment_2_AP.requestSync f0 true
          (Assignment_2_AP.handleFollower (Assignment_2_AP.afterClient l0 msgs) followerSocket
            (some (Assignment_2_AP.syncReq f0))).sent).store.get k =
          (Assignment_2_AP.afterClient l0 msgs).store.get k := by
  have h : (Assignment_2_AP.requestSync f0 true
        (Assignment_2_AP.handleFollower (Assignment_2_AP.afterClient l0 msgs) followerSocket
          (some (Assignment_2_AP.syncReq f0))).sent).store =
        (Assignment_2_AP.afterClient l0 msgs).store := by
    rw [Assignment_2_AP.ap_sync_from_zero l0 msgs f0 followerSocket hlog hseq hmut hlen hfs,
      Assignment_2_AP.ap_afterClient_store msgs l0 hmut, hstore, hfstore]
  exact ⟨h, fun k => by rw [h]⟩

/-- C13 (amended), at SET a, SET b, DELETE a. -/
theorem C13_sync_from_zero_reproduces_store_witness :
    (Assignment_2_AP.requestSync {} true
        (Assignment_2_AP.handleFollower
          (Assignment_2_AP.afterClient {}
            [{ cmd := Assignment_2_AP.CommandType.CMD_SET, key := "a", value := "1" },
             { cmd := Assignment_2_AP.CommandType.CMD_SET, key := "b", value := "2" },
             { cmd := Assignment_2_AP.CommandType.CMD_DELETE, key := "a" }])
          7 (some (Assignment_2_AP.syncReq {}))).sent).store =
      { data := [("b", "2")] } :=
  (C13_sync_from_zero_reproduces_store {}
    [{ cmd := Assignment_2_AP.CommandType.CMD_SET, key := "a", value := "1" },
     { cmd := Assignment_2_AP.CommandType.CMD_SET, key := "b", value := "2" },
     { cmd := Assignment_2_AP.CommandType.CMD_DELETE, key := "a" }]
    {} 7 rfl rfl rfl (by decide) (by decide) rfl rfl).1

/-- C14, the code at the failing input: the LWW leader handles SET k v with
timestamp 100 and DELETE k with timestamp 200 from its initial state, and a
follower with an empty store then syncs from sequence 0.  The replay holds both
operations, but `requestSync` of the LWW follower applies SET messages only:
the leader no longer holds `k` and the follower still maps it to `v`. -/
theorem C14_lww_sync_ignores_delete :
    ((Assignment_3_Bonus.handleFollower
        (Assignment_3_Bonus.afterClient {}
          [({ cmd := Assignment_3_Bonus.CommandType.CMD_SET, key := "k", value := "v",
              timestamp := 100 }, 0),
           ({ cmd := Assignment_3_Bonus.CommandType.CMD_DELETE, key := "k",
              timestamp := 200 }, 0)])
        7 (some (Assignment_3_Bonus.syncReq {}))).sent.map (fun m => (m.cmd, m.sequence)) =
        [(Assignment_3_Bonus.CommandType.CMD_SET, 1),
         (Assignment_3_Bonus.CommandType.CMD_DELETE, 2),
         (Assignment_3_Bonus.CommandType.CMD_ACK, 2)]) ∧
      (Assignment_3_Bonus.afterClient {}
          [({ cmd := Assignment_3_Bonus.CommandType.CMD_SET, key := "k", value := "v",
              timestamp := 100 }, 0),
           ({ cmd := Assignment_3_Bonus.CommandType.CMD_DELETE, key := "k",
              timestamp := 200 }, 0)]).store.get "k" = none ∧
      (Assignment_3_Bonus.requestSync {}
        (Assignment_3_Bonus.handleFollower
          (Assignment_3_Bonus.afterClient {}
            [({ cmd := Assignment_3_Bonus.CommandType.CMD_SET, key := "k", value := "v",
                timestamp := 100 }, 0),
             ({ cmd := Assignment_3_Bonus.CommandType.CMD_DELETE, key := "k",
                timestamp := 200 }, 0)])
          7 (some (Assignment_3_Bonus.syncReq {}))).sent).store.get "k" = some "v" := by
  refine ⟨by decide, by decide, by decide⟩

/-- C15: when the receive loop of `requestSync` reaches a message with command
ACK, the last-applied sequence of the follower is the sequence of that message
and the sequence file holds the same number.  When the leader has handled a
single SET of `k` to `v1` from its initial state (sequence 1) and a follower with
last-applied sequence 0 then syncs, the follower maps `k` to `v1` and both its
last-applied sequence and its sequence file hold 1. -/
theorem C15_sync_ends_at_ack_sequence (f : Assignment_2_AP.Follower)
    (pre : List Assignment_2_AP.Message) (ack : Assignment_2_AP.Message)
    (post : List Assignment_2_AP.Message)
    (hpre : ∀ e ∈ pre, e.cmd ≠ Assignment_2_AP.CommandType.CMD_ACK)
    (hack : ack.cmd = Assignment_2_AP.CommandType.CMD_ACK) :
    (Assignment_2_AP.requestSync f true (pre ++ ack :: post)).lastSequence = ack.sequence ∧
      (Assignment_2_AP.requestSync f true (pre ++ ack :: post)).seqFile = some ack.sequence ∧
      ∀ (l0 : Assignment_2_AP.Leader) (k v1 : String) (followerSocket : Int),
        l0.operationLog = [] → l0.logSequence = 0 → f.lastSequence = 0 →
        ((Assignment_2_AP.afterClient l0
            [{ cmd := Assignment_2_AP.CommandType.CMD_SET, key := k, value := v1 }]
          ).operationLog.map (fun m => m.sequence) = [1]) ∧
        (Assignment_2_AP.requestSync f true
          (Assignment_2_AP.handleFollower
            (Assignment_2_AP.afterClient l0
              [{ cmd := Assignment_2_AP.CommandType.CMD_SET, key := k, value := v1 }])
            followerSocket (some (Assignment_2_AP.syncReq f))).sent).store.get k = some v1 ∧
        (Assignment_2_AP.requestSync f true
          (Assignment_2_AP.handleFollower
            (Assignment_2_AP.afterClient l0
              [{ cmd := Assignment_2_AP.CommandType.CMD_SET, key := k, value := v1 }])
            followerSocket (some (Assignment_2_AP.syncReq f))).sent).lastSequence = 1 ∧
        (Assignment_2_AP.requestSync f true
          (Assignment_2_AP.handleFollower
            (Assignment_2_AP.afterClient l0
              [{ cmd := Assignment_2_AP.CommandType.CMD_SET, key := k, value := v1 }])
            followerSocket (some (Assignment_2_AP.syncReq f))).sent).seqFile = some 1 := by
  obtain ⟨_, h2, h3, _⟩ := Assignment_2_AP.ap_requestSyncLoop_entries pre f ack post hpre hack
  refine ⟨by simpa [Assignment_2_AP.requestSync] using h2,
    by simpa [Assignment_2_AP.requestSync] using h3, ?_⟩
  intro l0 k v1 followerSocket hlog hseq hfs
  have hone : Assignment_2_AP.nextLogSequence 0 = 1 := by
    unfold Assignment_2_AP.nextLogSequence Assignment_2_AP.wrapInt32
    norm_num
  have hstep : Assignment_2_AP.afterClient l0
      [{ cmd := Assignment_2_AP.CommandType.CMD_SET, key := k, value := v1 }] =
      (Assignment_2_AP.handleClientStep l0
        { cmd := Assignment_2_AP.CommandType.CMD_SET, key := k, value := v1 }).leader := rfl
  obtain ⟨hcmd, hkey, hval, hrseq, hnext, _, _, hlog1⟩ := Assignment_2_AP.ap_step_mutating l0
    { cmd := Assignment_2_AP.CommandType.CMD_SET, key := k, value := v1 } rfl
  rw [hseq, hone] at hrseq hnext
  rw [hlog, List.nil_append] at hlog1
  have hsent : (Assignment_2_AP.handleFollower
      (Assignment_2_AP.afterClient l0
        [{ cmd := Assignment_2_AP.CommandType.CMD_SET, key := k, value := v1 }])
      followerSocket (some (Assignment_2_AP.syncReq f))).sent =
      [(Assignment_2_AP.handleClientStep l0
          { cmd := Assignment_2_AP.CommandType.CMD_SET, key := k, value := v1 }).response] ++
        { cmd := Assignment_2_AP.CommandType.CMD_ACK, sequence := 1 } :: [] := by
    rw [Assignment_2_AP.ap_handleFollower_sync, hstep, hlog1, hnext, hfs]
    simp [List.filter_cons, hrseq]
  obtain ⟨g1, g2, g3, _⟩ := Assignment_2_AP.ap_requestSyncLoop_entries
    [(Assignment_2_AP.handleClientStep l0
      { cmd := Assignment_2_AP.CommandType.CMD_SET, key := k, value := v1 }).response] f
    { cmd := Assignment_2_AP.CommandType.CMD_ACK, sequence := 1 } []
    (fun e he => by
      rw [List.mem_singleton] at he
      rw [he, hcmd]
      simp) rfl
  refine ⟨?_, ?_, ?_, ?_⟩
  · rw [hstep, hlog1]
    simp [hrseq]
  · rw [hsent]
    unfold Assignment_2_AP.requestSync
    simp only [if_true]
    rw [g1]
    simp only [List.foldl_cons, List.foldl_nil, Assignment_2_AP.applyOp, hcmd, hkey, hval, if_true]
    simp [Plain.KeyValueStore.get, Plain.KeyValueStore.set, UMap.find_assign]
  · rw [hsent]
    unfold Assignment_2_AP.requestSync
    simp only [if_true]
    rw [g2]
  · rw [hsent]
    unfold Assignment_2_AP.requestSync
    simp only [if_true]
    rw [g3]

/-- C15 at scenario C: the leader has handled SET k v1, a fresh follower syncs. -/
theorem C15_sync_ends_at_ack_sequence_witness :
    (Assignment_2_AP.requestSync {} true
        (Assignment_2_AP.handleFollower
          (Assignment_2_AP.afterClient {}
            [{ cmd := Assignment_2_AP.CommandType.CMD_SET, key := "k", value := "v1" }])
          7 (some (Assignment_2_AP.syncReq {}))).sent).store.get "k" = some "v1" ∧
      (Assignment_2_AP.requestSync {} true
        (Assignment_2_AP.handleFollower
          (Assignment_2_AP.afterClient {}
            [{ cmd := Assignment_2_AP.CommandType.CMD_SET, key := "k", value := "v1" }])
          7 (some (Assignment_2_AP.syncReq {}))).sent).seqFile = some 1 :=
  ⟨((C15_sync_ends_at_ack_sequence {} []
      { cmd := Assignment_2_AP.CommandType.CMD_ACK, sequence := 1 } []
      (by simp) rfl).2.2 {} "k" "v1" 7 rfl rfl rfl).2.1,
   ((C15_sync_ends_at_ack_sequence {} []
      { cmd := Assignment_2_AP.CommandType.CMD_ACK, sequence := 1 } []
      (by simp) rfl).2.2 {} "k" "v1" 7 rfl rfl rfl).2.2.2⟩

/-! ## Claims on the follower sequence and on misses -/

/-- C16 as stated fails: a follower that holds `k` with timestamp 100 and
last-applied sequence 1 receives SET k with timestamp 50 and sequence 2.  The
store rejects the write and stays as it was, and the last-applied sequence
becomes 2, in live listening and in sync replay alike. -/
theorem C16_counterexample_rejected_set_advances_sequence :
    (({ data := [("k", { value := "v1", timestamp := 100 })] } :
        Assignment_3_Bonus.KeyValueStore).set "k" "v2" 50).1 = false ∧
      (Assignment_3_Bonus.listenForUpdatesStep
        { store := { data := [("k", { value := "v1", timestamp := 100 })] }, lastSequence := 1 }
        { cmd := Assignment_3_Bonus.CommandType.CMD_SET, key := "k", value := "v2",
          sequence := 2, timestamp := 50 }) =
        { store := { data := [("k", { value := "v1", timestamp := 100 })] },
          lastSequence := 2 } ∧
      (Assignment_3_Bonus.requestSync
        { store := { data := [("k", { value := "v1", timestamp := 100 })] }, lastSequence := 1 }
        [{ cmd := Assignment_3_Bonus.CommandType.CMD_SET, key := "k", value := "v2",
           sequence := 2, timestamp := 50 }]) =
        { store := { data := [("k", { value := "v1", timestamp := 100 })] },
          lastSequence := 2 } := by
  refine ⟨by decide, by decide, by decide⟩

/-- C16 (amended): in the LWW follower an incoming SET moves the last-applied
sequence whether or not the store accepted the write: live listening sets it to
the sequence of the message, sync replay raises it to that sequence when it is
greater.  The store is the result of the timestamped `set`, which is the old
store when the write is rejected. -/
theorem C16_set_always_advances_sequence (f : Assignment_3_Bonus.Follower)
    (msg : Assignment_3_Bonus.Message)
    (hset : msg.cmd = Assignment_3_Bonus.CommandType.CMD_SET) :
    (Assignment_3_Bonus.listenForUpdatesStep f msg).lastSequence = msg.sequence ∧
      (Assignment_3_Bonus.requestSync f [msg]).lastSequence =
        max f.lastSequence msg.sequence ∧
      (Assignment_3_Bonus.listenForUpdatesStep f msg).store =
        (f.store.set msg.key msg.value msg.timestamp).2 ∧
      (Assignment_3_Bonus.requestSync f [msg]).store =
        (f.store.set msg.key msg.value msg.timestamp).2 ∧
      ((f.store.set msg.key msg.value msg.timestamp).1 = false →
        (Assignment_3_Bonus.listenForUpdatesStep f msg).store = f.store ∧
        (Assignment_3_Bonus.requestSync f [msg]).store = f.store) := by
  have hack : ¬ Assignment_3_Bonus.CommandType.CMD_SET =
      Assignment_3_Bonus.CommandType.CMD_ACK := by decide
  have h1 : (Assignment_3_Bonus.listenForUpdatesStep f msg).lastSequence = msg.sequence := by
    simp [Assignment_3_Bonus.listenForUpdatesStep, hset]
  have h2 : (Assignment_3_Bonus.requestSync f [msg]).lastSequence =
      max f.lastSequence msg.sequence := by
    simp only [Assignment_3_Bonus.requestSync, hset, hack, if_false]
    by_cases hgt : msg.sequence > f.lastSequence
    · simp only [hgt, if_true]
      omega
    · simp only [hgt, if_false]
      omega
  have h3 : (Assignment_3_Bonus.listenForUpdatesStep f msg).store =
      (f.store.set msg.key msg.value msg.timestamp).2 := by
    simp [Assignment_3_Bonus.listenForUpdatesStep, hset]
  have h4 : (Assignment_3_Bonus.requestSync f [msg]).store =
      (f.store.set msg.key msg.value msg.timestamp).2 := by
    simp [Assignment_3_Bonus.requestSync, hset]
  refine ⟨h1, h2, h3, h4, ?_⟩
  intro hrej
  have hsame : (f.store.set msg.key msg.value msg.timestamp).2 = f.store := by
    unfold Assignment_3_Bonus.KeyValueStore.set at hrej ⊢
    cases hf : UMap.find msg.key f.store.data with
    | none => simp [hf] at hrej
    | some it =>
      by_cases hlt : msg.timestamp < it.timestamp
      · simp [hlt]
      · simp [hf, hlt] at hrej
  rw [h3, h4, hsame]
  exact ⟨rfl, rfl⟩

/-- C16 (amended), at the follower and the stale SET of the counterexample. -/
theorem C16_set_always_advances_sequence_witness :
    (Assignment_3_Bonus.listenForUpdatesStep
        { store := { data := [("k", { value := "v1", timestamp := 100 })] }, lastSequence := 1 }
        { cmd := Assignment_3_Bonus.CommandType.CMD_SET, key := "k", value := "v2",
          sequence := 2, timestamp := 50 }).lastSequence = 2 :=
  (C16_set_always_advances_sequence
    { store := { data := [("k", { value := "v1", timestamp := 100 })] }, lastSequence := 1 }
    { cmd := Assignment_3_Bonus.CommandType.CMD_SET, key := "k", value := "v2",
      sequence := 2, timestamp := 50 } rfl).1

namespace Assignment_1_CP

open Plain

theorem cp_absent_key_answer (req : Bool) (l : Leader) (msg : Message) (acks : List AckEvent)
    (hcmd : msg.cmd = CommandType.CMD_GET ∨ msg.cmd = CommandType.CMD_DELETE)
    (habs : l.store.get msg.key = none) :
    (handleClientStep req l msg acks).response.status = -1 ∧
      ((handleClientStep req l msg acks).response.response = "Key not found" ∨
        (handleClientStep req l msg acks).response.response =
          "FAILED: Could not replicate to all followers (CP violation prevented)") := by
  have hk : snprintf MAX_VALUE_SIZE "Key not found" = "Key not found" := by decide
  have hf : snprintf MAX_VALUE_SIZE
      "FAILED: Could not replicate to all followers (CP violation prevented)" =
      "FAILED: Could not replicate to all followers (CP violation prevented)" := by decide
  rcases hcmd with h | h
  · rw [handleClientStep_get req l msg acks h, habs]
    exact ⟨rfl, Or.inl hk⟩
  · have h1 : ¬ CommandType.CMD_DELETE = CommandType.CMD_SET := by decide
    have h2 : ¬ CommandType.CMD_DELETE = CommandType.CMD_GET := by decide
    have hst := (broadcast_store req
      (Leader.mk l.store l.followerSockets (nextSequence l.sequenceCounter) l.pendingOps)
      (Message.mk CommandType.CMD_DELETE msg.key msg.value msg.response msg.status
        (nextSequence l.sequenceCounter) msg.followerId) acks).1
    simp only at hst
    have hfind : UMap.find msg.key l.store.data = none := habs
    unfold handleClientStep
    simp only [h, h1, h2, if_true, if_false]
    split
    · simp only [KeyValueStore.deleteKey, hst, hfind, Option.isSome_none]
      exact ⟨rfl, Or.inl hk⟩
    · exact ⟨rfl, Or.inr hf⟩

end Assignment_1_CP

namespace Assignment_2_AP

open Plain

theorem ap_absent_key_answer (l : Leader) (msg : Message)
    (hcmd : msg.cmd = CommandType.CMD_GET ∨ msg.cmd = CommandType.CMD_DELETE)
    (habs : l.store.get msg.key = none) :
    (handleClientStep l msg).response.status = -1 ∧
      ((handleClientStep l msg).response.response = "Key not found" ∨
        (handleClientStep l msg).response.response =
          snprintf MAX_VALUE_SIZE
            ("Key not found" ++ " (seq: " ++ toString (nextLogSequence l.logSequence) ++ ")")) := by
  have hk : snprintf MAX_VALUE_SIZE "Key not found" = "Key not found" := by decide
  have hfind : UMap.find msg.key l.store.data = none := habs
  have h0 : ¬ CommandType.CMD_GET = CommandType.CMD_SET := by decide
  have h1 : ¬ CommandType.CMD_DELETE = CommandType.CMD_SET := by decide
  have h2 : ¬ CommandType.CMD_DELETE = CommandType.CMD_GET := by decide
  rcases hcmd with h | h
  · unfold handleClientStep
    simp only [h, h0, if_true, if_false, habs]
    exact ⟨trivial, Or.inl hk⟩
  · unfold handleClientStep
    simp only [h, h1, h2, if_true, if_false, KeyValueStore.deleteKey, hfind, Option.isSome_none]
    exact ⟨rfl, Or.inr rfl⟩

end Assignment_2_AP

namespace Assignment_3_Bonus

theorem bonus_get_absent (l : Leader) (msg : Message) (now : Nat)
    (hcmd : msg.cmd = CommandType.CMD_GET) (habs : l.store.get msg.key = none) :
    (handleClientStep l msg now).response.status = -1 ∧
      (handleClientStep l msg now).response.response = "Key not found" := by
  have hk : Plain.snprintf Plain.MAX_VALUE_SIZE "Key not found" = "Key not found" := by decide
  have h0 : ¬ CommandType.CMD_GET = CommandType.CMD_SET := by decide
  unfold handleClientStep
  by_cases ht : msg.timestamp = 0
  · simp only [ht, if_true, hcmd, h0, if_false, habs]
    exact ⟨trivial, hk⟩
  · simp only [ht, if_false, hcmd, h0, if_true, habs]
    exact ⟨trivial, hk⟩

theorem bonus_delete_status (l : Leader) (msg : Message) (now : Nat)
    (hcmd : msg.cmd = CommandType.CMD_DELETE) :
    (handleClientStep l msg now).response.status = 0 :=
  (bonus_step_mutating l msg now (by simp [mutating, hcmd])).2.2.2.1

end Assignment_3_Bonus

/-- C17 as stated fails on the LWW leader: a DELETE of a key that the store of the
leader does not hold is answered with status 0. -/
theorem C17_counterexample_lww_delete_miss :
    (({} : Assignment_3_Bonus.Leader).store.get "k" = none) ∧
      (Assignment_3_Bonus.handleClientStep {}
        { cmd := Assignment_3_Bonus.CommandType.CMD_DELETE, key := "k" } 1000
        ).response.status = 0 := by
  refine ⟨by decide, by decide⟩

/-- C17 (amended): a GET of a key absent from the store of the leader is answered
with status -1 and the text "Key not found" in the synchronous, the plain
asynchronous and the LWW leader; a DELETE of an absent key is answered with
status -1 and an explanatory text ("Key not found", with the sequence number
appended on the plain asynchronous leader, or the replication failure text on
the synchronous leader) in the synchronous and the plain asynchronous leader.
The LWW leader answers every DELETE with status 0. -/
theorem C17_absent_key_is_reported (requireAllAcks : Bool)
    (l : Assignment_1_CP.Leader) (msg : Assignment_1_CP.Message)
    (acks : List Assignment_1_CP.AckEvent)
    (la : Assignment_2_AP.Leader) (ma : Assignment_2_AP.Message)
    (lb : Assignment_3_Bonus.Leader) (mb : Assignment_3_Bonus.Message) (now : Nat)
    (hcmd : msg.cmd = Assignment_1_CP.CommandType.CMD_GET ∨
      msg.cmd = Assignment_1_CP.CommandType.CMD_DELETE)
    (habs : l.store.get msg.key = none)
    (hcmdA : ma.cmd = Assignment_2_AP.CommandType.CMD_GET ∨
      ma.cmd = Assignment_2_AP.CommandType.CMD_DELETE)
    (habsA : la.store.get ma.key = none)
    (hcmdB : mb.cmd = Assignment_3_Bonus.CommandType.CMD_GET)
    (habsB : lb.store.get mb.key = none) :
    ((Assignment_1_CP.handleClientStep requireAllAcks l msg acks).response.status = -1 ∧
        ((Assignment_1_CP.handleClientStep requireAllAcks l msg acks).response.response =
            "Key not found" ∨
          (Assignment_1_CP.handleClientStep requireAllAcks l msg acks).response.response =
            "FAILED: Could not replicate to all followers (CP violation prevented)")) ∧
      ((Assignment_2_AP.handleClientStep la ma).response.status = -1 ∧
        ((Assignment_2_AP.handleClientStep la ma).response.response = "Key not found" ∨
          (Assignment_2_AP.handleClientStep la ma).response.response =
            Plain.snprintf Plain.MAX_VALUE_SIZE
              ("Key not found" ++ " (seq: " ++
                toString (Assignment_2_AP.nextLogSequence la.logSequence) ++ ")"))) ∧
      ((Assignment_3_Bonus.handleClientStep lb mb now).response.status = -1 ∧
        (Assignment_3_Bonus.handleClientStep lb mb now).response.response = "Key not found") ∧
      (Assignment_3_Bonus.handleClientStep lb
        { mb with cmd := Assignment_3_Bonus.CommandType.CMD_DELETE } now).response.status = 0 :=
  ⟨Assignment_1_CP.cp_absent_key_answer requireAllAcks l msg acks hcmd habs,
   Assignment_2_AP.ap_absent_key_answer la ma hcmdA habsA,
   Assignment_3_Bonus.bonus_get_absent lb mb now hcmdB habsB,
   Assignment_3_Bonus.bonus_delete_status lb _ now rfl⟩

/-- C17 (amended), at a DELETE on the empty synchronous and plain asynchronous
leaders and a GET on the empty LWW leader. -/
theorem C17_absent_key_is_reported_witness :
    (Assignment_1_CP.handleClientStep true {}
        { cmd := Assignment_1_CP.CommandType.CMD_DELETE, key := "k" } []).response.status = -1 ∧
      (Assignment_2_AP.handleClientStep {}
        { cmd := Assignment_2_AP.CommandType.CMD_DELETE, key := "k" }).response.status = -1 ∧
      (Assignment_3_Bonus.handleClientStep {}
        { cmd := Assignment_3_Bonus.CommandType.CMD_GET, key := "k" } 1000
        ).response.status = -1 :=
  ⟨(C17_absent_key_is_reported true {}
      { cmd := Assignment_1_CP.CommandType.CMD_DELETE, key := "k" } [] {}
      { cmd := Assignment_2_AP.CommandType.CMD_DELETE, key := "k" } {}
      { cmd := Assignment_3_Bonus.CommandType.CMD_GET, key := "k" } 1000
      (Or.inr rfl) rfl (Or.inr rfl) rfl rfl rfl).1.1,
   (C17_absent_key_is_reported true {}
      { cmd := Assignment_1_CP.CommandType.CMD_DELETE, key := "k" } [] {}
      { cmd := Assignment_2_AP.CommandType.CMD_DELETE, key := "k" } {}
      { cmd := Assignment_3_Bonus.CommandType.CMD_GET, key := "k" } 1000
      (Or.inr rfl) rfl (Or.inr rfl) rfl rfl rfl).2.1.1,
   (C17_absent_key_is_reported true {}
      { cmd := Assignment_1_CP.CommandType.CMD_DELETE, key := "k" } [] {}
      { cmd := Assignment_2_AP.CommandType.CMD_DELETE, key := "k" } {}
      { cmd := Assignment_3_Bonus.CommandType.CMD_GET, key := "k" } 1000
      (Or.inr rfl) rfl (Or.inr rfl) rfl rfl rfl).2.2.1.1⟩

/-! ## Claims on the follower registry -/

namespace Registry

theorem removeDead_eq_filter (dead : List Int) :
    ∀ socks : List Int, removeDead socks dead = socks.filter (fun s => decide (s ∉ dead)) := by
  induction dead with
  | nil =>
    intro socks
    simp [removeDead]
  | cons d ds ih =>
    intro socks
    have hstep : removeDead socks (d :: ds) =
        removeDead (socks.filter (fun s => decide (s ≠ d))) ds := rfl
    rw [hstep, ih, List.filter_filter]
    apply List.filter_congr
    intro s _
    simp only [List.mem_cons, not_or, Bool.decide_and, ne_eq]
    rw [Bool.and_comm]

theorem deadFollowers_subset :
    ∀ (socks : List Int) (sendFails : Nat → Bool),
      ∀ s ∈ deadFollowers sendFails socks, s ∈ socks := by
  intro socks
  induction socks with
  | nil =>
    intro sendFails s hs
    simp [deadFollowers] at hs
  | cons x rest ih =>
    intro sendFails s hs
    unfold deadFollowers at hs
    by_cases h0 : sendFails 0 = true
    · simp only [h0, if_true, List.mem_cons] at hs
      rcases hs with h | h
      · exact List.mem_cons.mpr (Or.inl h)
      · exact List.mem_cons_of_mem _ (ih _ s h)
    · simp only [h0] at hs
      exact List.mem_cons_of_mem _ (ih _ s hs)

theorem filter_dead_eq_survivors :
    ∀ (socks : List Int) (sendFails : Nat → Bool), socks.Nodup →
      socks.filter (fun s => decide (s ∉ deadFollowers sendFails socks)) =
        survivors sendFails socks := by
  intro socks
  induction socks with
  | nil =>
    intro sendFails _
    rfl
  | cons x rest ih =>
    intro sendFails hnd
    have hx : x ∉ rest := (List.nodup_cons.mp hnd).1
    have hrest : rest.Nodup := (List.nodup_cons.mp hnd).2
    have hxdead : x ∉ deadFollowers (fun i => sendFails (i + 1)) rest :=
      fun h => hx (deadFollowers_subset rest _ x h)
    unfold deadFollowers survivors
    by_cases h0 : sendFails 0 = true
    · simp only [h0, if_true]
      rw [List.filter_cons]
      simp only [List.mem_cons, true_or, not_true_eq_false, decide_False, Bool.false_eq_true,
        if_false]
      rw [← ih _ hrest]
      apply List.filter_congr
      intro s hs
      have hne : s ≠ x := fun e => hx (e ▸ hs)
      simp [hne]
    · simp only [h0, Bool.false_eq_true, if_false]
      rw [List.filter_cons]
      simp only [hxdead, not_false_eq_true, decide_True, if_true]
      rw [ih _ hrest]

theorem survivors_sublist :
    ∀ (socks : List Int) (sendFails : Nat → Bool),
      List.Sublist (survivors sendFails socks) socks := by
  intro socks
  induction socks with
  | nil =>
    intro _
    exact List.Sublist.slnil
  | cons x rest ih =>
    intro sendFails
    unfold survivors
    by_cases h0 : sendFails 0 = true
    · simp only [h0, if_true]
      exact List.Sublist.cons _ (ih _)
    · simp only [h0]
      exact List.Sublist.cons₂ _ (ih _)

theorem removeDead_spec (socks : List Int) (sendFails : Nat → Bool) (hnd : socks.Nodup) :
    removeDead socks (deadFollowers sendFails socks) = survivors sendFails socks ∧
      (∀ s ∈ deadFollowers sendFails socks,
        s ∉ removeDead socks (deadFollowers sendFails socks)) ∧
      List.Sublist (removeDead socks (deadFollowers sendFails socks)) socks := by
  have h := removeDead_eq_filter (deadFollowers sendFails socks) socks
  refine ⟨?_, ?_, ?_⟩
  · rw [h, filter_dead_eq_survivors socks sendFails hnd]
  · intro s hs hmem
    rw [h, List.mem_filter] at hmem
    simp [hs] at hmem
  · rw [h]
    exact List.filter_sublist _

end Registry

/-- C18: when the registry holds each endpoint once, after
`broadcastToFollowersAsync` (plain and LWW leader alike) it consists of the
previously registered endpoints whose `send` succeeded, in their registered
order, and no endpoint whose `send` failed is left in it. -/
theorem C18_broadcast_prunes_failed_endpoints
    (l : Assignment_2_AP.Leader) (msg : Assignment_2_AP.Message)
    (lb : Assignment_3_Bonus.Leader) (mb : Assignment_3_Bonus.Message)
    (sendFails : Nat → Bool)
    (hset : l.followerSockets.Nodup) (hsetB : lb.followerSockets.Nodup) :
    ((Assignment_2_AP.broadcastToFollowersAsync l msg sendFails).leader.followerSockets =
          Registry.survivors sendFails l.followerSockets ∧
        (∀ s ∈ Registry.deadFollowers sendFails l.followerSockets,
          s ∉ (Assignment_2_AP.broadcastToFollowersAsync l msg sendFails
            ).leader.followerSockets) ∧
        List.Sublist
          (Assignment_2_AP.broadcastToFollowersAsync l msg sendFails).leader.followerSockets
          l.followerSockets) ∧
      ((Assignment_3_Bonus.broadcastToFollowersAsync lb mb sendFails).leader.followerSockets =
          Registry.survivors sendFails lb.followerSockets ∧
        (∀ s ∈ Registry.deadFollowers sendFails lb.followerSockets,
          s ∉ (Assignment_3_Bonus.broadcastToFollowersAsync lb mb sendFails
            ).leader.followerSockets) ∧
        List.Sublist
          (Assignment_3_Bonus.broadcastToFollowersAsync lb mb sendFails).leader.followerSockets
          lb.followerSockets) :=
  ⟨Registry.removeDead_spec l.followerSockets sendFails hset,
   Registry.removeDead_spec lb.followerSockets sendFails hsetB⟩

/-- C18, at the registry 5, 6, 7 where the second `send` fails. -/
theorem C18_broadcast_prunes_failed_endpoints_witness :
    (Assignment_2_AP.broadcastToFollowersAsync { followerSockets := [5, 6, 7] }
        { cmd := Assignment_2_AP.CommandType.CMD_SET, key := "k", value := "v", sequence := 1 }
        (fun i => decide (i = 1))).leader.followerSockets = [5, 7] :=
  (C18_broadcast_prunes_failed_endpoints { followerSockets := [5, 6, 7] }
    { cmd := Assignment_2_AP.CommandType.CMD_SET, key := "k", value := "v", sequence := 1 }
    { followerSockets := [5, 6, 7] }
    { cmd := Assignment_3_Bonus.CommandType.CMD_SET, key := "k", value := "v", sequence := 1 }
    (fun i => decide (i = 1)) (by decide) (by decide)).1.1

namespace Assignment_1_CP

theorem receiveAcks_registry (req : Bool) (l : Leader) (ev : AckEvent) :
    (receiveAcks req l ev).followerSockets = l.followerSockets := by
  unfold receiveAcks
  by_cases hcmd : ev.ackMsg.cmd = CommandType.CMD_ACK
  · cases hf : UMap.find ev.ackMsg.sequence l.pendingOps <;> simp [hcmd, hf]
  · simp [hcmd]

theorem receiveAcksThread_registry (req : Bool) (followerSocket followerId : Int) :
    ∀ (results : List (Option Message)) (l : Leader),
      (receiveAcksThread req l followerSocket followerId results).followerSockets =
        l.followerSockets := by
  intro results
  induction results with
  | nil => intro l; rfl
  | cons r rest ih =>
    intro l
    cases r with
    | none => rfl
    | some ackMsg =>
      unfold receiveAcksThread
      rw [ih, receiveAcks_registry]

theorem handleClientStep_registry (req : Bool) (l : Leader) (msg : Message)
    (acks : List AckEvent) :
    (handleClientStep req l msg acks).leader.followerSockets = l.followerSockets := by
  have hb := fun m => (broadcast_store req
    (Leader.mk l.store l.followerSockets (nextSequence l.sequenceCounter) l.pendingOps)
    m acks).2.1
  unfold handleClientStep
  cases hc : msg.cmd
  all_goals simp only [reduceCtorEq, if_true, if_false]
  · split
    · exact hb _
    · exact hb _
  · split <;> rfl
  · split
    · exact hb _
    · exact hb _

theorem run_registry (req : Bool) :
    ∀ (events : List Event) (l : Leader),
      (run req l events).followerSockets = l.followerSockets ++ acceptedSockets events := by
  intro events
  induction events with
  | nil =>
    intro l
    simp [run, acceptedSockets]
  | cons e rest ih =>
    intro l
    have hrun : run req l (e :: rest) = run req (step req l e) rest := rfl
    rw [hrun, ih]
    cases e with
    | accepted r =>
      cases r with
      | none => rfl
      | some followerSocket =>
        simp [step, acceptFollowers, acceptedSockets]
    | received followerSocket followerId results =>
      simp only [step, acceptedSockets]
      rw [receiveAcksThread_registry]
    | request msg acks =>
      simp only [step, acceptedSockets]
      rw [handleClientStep_registry]

/-- C19: in the synchronous leader `broadcastAndWaitForAcks`, one round of
`receiveAcks`, and a whole `receiveAcks` thread up to and including the
disconnect of its follower leave `followerSockets` as it was; an accepted
connection appends exactly its socket; and after any run of accepts, follower
threads and client requests the registry is the initial registry followed by
the accepted sockets, in order. -/
theorem C19_registry_only_grows (requireAllAcks : Bool) (l : Leader) (msg : Message)
    (acks : List AckEvent) (ev : AckEvent) (followerSocket followerId : Int)
    (results : List (Option Message)) (events : List Event) :
    (broadcastAndWaitForAcks requireAllAcks l msg acks).leader.followerSockets =
        l.followerSockets ∧
      (receiveAcks requireAllAcks l ev).followerSockets = l.followerSockets ∧
      (receiveAcksThread requireAllAcks l followerSocket followerId results).followerSockets =
        l.followerSockets ∧
      (receiveAcksThread requireAllAcks l followerSocket followerId
        (results ++ [none])).followerSockets = l.followerSockets ∧
      (acceptFollowers l followerSocket).followerSockets =
        l.followerSockets ++ [followerSocket] ∧
      (run requireAllAcks l events).followerSockets =
        l.followerSockets ++ acceptedSockets events :=
  ⟨(broadcast_store requireAllAcks l msg acks).2.1,
   receiveAcks_registry requireAllAcks l ev,
   receiveAcksThread_registry requireAllAcks followerSocket followerId results l,
   receiveAcksThread_registry requireAllAcks followerSocket followerId _ l,
   rfl,
   run_registry requireAllAcks events l⟩

end Assignment_1_CP

/-- C20, the code at the failing input: a connection on the registration port
whose first `recv` returns 0 or -1, or delivers a message that is not a SYNC
request (here a GET), is sent nothing, neither replay nor ACK, and its socket is
appended to the registry all the same; plain and LWW leader alike. -/
theorem C20_registered_without_handshake :
    ((Assignment_2_AP.handleFollower { logSequence := 3 } 7 none).sent = [] ∧
        (Assignment_2_AP.handleFollower { logSequence := 3 } 7 none
          ).leader.followerSockets = [7]) ∧
      ((Assignment_2_AP.handleFollower { logSequence := 3 } 7
          (some { cmd := Assignment_2_AP.CommandType.CMD_GET, key := "k" })).sent = [] ∧
        (Assignment_2_AP.handleFollower { logSequence := 3 } 7
          (some { cmd := Assignment_2_AP.CommandType.CMD_GET, key := "k" })
          ).leader.followerSockets = [7]) ∧
      ((Assignment_3_Bonus.handleFollower { logSequence := 3 } 7 none).sent = [] ∧
        (Assignment_3_Bonus.handleFollower { logSequence := 3 } 7 none
          ).leader.followerSockets = [7]) ∧
      ((Assignment_3_Bonus.handleFollower { logSequence := 3 } 7
          (some { cmd := Assignment_3_Bonus.CommandType.CMD_GET, key := "k" })).sent = [] ∧
        (Assignment_3_Bonus.handleFollower { logSequence := 3 } 7
          (some { cmd := Assignment_3_Bonus.CommandType.CMD_GET, key := "k" })
          ).leader.followerSockets = [7]) := by
  refine ⟨⟨by decide, by decide⟩, ⟨by decide, by decide⟩, ⟨by decide, by decide⟩,
    ⟨by decide, by decide⟩⟩

/-! ## Claims on the asynchronous SET and on reconnection -/

/-- C21: handling a SET in the plain asynchronous leader binds the key to the
value in the store, appends exactly one message, the answer, which carries the
newly assigned sequence number, to the operation log, and answers with status
0; store, log and answer are the same whatever the follower registry holds, and
a broadcast of the message leaves store, log and counter as they are whichever
of its sends fail. -/
theorem C21_async_set_commits_locally (l : Assignment_2_AP.Leader)
    (msg : Assignment_2_AP.Message) (followerSockets : List Int) (sendFails : Nat → Bool)
    (hset : msg.cmd = Assignment_2_AP.CommandType.CMD_SET) :
    (Assignment_2_AP.handleClientStep l msg).leader.store.get msg.key = some msg.value ∧
      (Assignment_2_AP.handleClientStep l msg).leader.operationLog =
        l.operationLog ++ [(Assignment_2_AP.handleClientStep l msg).response] ∧
      (Assignment_2_AP.handleClientStep l msg).response.sequence =
        Assignment_2_AP.nextLogSequence l.logSequence ∧
      (Assignment_2_AP.handleClientStep l msg).leader.logSequence =
        Assignment_2_AP.nextLogSequence l.logSequence ∧
      (Assignment_2_AP.handleClientStep l msg).response.status = 0 ∧
      (Assignment_2_AP.handleClientStep
          { l with followerSockets := followerSockets } msg).response =
        (Assignment_2_AP.handleClientStep l msg).response ∧
      (Assignment_2_AP.handleClientStep
          { l with followerSockets := followerSockets } msg).leader.store =
        (Assignment_2_AP.handleClientStep l msg).leader.store ∧
      (Assignment_2_AP.handleClientStep
          { l with followerSockets := followerSockets } msg).leader.operationLog =
        (Assignment_2_AP.handleClientStep l msg).leader.operationLog ∧
      (Assignment_2_AP.broadcastToFollowersAsync (Assignment_2_AP.handleClientStep l msg).leader
          (Assignment_2_AP.handleClientStep l msg).response sendFails).leader.store =
        (Assignment_2_AP.handleClientStep l msg).leader.store ∧
      (Assignment_2_AP.broadcastToFollowersAsync (Assignment_2_AP.handleClientStep l msg).leader
          (Assignment_2_AP.handleClientStep l msg).response sendFails).leader.operationLog =
        (Assignment_2_AP.handleClientStep l msg).leader.operationLog := by
  have hm : Assignment_2_AP.mutating msg = true := by simp [Assignment_2_AP.mutating, hset]
  obtain ⟨_, _, _, hseq, hnext, hstore, _, hlog⟩ := Assignment_2_AP.ap_step_mutating l msg hm
  refine ⟨?_, hlog, hseq, hnext, ?_, ?_, ?_, ?_, rfl, rfl⟩
  · rw [hstore]
    simp [Assignment_2_AP.applyOp, hset, Plain.KeyValueStore.get, Plain.KeyValueStore.set,
      UMap.find_assign]
  · unfold Assignment_2_AP.handleClientStep
    simp [hset]
  · unfold Assignment_2_AP.handleClientStep
    simp [hset]
  · unfold Assignment_2_AP.handleClientStep
    simp [hset]
  · unfold Assignment_2_AP.handleClientStep
    simp [hset]

/-- C21, at a SET on a leader with two registered followers. -/
theorem C21_async_set_commits_locally_witness :
    (Assignment_2_AP.handleClientStep { followerSockets := [5, 6] }
        { cmd := Assignment_2_AP.CommandType.CMD_SET, key := "k", value := "v" }
      ).leader.store.get "k" = some "v" ∧
    (Assignment_2_AP.handleClientStep { followerSockets := [5, 6] }
        { cmd := Assignment_2_AP.CommandType.CMD_SET, key := "k", value := "v" }
      ).response.status = 0 :=
  ⟨(C21_async_set_commits_locally { followerSockets := [5, 6] }
      { cmd := Assignment_2_AP.CommandType.CMD_SET, key := "k", value := "v" } []
      (fun _ => true) rfl).1,
   (C21_async_set_commits_locally { followerSockets := [5, 6] }
      { cmd := Assignment_2_AP.CommandType.CMD_SET, key := "k", value := "v" } []
      (fun _ => true) rfl).2.2.2.2.1⟩

namespace Assignment_2_AP

theorem backoff_double (j : Nat) (hj : j + 1 < 10) :
    min (min (2 ^ j) 30 * 2) 30 = min (2 ^ (j + 1)) 30 := by
  have hj2 : j < 9 := by omega
  interval_cases j <;> decide

theorem mainSleeps_failures :
    ∀ (n j : Nat), j < 10 → ∀ i, i < n →
      (mainSleeps j (min (2 ^ j) 30) (List.replicate n false))[i]? =
        some (min (2 ^ ((j + i) % 10)) 30) := by
  intro n
  induction n with
  | zero =>
    intro j _ i hi
    omega
  | succ n ih =>
    intro j hj i hi
    rw [List.replicate_succ, mainSleeps]
    cases i with
    | zero =>
      rw [List.getElem?_cons_zero, Nat.add_zero, Nat.mod_eq_of_lt hj]
    | succ i =>
      rw [List.getElem?_cons_succ]
      by_cases hlt : j + 1 < 10
      · rw [if_pos hlt, backoff_double j hlt, ih (j + 1) hlt i (by omega)]
        congr 3
        omega
      · rw [if_neg hlt]
        have h0 : (1 : Nat) = min (2 ^ 0) 30 := by decide
        rw [h0, ih 0 (by omega) i (by omega)]
        congr 3
        omega

end Assignment_2_AP

/-- C22 as stated fails: after ten consecutive failed attempts the loop starts
over, so the delay slept after the failed attempt number 10 (counting from 0)
is 1 second, where min(2^10, 30) is 30. -/
theorem C22_counterexample_backoff_restarts :
    (Assignment_2_AP.main (List.replicate 11 false))[10]? = some 1 ∧
      min (2 ^ 10) 30 = 30 ∧
      Assignment_2_AP.main (List.replicate 11 false) = [1, 2, 4, 8, 16, 30, 30, 30, 30, 30, 1] := by
  refine ⟨by decide, by decide, by decide⟩

/-- C22 (amended): while connecting keeps failing, the delay slept after the
i-th consecutive failed attempt (i = 0, 1, 2, ...) is min(2^(i mod 10), 30)
seconds: it starts at 1 second, doubles after each failure up to the cap of 30
seconds, and starts again at 1 second after every tenth failure. -/
theorem C22_backoff_delays (n i : Nat) (hi : i < n) :
    (Assignment_2_AP.main (List.replicate n false))[i]? = some (min (2 ^ (i % 10)) 30) := by
  have h := Assignment_2_AP.mainSleeps_failures n 0 (by omega) i hi
  rw [Nat.zero_add] at h
  exact h

/-- C22 (amended), at the sixth and the eleventh failed attempt. -/
theorem C22_backoff_delays_witness :
    (Assignment_2_AP.main (List.replicate 12 false))[5]? = some 30 ∧
      (Assignment_2_AP.main (List.replicate 12 false))[10]? = some 1 :=
  ⟨C22_backoff_delays 12 5 (by decide), C22_backoff_delays 12 10 (by decide)⟩

/-! ## Claims on the plain store and the synchronous follower -/

namespace Plain

theorem applyStoreOp_get (s : KeyValueStore) (op : StoreOp) (k : String) :
    (applyStoreOp s op).get k =
      if op.key = k then
        (match op with
          | StoreOp.set _ value => some value
          | StoreOp.deleteKey _ => none)
      else s.get k := by
  cases op with
  | set key value =>
    by_cases h : key = k
    · subst h
      simp [applyStoreOp, StoreOp.key, KeyValueStore.get, KeyValueStore.set, UMap.find_assign]
    · have h2 : ¬ k = key := fun e => h e.symm
      simp [applyStoreOp, StoreOp.key, KeyValueStore.get, KeyValueStore.set, UMap.find_assign,
        h, h2]
  | deleteKey key =>
    by_cases h : key = k
    · subst h
      simp [applyStoreOp, StoreOp.key, KeyValueStore.get, KeyValueStore.deleteKey,
        UMap.find_erase]
    · have h2 : ¬ k = key := fun e => h e.symm
      simp [applyStoreOp, StoreOp.key, KeyValueStore.get, KeyValueStore.deleteKey,
        UMap.find_erase, h, h2]

theorem applyStoreOps_get (k : String) (ops : List StoreOp) :
    (applyStoreOps {} ops).get k = mostRecent k ops := by
  induction ops using List.reverseRecOn with
  | nil => rfl
  | append_singleton init op ih =>
    have hfold : applyStoreOps {} (init ++ [op]) = applyStoreOp (applyStoreOps {} init) op := by
      simp [applyStoreOps, List.foldl_append]
    rw [hfold, applyStoreOp_get, ih]
    unfold mostRecent
    rw [List.reverse_append, List.reverse_singleton, List.singleton_append, List.find?_cons]
    by_cases h : op.key = k
    · simp only [h, if_true, decide_True]
      cases op <;> rfl
    · simp only [h, if_false, decide_False]

end Plain

/-- C23: after any list of `set` and `deleteKey` operations on an empty plain
store, `get(k)` returns the value of the most recent `set(k, .)` when no
`deleteKey(k)` follows it and reports not found otherwise; on any store
`deleteKey(k)` returns true exactly when `get(k)` finds `k`, and afterwards
`get(k)` finds nothing; `get` is a function of the store alone and returns no
store. -/
theorem C23_plain_store_is_finite_map (ops : List Plain.StoreOp) (s : Plain.KeyValueStore)
    (k v : String) :
    (Plain.applyStoreOps {} ops).get k = Plain.mostRecent k ops ∧
      ((s.deleteKey k).1 = true ↔ s.get k ≠ none) ∧
      (s.deleteKey k).2.get k = none ∧
      (s.set k v).get k = some v ∧
      (Plain.applyStoreOps s (ops ++ [Plain.StoreOp.set k v])).get k = some v ∧
      (Plain.applyStoreOps s (ops ++ [Plain.StoreOp.deleteKey k])).get k = none := by
  refine ⟨Plain.applyStoreOps_get k ops, ?_, ?_, ?_, ?_, ?_⟩
  · unfold Plain.KeyValueStore.deleteKey Plain.KeyValueStore.get
    cases UMap.find k s.data <;> simp
  · simp [Plain.KeyValueStore.deleteKey, Plain.KeyValueStore.get, UMap.find_erase]
  · simp [Plain.KeyValueStore.set, Plain.KeyValueStore.get, UMap.find_assign]
  · have hfold : Plain.applyStoreOps s (ops ++ [Plain.StoreOp.set k v]) =
        Plain.applyStoreOp (Plain.applyStoreOps s ops) (Plain.StoreOp.set k v) := by
      simp [Plain.applyStoreOps, List.foldl_append]
    rw [hfold, Plain.applyStoreOp_get]
    simp [Plain.StoreOp.key]
  · have hfold : Plain.applyStoreOps s (ops ++ [Plain.StoreOp.deleteKey k]) =
        Plain.applyStoreOp (Plain.applyStoreOps s ops) (Plain.StoreOp.deleteKey k) := by
      simp [Plain.applyStoreOps, List.foldl_append]
    rw [hfold, Plain.applyStoreOp_get]
    simp [Plain.StoreOp.key]

namespace Assignment_1_CP

theorem listenForUpdates_acks :
    ∀ (msgs : List Message) (f : Follower),
      (listenForUpdates f msgs).2 =
          (msgs.filter (fun m =>
            m.cmd = CommandType.CMD_SET ∨ m.cmd = CommandType.CMD_DELETE)).map
            (fun m => sendAck f m.sequence) ∧
        (listenForUpdates f msgs).1.followerId = f.followerId := by
  intro msgs
  induction msgs with
  | nil => intro f; exact ⟨rfl, rfl⟩
  | cons msg rest ih =>
    intro f
    have hid : (listenForUpdatesStep f msg).1.followerId = f.followerId := by
      unfold listenForUpdatesStep
      split
      · rfl
      · split <;> rfl
    have hack : ∀ n, sendAck (listenForUpdatesStep f msg).1 n = sendAck f n := by
      intro n
      unfold sendAck
      rw [hid]
    obtain ⟨i1, i2⟩ := ih (listenForUpdatesStep f msg).1
    refine ⟨?_, ?_⟩
    · show (listenForUpdatesStep f msg).2 ++ (listenForUpdates (listenForUpdatesStep f msg).1 rest).2 = _
      rw [i1]
      simp only [hack]
      cases hc : msg.cmd <;>
        simp [listenForUpdatesStep, List.filter_cons, hc]
    · show (listenForUpdates (listenForUpdatesStep f msg).1 rest).1.followerId = _
      rw [i2, hid]

end Assignment_1_CP

namespace Assignment_1_CP

open Plain

/-- C24: on a SET the synchronous follower applies `set` and sends exactly one
message, an ACK with the sequence number of the SET and its own follower id; on
a DELETE it applies `deleteKey` and sends exactly one such ACK; on any other
message it sends nothing and keeps its store.  Over a whole connection the
messages it sends are the ACKs of the SETs and DELETEs it received, in order. -/
theorem C24_follower_acks_each_mutation (f : Follower) (msg : Message) (msgs : List Message) :
    ((msg.cmd = CommandType.CMD_SET ∧
          (listenForUpdatesStep f msg).1.store = f.store.set msg.key msg.value ∧
          (listenForUpdatesStep f msg).2 =
            [{ cmd := CommandType.CMD_ACK, sequence := msg.sequence,
               followerId := f.followerId, status := 0 }]) ∨
        (msg.cmd = CommandType.CMD_DELETE ∧
          (listenForUpdatesStep f msg).1.store = (f.store.deleteKey msg.key).2 ∧
          (listenForUpdatesStep f msg).2 =
            [{ cmd := CommandType.CMD_ACK, sequence := msg.sequence,
               followerId := f.followerId, status := 0 }]) ∨
        (msg.cmd ≠ CommandType.CMD_SET ∧ msg.cmd ≠ CommandType.CMD_DELETE ∧
          (listenForUpdatesStep f msg).1 = f ∧ (listenForUpdatesStep f msg).2 = [])) ∧
      (listenForUpdates f msgs).2 =
        (msgs.filter (fun m =>
          m.cmd = CommandType.CMD_SET ∨ m.cmd = CommandType.CMD_DELETE)).map
          (fun m => { cmd := CommandType.CMD_ACK, sequence := m.sequence,
                      followerId := f.followerId, status := 0 }) := by
  refine ⟨?_, (listenForUpdates_acks msgs f).1⟩
  by_cases h1 : msg.cmd = CommandType.CMD_SET
  · left
    refine ⟨h1, ?_, ?_⟩ <;> simp [listenForUpdatesStep, h1, sendAck]
  · by_cases h2 : msg.cmd = CommandType.CMD_DELETE
    · right
      left
      refine ⟨h2, ?_, ?_⟩ <;> simp [listenForUpdatesStep, h2, sendAck]
    · right
      right
      refine ⟨h1, h2, ?_, ?_⟩ <;> simp [listenForUpdatesStep, h1, h2]

/-- C26: an acknowledgement whose sequence number has no entry in `pendingOps`
leaves the whole state of the leader as it was: pending table, store, registry
and counter. -/
theorem C26_unknown_ack_is_dropped (requireAllAcks : Bool) (l : Leader) (ev : AckEvent)
    (hunknown : UMap.find ev.ackMsg.sequence l.pendingOps = none) :
    receiveAcks requireAllAcks l ev = l := by
  unfold receiveAcks
  by_cases hcmd : ev.ackMsg.cmd = CommandType.CMD_ACK
  · simp [hcmd, hunknown]
  · simp [hcmd]

/-- C26, at an acknowledgement for sequence 9 while only sequence 4 is pending. -/
theorem C26_unknown_ack_is_dropped_witness :
    receiveAcks true
        { followerSockets := [5, 6], sequenceCounter := 4,
          pendingOps := [(4, { expectedAcks := 2, receivedAcks := 1,
                               completed := false, success := false })] }
        { followerSocket := 5, followerId := 1,
          ackMsg := { cmd := CommandType.CMD_ACK, sequence := 9, followerId := 1 } } =
      { followerSockets := [5, 6], sequenceCounter := 4,
        pendingOps := [(4, { expectedAcks := 2, receivedAcks := 1,
                             completed := false, success := false })] } :=
  C26_unknown_ack_is_dropped true _ _ (by decide)

/-- C27: handling a GET in the synchronous leader leaves the leader as it was
(store, pending table, counter and registry), sends nothing to any follower, and
answers from the store alone: status 0 and the stored value when the key is
present, status -1 otherwise, whatever acknowledgements arrive and whatever the
rest of the state holds. -/
theorem C27_get_bypasses_replication (requireAllAcks : Bool) (l l2 : Leader) (msg : Message)
    (acks acks2 : List AckEvent)
    (hget : msg.cmd = CommandType.CMD_GET) (hstore : l2.store = l.store) :
    (handleClientStep requireAllAcks l msg acks).leader = l ∧
      (handleClientStep requireAllAcks l msg acks).sent = [] ∧
      (handleClientStep requireAllAcks l msg acks).response.sequence = msg.sequence ∧
      (handleClientStep requireAllAcks l msg acks).response.status =
        (if (l.store.get msg.key).isSome then 0 else -1) ∧
      (∀ v, l.store.get msg.key = some v →
        (handleClientStep requireAllAcks l msg acks).response.status = 0 ∧
        (handleClientStep requireAllAcks l msg acks).response.response =
          snprintf MAX_VALUE_SIZE v) ∧
      (handleClientStep requireAllAcks l2 msg acks2).response =
        (handleClientStep requireAllAcks l msg acks).response := by
  rw [handleClientStep_get requireAllAcks l msg acks hget,
    handleClientStep_get requireAllAcks l2 msg acks2 hget, hstore]
  cases hf : l.store.get msg.key with
  | none => simp
  | some v => simp

/-- C27, at a GET of a key the leader holds while two followers are registered. -/
theorem C27_get_bypasses_replication_witness :
    (handleClientStep true
        { store := { data := [("k", "v")] }, followerSockets := [5, 6], sequenceCounter := 3 }
        { cmd := CommandType.CMD_GET, key := "k" } []).leader =
      { store := { data := [("k", "v")] }, followerSockets := [5, 6], sequenceCounter := 3 } ∧
    (handleClientStep true
        { store := { data := [("k", "v")] }, followerSockets := [5, 6], sequenceCounter := 3 }
        { cmd := CommandType.CMD_GET, key := "k" } []).sent = [] :=
  ⟨(C27_get_bypasses_replication true _ _ _ [] [] rfl rfl).1,
   (C27_get_bypasses_replication true
      { store := { data := [("k", "v")] }, followerSockets := [5, 6], sequenceCounter := 3 }
      { store := { data := [("k", "v")] }, followerSockets := [5, 6], sequenceCounter := 3 }
      { cmd := CommandType.CMD_GET, key := "k" } [] [] rfl rfl).2.1⟩

end Assignment_1_CP

namespace Assignment_3_Bonus

/-- C30: once `deleteKey(k, T)` has returned true, a following `set(k, v, ts)`
returns true and binds `k` to `(v, ts)` for every `ts`, also for `ts < T`: the
store keeps no record of the deletion. -/
theorem C30_delete_leaves_no_tombstone (s : KeyValueStore) (k v : String) (T ts : Nat)
    (hdel : (s.deleteKey k T).1 = true) :
    ((s.deleteKey k T).2.set k v ts).1 = true ∧
      UMap.find k ((s.deleteKey k T).2.set k v ts).2.data =
        some { value := v, timestamp := ts } ∧
      UMap.find k (s.deleteKey k T).2.data = none := by
  have hgone : UMap.find k (s.deleteKey k T).2.data = none := by
    unfold KeyValueStore.deleteKey at hdel ⊢
    cases hf : UMap.find k s.data with
    | none => simp [hf] at hdel
    | some it =>
      by_cases hlt : T < it.timestamp
      · simp [hf, hlt] at hdel
      · simp [hlt, UMap.find_erase]
  have hset : ((s.deleteKey k T).2.set k v ts).1 = true := by
    unfold KeyValueStore.set
    rw [hgone]
  exact ⟨hset, set_true_find _ k v ts hset, hgone⟩

/-- C30, at a key deleted with timestamp 200 and set again with timestamp 50. -/
theorem C30_delete_leaves_no_tombstone_witness :
    (((({ data := [("k", { value := "v1", timestamp := 100 })] } : KeyValueStore).deleteKey
        "k" 200).2.set "k" "v2" 50).1 = true) ∧
      UMap.find "k"
        ((({ data := [("k", { value := "v1", timestamp := 100 })] } : KeyValueStore).deleteKey
          "k" 200).2.set "k" "v2" 50).2.data = some { value := "v2", timestamp := 50 } :=
  ⟨(C30_delete_leaves_no_tombstone { data := [("k", { value := "v1", timestamp := 100 })] }
      "k" "v2" 200 50 (by decide)).1,
   (C30_delete_leaves_no_tombstone { data := [("k", { value := "v1", timestamp := 100 })] }
      "k" "v2" 200 50 (by decide)).2.1⟩

end Assignment_3_Bonus

/-! ## Claims on catch-up from any point and on concurrent handlers -/

namespace Assignment_2_AP

open Plain

theorem sorted_log_split (S : Int) :
    ∀ log : List Message,
      List.Pairwise (fun a b : Int => a < b) (log.map (fun m => m.sequence)) →
      log.filter (fun e => e.sequence ≤ S) ++ log.filter (fun e => e.sequence > S) = log := by
  intro log
  induction log with
  | nil => intro _; rfl
  | cons e rest ih =>
    intro hs
    rw [List.map_cons, List.pairwise_cons] at hs
    obtain ⟨hhead, htail⟩ := hs
    by_cases hle : e.sequence ≤ S
    · have hgt : ¬ e.sequence > S := by omega
      rw [List.filter_cons, List.filter_cons]
      simp only [hle, hgt, decide_True, decide_False, if_true, Bool.false_eq_true, if_false,
        List.cons_append]
      rw [ih htail]
    · have hgt : e.sequence > S := by omega
      have hall : ∀ x ∈ rest, x.sequence > S := by
        intro x hx
        have := hhead x.sequence (List.mem_map.mpr ⟨x, hx, rfl⟩)
        omega
      have hnone : rest.filter (fun e => decide (e.sequence ≤ S)) = [] := by
        rw [List.filter_eq_nil_iff]
        intro x hx
        have := hall x hx
        simp only [decide_eq_true_eq]
        omega
      have hfull : rest.filter (fun e => decide (e.sequence > S)) = rest := by
        rw [List.filter_eq_self]
        intro x hx
        simpa using hall x hx
      rw [List.filter_cons, List.filter_cons]
      simp only [hle, hgt, decide_True, decide_False, if_true, Bool.false_eq_true, if_false]
      rw [hnone, hfull]
      rfl

theorem ap_store_is_log_replay (l0 : Leader) (msgs : List Message)
    (hstore : l0.store = {}) (hlog : l0.operationLog = [])
    (hmut : ∀ m ∈ msgs, mutating m = true) :
    (afterClient l0 msgs).store = (afterClient l0 msgs).operationLog.foldl applyOp {} := by
  obtain ⟨entries, he1, he2, _, _⟩ := ap_afterClient_entries msgs l0 hmut
  rw [ap_afterClient_store msgs l0 hmut, he1, hlog, List.nil_append, he2, hstore]

/-- C29: the log of the leader carries strictly increasing sequence numbers and
holds SET and DELETE messages; a follower whose store is the replay of the
entries with sequence at most `S` and whose last-applied sequence is `S` runs
`requestSync` against `handleFollower`.  Its store is then the replay of the
whole log, which is the store of the leader whenever that store is the replay
of its log, as it is after SET and DELETE requests handled from the initial
state; its last-applied sequence is the counter of the leader. -/
theorem C29_catch_up_from_any_point (l : Leader) (f : Follower) (followerSocket : Int)
    (S : Int)
    (hsorted : List.Pairwise (fun a b : Int => a < b)
      (l.operationLog.map (fun m => m.sequence)))
    (hops : ∀ e ∈ l.operationLog, mutating e = true)
    (hstore : f.store =
      (l.operationLog.filter (fun e => e.sequence ≤ S)).foldl applyOp {})
    (hlast : f.lastSequence = S) :
    (requestSync f true (handleFollower l followerSocket (some (syncReq f))).sent).store =
        l.operationLog.foldl applyOp {} ∧
      (requestSync f true (handleFollower l followerSocket (some (syncReq f))).sent
        ).lastSequence = l.logSequence ∧
      (l.store = l.operationLog.foldl applyOp {} →
        (requestSync f true (handleFollower l followerSocket (some (syncReq f))).sent).store =
          l.store) ∧
      (∀ (l0 : Leader) (msgs : List Message), l0.store = {} → l0.operationLog = [] →
        (∀ m ∈ msgs, mutating m = true) →
        (afterClient l0 msgs).store = (afterClient l0 msgs).operationLog.foldl applyOp {}) := by
  have hne : ∀ e ∈ l.operationLog.filter (fun e => e.sequence > S),
      e.cmd ≠ CommandType.CMD_ACK := by
    intro e he
    have hm := hops e (List.mem_filter.mp he).1
    simp only [mutating, decide_eq_true_eq] at hm
    rcases hm with hm | hm <;> rw [hm] <;> decide
  obtain ⟨g1, g2, _, _⟩ := ap_requestSyncLoop_entries
    (l.operationLog.filter (fun e => e.sequence > S)) f
    { cmd := CommandType.CMD_ACK, sequence := l.logSequence } [] hne rfl
  have hsent : (handleFollower l followerSocket (some (syncReq f))).sent =
      l.operationLog.filter (fun e => e.sequence > S) ++
        [{ cmd := CommandType.CMD_ACK, sequence := l.logSequence }] := by
    rw [ap_handleFollower_sync, hlast]
  have hres : (requestSync f true
      (handleFollower l followerSocket (some (syncReq f))).sent).store =
      l.operationLog.foldl applyOp {} := by
    rw [hsent]
    unfold requestSync
    simp only [if_true]
    rw [g1, hstore, ← List.foldl_append, sorted_log_split S l.operationLog hsorted]
  refine ⟨hres, ?_, ?_, ?_⟩
  · rw [hsent]
    unfold requestSync
    simp only [if_true]
    rw [g2]
  · intro hl
    rw [hres, hl]
  · intro l0 msgs h1 h2 h3
    exact ap_store_is_log_replay l0 msgs h1 h2 h3

/-- C29, at a log of three entries and a follower that has applied the first. -/
theorem C29_catch_up_from_any_point_witness :
    (requestSync { store := { data := [("a", "1")] }, lastSequence := 1 } true
        (handleFollower
          { store := { data := [("b", "2")] },
            operationLog :=
              [{ cmd := CommandType.CMD_SET, key := "a", value := "1", sequence := 1 },
               { cmd := CommandType.CMD_SET, key := "b", value := "2", sequence := 2 },
               { cmd := CommandType.CMD_DELETE, key := "a", sequence := 3 }],
            logSequence := 3 }
          7 (some (syncReq { store := { data := [("a", "1")] }, lastSequence := 1 }))).sent
      ).store = { data := [("b", "2")] } :=
  (C29_catch_up_from_any_point
    { store := { data := [("b", "2")] },
      operationLog :=
        [{ cmd := CommandType.CMD_SET, key := "a", value := "1", sequence := 1 },
         { cmd := CommandType.CMD_SET, key := "b", value := "2", sequence := 2 },
         { cmd := CommandType.CMD_DELETE, key := "a", sequence := 3 }],
      logSequence := 3 }
    { store := { data := [("a", "1")] }, lastSequence := 1 } 7 1
    (by decide) (by decide) (by decide) rfl).1

/-- C25, the code at the failing input: two client threads each handle one SET.
Thread 0 increments the counter (sequence 1), thread 1 increments it (sequence
2), thread 1 appends its message to the log, thread 0 appends its message.  The
log then carries the sequences 2, 1, which are not in increasing order; when
both SETs write the same key, the leader holds the value written second while a
follower that syncs from sequence 0 replays the log and ends with the other. -/
theorem C25_interleaved_appends_out_of_order :
    ((runSchedule
        { threads :=
            [{ pending := [{ cmd := CommandType.CMD_SET, key := "a", value := "1" }] },
             { pending := [{ cmd := CommandType.CMD_SET, key := "b", value := "2" }] }] }
        [0, 1, 1, 0]).leader.operationLog.map (fun m => (m.key, m.sequence)) =
        [("b", 2), ("a", 1)]) ∧
      ¬ List.Pairwise (fun a b : Int => a < b)
        ((runSchedule
          { threads :=
              [{ pending := [{ cmd := CommandType.CMD_SET, key := "a", value := "1" }] },
               { pending := [{ cmd := CommandType.CMD_SET, key := "b", value := "2" }] }] }
          [0, 1, 1, 0]).leader.operationLog.map (fun m => m.sequence)) ∧
      ((runSchedule
        { threads :=
            [{ pending := [{ cmd := CommandType.CMD_SET, key := "a", value := "1" }] },
             { pending := [{ cmd := CommandType.CMD_SET, key := "b", value := "2" }] }] }
        [0, 0, 1, 1]).leader.operationLog.map (fun m => (m.key, m.sequence)) =
        [("a", 1), ("b", 2)]) ∧
      ((runSchedule
        { threads :=
            [{ pending := [{ cmd := CommandType.CMD_SET, key := "k", value := "1" }] },
             { pending := [{ cmd := CommandType.CMD_SET, key := "k", value := "2" }] }] }
        [0, 1, 1, 0]).leader.store.get "k" = some "2") ∧
      ((requestSync {} true
        (handleFollower
          (runSchedule
            { threads :=
                [{ pending := [{ cmd := CommandType.CMD_SET, key := "k", value := "1" }] },
                 { pending := [{ cmd := CommandType.CMD_SET, key := "k", value := "2" }] }] }
            [0, 1, 1, 0]).leader
          7 (some (syncReq {}))).sent).store.get "k" = some "1") := by
  refine ⟨by decide, by decide, by decide, by decide, by decide⟩

end Assignment_2_AP

/-! ## Claims on the RPC servers -/

namespace LV5

theorem takeWhile_stop :
    ∀ (xs ys : List Char), (∀ c ∈ xs, c ≠ NUL) → ys.head? = some NUL →
      (xs ++ ys).takeWhile (fun c => c ≠ NUL) = xs := by
  intro xs
  induction xs with
  | nil =>
    intro ys _ hys
    cases ys with
    | nil => cases hys
    | cons y rest =>
      simp only [List.head?_cons, Option.some.injEq] at hys
      simp [List.takeWhile_cons, hys]
  | cons x rest ih =>
    intro ys hxs hys
    have hx : x ≠ NUL := hxs x (by simp)
    rw [List.cons_append, List.takeWhile_cons]
    simp only [hx, ne_eq, not_false_eq_true, decide_True, if_true]
    rw [ih ys (fun c hc => hxs c (List.mem_cons_of_mem _ hc)) hys]

theorem cstr_terminated (text : String) (rest : List Char) (h : NUL ∉ text.data)
    (hrest : rest.head? = some NUL) : cstr (text.data ++ rest) = text := by
  unfold cstr
  rw [takeWhile_stop text.data rest (fun c hc e => h (e ▸ hc)) hrest]

theorem fixedField_eq (text : String) (pad : List Char) (hlen : text.length ≤ 63) :
    Assignment1.fixedField text pad = text.data ++ NUL :: pad.take (63 - text.length) := by
  unfold Assignment1.fixedField
  have hl : text.data.length = text.length := rfl
  rw [List.take_append_eq_append_take, List.take_of_length_le (by omega)]
  have h64 : 64 - text.data.length = (63 - text.length) + 1 := by omega
  rw [h64, List.take_succ_cons]

theorem cstr_fixedField (text : String) (pad rest : List Char) (h : NUL ∉ text.data)
    (hlen : text.length ≤ 63) :
    cstr (Assignment1.fixedField text pad ++ rest) = text := by
  rw [fixedField_eq text pad hlen, List.append_assoc]
  exact cstr_terminated text _ h rfl

theorem cstr_readBuf (text : String) (h : NUL ∉ text.data) :
    cstr (Assignment3.readBuf text.length text.data) = text := by
  unfold Assignment3.readBuf
  have hl : text.data.length = text.length := rfl
  rw [List.take_of_length_le (by omega), ← hl, Nat.sub_self, List.replicate_zero,
    List.append_nil]
  exact cstr_terminated text _ h rfl

theorem cstr_strncpy (text : String) (h : NUL ∉ text.data) (hlen : text.length ≤ 63) :
    cstr (strncpy text 63 ++ [NUL]) = text := by
  unfold strncpy
  have hl : text.data.length = text.length := rfl
  rw [List.take_of_length_le (by omega), List.append_assoc]
  apply cstr_terminated text _ h
  cases hn : 63 - text.data.length with
  | zero => rfl
  | succ n => rfl

theorem lookup_bounded (kvStore : List (String × String)) (key : String)
    (hstored : ∀ v, UMap.find key kvStore = some v → v.length ≤ 63 ∧ NUL ∉ v.data) :
    (lookup kvStore key).length ≤ 63 ∧ NUL ∉ (lookup kvStore key).data := by
  unfold lookup
  cases hf : UMap.find key kvStore with
  | none => exact ⟨by decide, by decide⟩
  | some v => exact hstored v hf

theorem getResult_value (text : String) :
    Assignment3.getResult
      (Assignment3.Response.value text.length (if text.length > 0 then text.data else [])) =
      text := by
  unfold Assignment3.getResult
  by_cases h : text.length > 0
  · simp [h]
  · have h0 : text.data.length = 0 := by
      have hl : text.data.length = text.length := rfl
      omega
    have hnil : text.data = [] := List.length_eq_zero.mp h0
    simp only [h, if_false]
    cases text with
    | mk data =>
      simp only at hnil
      rw [hnil]

end LV5

/-- C28: for a key and a value of at most 63 bytes without NUL, a SET stores the
same pair in the store of the fixed-width server and in the store of the
length-prefixed server; on equal stores whose value for the key, if any, is such
a value, a GET leaves both stores as they are and returns the same value from
both, the stored value or the empty string when the key is absent; and a GET
after the SET returns the value from both. -/
theorem C28_rpc_servers_agree (kvStore : List (String × String)) (key value : String)
    (kpad vpad gpad : List Char)
    (hk : LV5.NUL ∉ key.data) (hv : LV5.NUL ∉ value.data)
    (hklen : key.length ≤ 63) (hvlen : value.length ≤ 63)
    (hstored : ∀ v, UMap.find key kvStore = some v → v.length ≤ 63 ∧ LV5.NUL ∉ v.data) :
    ((LV5.Assignment1.handleClient kvStore
          (some { procedure := LV5.PROCEDURE_SET,
                  key := LV5.Assignment1.fixedField key kpad,
                  value := LV5.Assignment1.fixedField value vpad })).1 =
        UMap.assign key value kvStore ∧
      (LV5.Assignment3.handleClient kvStore
          { procedure := some LV5.Assignment3.PROCEDURE_SET,
            keyLen := key.length, keyBytes := key.data,
            valLen := value.length, valBytes := value.data }).1 =
        UMap.assign key value kvStore) ∧
      ((LV5.Assignment1.handleClient kvStore
          (some { procedure := LV5.PROCEDURE_GET,
                  key := LV5.Assignment1.fixedField key kpad, value := gpad })).1 = kvStore ∧
        (LV5.Assignment3.handleClient kvStore
          { procedure := some LV5.Assignment3.PROCEDURE_GET,
            keyLen := key.length, keyBytes := key.data }).1 = kvStore ∧
        (LV5.Assignment1.handleClient kvStore
          (some { procedure := LV5.PROCEDURE_GET,
                  key := LV5.Assignment1.fixedField key kpad, value := gpad })).2.map
            LV5.Assignment1.kv_get_result = some (LV5.lookup kvStore key) ∧
        (LV5.Assignment3.handleClient kvStore
          { procedure := some LV5.Assignment3.PROCEDURE_GET,
            keyLen := key.length, keyBytes := key.data }).2.map
            LV5.Assignment3.getResult = some (LV5.lookup kvStore key)) ∧
      ((LV5.Assignment1.handleClient
          (LV5.Assignment1.handleClient kvStore
            (some { procedure := LV5.PROCEDURE_SET,
                    key := LV5.Assignment1.fixedField key kpad,
                    value := LV5.Assignment1.fixedField value vpad })).1
          (some { procedure := LV5.PROCEDURE_GET,
                  key := LV5.Assignment1.fixedField key kpad, value := gpad })).2.map
            LV5.Assignment1.kv_get_result = some value ∧
        (LV5.Assignment3.handleClient
          (LV5.Assignment3.handleClient kvStore
            { procedure := some LV5.Assignment3.PROCEDURE_SET,
              keyLen := key.length, keyBytes := key.data,
              valLen := value.length, valBytes := value.data }).1
          { procedure := some LV5.Assignment3.PROCEDURE_GET,
            keyLen := key.length, keyBytes := key.data }).2.map
            LV5.Assignment3.getResult = some value) := by
  have hkey1 : ∀ rest, LV5.cstr (LV5.Assignment1.fixedField key kpad ++ rest) = key :=
    fun rest => LV5.cstr_fixedField key kpad rest hk hklen
  have hval1 : LV5.cstr (LV5.Assignment1.fixedField value vpad) = value := by
    have := LV5.cstr_fixedField value vpad [] hv hvlen
    rwa [List.append_nil] at this
  have hkey3 := LV5.cstr_readBuf key hk
  have hval3 := LV5.cstr_readBuf value hv
  have hset1 : (LV5.Assignment1.handleClient kvStore
      (some { procedure := LV5.PROCEDURE_SET,
              key := LV5.Assignment1.fixedField key kpad,
              value := LV5.Assignment1.fixedField value vpad })).1 =
      UMap.assign key value kvStore := by
    simp [LV5.Assignment1.handleClient, hkey1, hval1]
  have hset3 : (LV5.Assignment3.handleClient kvStore
      { procedure := some LV5.Assignment3.PROCEDURE_SET,
        keyLen := key.length, keyBytes := key.data,
        valLen := value.length, valBytes := value.data }).1 =
      UMap.assign key value kvStore := by
    simp [LV5.Assignment3.handleClient, hkey3, hval3]
  have hget1 : ∀ st : List (String × String),
      (∀ v, UMap.find key st = some v → v.length ≤ 63 ∧ LV5.NUL ∉ v.data) →
      (LV5.Assignment1.handleClient st
        (some { procedure := LV5.PROCEDURE_GET,
                key := LV5.Assignment1.fixedField key kpad, value := gpad })).1 = st ∧
      (LV5.Assignment1.handleClient st
        (some { procedure := LV5.PROCEDURE_GET,
                key := LV5.Assignment1.fixedField key kpad, value := gpad })).2.map
          LV5.Assignment1.kv_get_result = some (LV5.lookup st key) := by
    intro st hst
    obtain ⟨hl, hn⟩ := LV5.lookup_bounded st key hst
    have hne : ¬ LV5.PROCEDURE_GET = LV5.PROCEDURE_SET := by decide
    simp [LV5.Assignment1.handleClient, hne, hkey1, LV5.Assignment1.kv_get_result,
      LV5.cstr_strncpy _ hn hl]
  have hget3 : ∀ st : List (String × String),
      (LV5.Assignment3.handleClient st
        { procedure := some LV5.Assignment3.PROCEDURE_GET,
          keyLen := key.length, keyBytes := key.data }).1 = st ∧
      (LV5.Assignment3.handleClient st
        { procedure := some LV5.Assignment3.PROCEDURE_GET,
          keyLen := key.length, keyBytes := key.data }).2.map
          LV5.Assignment3.getResult = some (LV5.lookup st key) := by
    intro st
    have hne : ¬ LV5.Assignment3.PROCEDURE_GET = LV5.Assignment3.PROCEDURE_SET := by decide
    have hres := LV5.getResult_value (LV5.lookup st key)
    simp only [LV5.Assignment3.handleClient, hne, if_false, if_true, hkey3, Option.map_some',
      hres, and_self]
  have hafter : LV5.lookup (UMap.assign key value kvStore) key = value := by
    simp [LV5.lookup, UMap.find_assign]
  have hstored2 : ∀ v, UMap.find key (UMap.assign key value kvStore) = some v →
      v.length ≤ 63 ∧ LV5.NUL ∉ v.data := by
    intro v hfind
    rw [UMap.find_assign] at hfind
    simp only [if_true, Option.some.injEq] at hfind
    rw [← hfind]
    exact ⟨hvlen, hv⟩
  refine ⟨⟨hset1, hset3⟩, ⟨(hget1 kvStore hstored).1, (hget3 kvStore).1,
    (hget1 kvStore hstored).2, (hget3 kvStore).2⟩, ?_, ?_⟩
  · rw [hset1, (hget1 _ hstored2).2, hafter]
  · rw [hset3, (hget3 _).2, hafter]

/-- C28, at SET k v followed by GET k on both servers, from empty stores. -/
theorem C28_rpc_servers_agree_witness :
    (LV5.Assignment1.handleClient
        (LV5.Assignment1.handleClient []
          (some { procedure := LV5.PROCEDURE_SET,
                  key := LV5.Assignment1.fixedField "k" [],
                  value := LV5.Assignment1.fixedField "v" [] })).1
        (some { procedure := LV5.PROCEDURE_GET,
                key := LV5.Assignment1.fixedField "k" [], value := [] })).2.map
          LV5.Assignment1.kv_get_result = some "v" ∧
      (LV5.Assignment3.handleClient
        (LV5.Assignment3.handleClient []
          { procedure := some LV5.Assignment3.PROCEDURE_SET,
            keyLen := 1, keyBytes := ['k'], valLen := 1, valBytes := ['v'] }).1
        { procedure := some LV5.Assignment3.PROCEDURE_GET,
          keyLen := 1, keyBytes := ['k'] }).2.map
          LV5.Assignment3.getResult = some "v" :=
  (C28_rpc_servers_agree [] "k" "v" [] [] [] (by decide) (by decide) (by decide) (by decide)
    (by intro v h; cases h)).2.2
